import Mathlib

/-!
# Descent engines of `splab`: `BFGS::optimize` and `SteepDesc::optimize`

A shallow embedding of `src/include/bfgs.h` and `src/include/steepdesc.h`.

Modelling decisions.

* The definitions are written over any type `K` with the operations the code
  applies to `Dtype` (`+`, `-`, `*`, `/`, unary minus, `<`).  They are used at
  linearly ordered fields (exact arithmetic, where `fx > tol` and `fx <= tol`
  are complementary) and at `Dbl`, the rationals with a NaN.
* C++ `int` values (`k`, `maxItr`, `minItr`, `funcNum`) are mathematical
  integers.  The loop counter never exceeds `max maxItr 0 + 1`, so it stays an
  `int` unless `maxItr` is the largest `int`, `intMax`.
* `Vector<Dtype>` of dimension `n` is `Fin n → K`, `Matrix<Dtype>` is
  `Fin n → Fin n → K`.
* The scratch buffer `gnorm` is a map from indices to values; the statement
  `gnorm[k++] = v` updates the map at index `k`.  `optimize` takes the buffer
  without its declared length; `optimizeChecked` declares it with `maxItr`
  entries and stops at the first store outside them.  The two agree on every
  run that ends with `getItrNum() < maxItr`.
* The headers `linesearch.h`, `matrix.h`, `vector.h` and the constant `EPS`
  are not part of the sources; whatever `optimize` uses from them is either a
  field of `Env` or one of the small primitives below.
-/

namespace splab

/-- Dense vector of dimension `n` (`Vector<Dtype>`). -/
abbrev Vec (K : Type) (n : Nat) := Fin n → K

/-- Dense square matrix of dimension `n` (`Matrix<Dtype>`). -/
abbrev Mat (K : Type) (n : Nat) := Fin n → Fin n → K

section Primitives

variable {K : Type} [AddCommMonoid K] [Mul K] [One K] [Neg K] [Sub K] [Div K] [LT K]
  [∀ a b : K, Decidable (a < b)] {n : Nat}

/-- Modelled from the spec: `dotProd` of `vector.h` (absent), the dot product
of two vectors. -/
def dotProd (a b : Vec K n) : K := ∑ i, a i * b i

/-- Modelled from the spec: `multTr(a, b)` of `matrix.h` (absent), the outer
product `a·bᵗ`. -/
def multTr (a b : Vec K n) : Mat K n := fun i j => a i * b j

/-- Modelled from the spec: `eye(N, x)` of `matrix.h` (absent), the identity
generator: `x` on the diagonal, zero elsewhere. -/
def eye (n : Nat) (x : K) : Mat K n := fun i j => if i = j then x else 0

/-- Modelled from the spec: `Matrix * Vector` of `matrix.h` (absent). -/
def mulVec (M : Mat K n) (v : Vec K n) : Vec K n := fun i => ∑ j, M i j * v j

/-- Modelled from the spec: `Matrix * Matrix` of `matrix.h` (absent). -/
def mulMat (A B : Mat K n) : Mat K n := fun i j => ∑ l, A i l * B l j

/-- Symmetry of a square matrix. -/
def IsSymm (H : Mat K n) : Prop := ∀ i j, H i j = H j i

/-- Positive-definiteness of the quadratic form of a square matrix:
`dot(x, H·x) > 0` for every non-zero `x`. -/
def PosDef (H : Mat K n) : Prop := ∀ x : Vec K n, x ≠ 0 → 0 < dotProd x (mulVec H x)

/-- The standard BFGS inverse update, as the specification words it:
`(I − s·yᵗ/ys)·H·(I − y·sᵗ/ys) + s·sᵗ/ys` with `ys = dot(y, s)`. -/
def standardBFGS (H : Mat K n) (s y : Vec K n) : Mat K n :=
  let ys := dotProd y s
  mulMat (mulMat (eye n 1 - fun i j => multTr s y i j / ys) H)
      (eye n 1 - fun i j => multTr y s i j / ys)
    + fun i j => multTr s s i j / ys

/-- Modelled from the spec: `norm` of `vector.h` (absent), the Euclidean norm,
over the square-root function supplied by the environment. -/
def norm (sqrt : K → K) (v : Vec K n) : K := sqrt (dotProd v v)

end Primitives

/-- Modelled from the spec: what one call of `LineSearch::getStep`
(`linesearch.h`, absent) hands back to `optimize`: the step size it returns,
the number of trial evaluations it added to the shared counter `funcNum`, and
the value it left in the shared flag `success`. -/
structure StepResult (K : Type) where
  alpha : K
  trials : Nat
  success : Bool

/-- Everything `optimize` receives from outside the two headers: the objective
functor (`func(x)` and `func.grad(x)`), the inherited line search, the
square root of `<cmath>` and the constant `EPS`. -/
structure Env (K : Type) (n : Nat) where
  func : Vec K n → K
  grad : Vec K n → Vec K n
  getStep : Vec K n → Vec K n → Int → StepResult K
  sqrt : K → K
  EPS : K

/-- The members of the `LineSearch` base object that `optimize` finds on
entry: the evaluation counter and the flag of the last search. -/
structure LineSearch where
  funcNum : Int
  success : Bool

/-- Modelled from the spec: a newly constructed strategy object (the
constructor of `LineSearch` is in `linesearch.h`, absent): nothing counted
yet, flag set. -/
def LineSearch.fresh : LineSearch := { funcNum := 0, success := true }

/-- The members of a strategy object that `optimize` writes and the accessors
read: `funcNum` and `success` of the `LineSearch` base, `fMin`, `xOpt` and
`gradNorm` of the strategy. -/
structure Optimizer (K : Type) (n : Nat) where
  funcNum : Int
  success : Bool
  fMin : K
  xOpt : Vec K n
  gradNorm : List K

namespace Optimizer

variable {K : Type} {n : Nat}

/-- Accessor `isSuccess()`. -/
def isSuccess (o : Optimizer K n) : Bool := o.success

/-- Accessor `getFuncNum()`. -/
def getFuncNum (o : Optimizer K n) : Int := o.funcNum

/-- Accessor `getOptValue()`. -/
def getOptValue (o : Optimizer K n) : Vec K n := o.xOpt

/-- Accessor `getGradNorm()`. -/
def getGradNorm (o : Optimizer K n) : List K := o.gradNorm

/-- Accessor `getFuncMin()`. -/
def getFuncMin (o : Optimizer K n) : K := o.fMin

/-- Accessor `getItrNum()`: `gradNorm.dim()-1`. -/
def getItrNum (o : Optimizer K n) : Int := (o.gradNorm.length : Int) - 1

/-- The `LineSearch` members with which the object enters its next call of
`optimize`. -/
def toLineSearch (o : Optimizer K n) : LineSearch :=
  { funcNum := o.funcNum, success := o.success }

end Optimizer

section Engine

variable {K : Type} [AddCommMonoid K] [Mul K] [One K] [Neg K] [Sub K] [Div K] [LT K]
  [∀ a b : K, Decidable (a < b)] {n : Nat}

/-- The termination predicate inside the `while` condition:
`( k > minItr && fx < tol ) || ( k > maxItr )`. -/
def stopCond (minItr maxItr : Int) (tol : K) (k : Int) (fx : K) : Bool :=
  (decide (k > minItr) && decide (fx < tol)) || decide (k > maxItr)

/-- The loop `while( c ) body`, unrolled at most `fuel` times: the state at
which the condition is first false, or the state after `fuel` rounds. -/
def whileLoop {σ : Type} (c : σ → Bool) (body : σ → σ) : Nat → σ → σ
  | 0, st => st
  | fuel + 1, st => if c st then whileLoop c body fuel (body st) else st

/-- Number of times `whileLoop` runs the body. -/
def whileCount {σ : Type} (c : σ → Bool) (body : σ → σ) : Nat → σ → Nat
  | 0, _ => 0
  | fuel + 1, st => if c st then whileCount c body fuel (body st) + 1 else 0

/-- The copy-out at the end of `optimize`: `gradNorm.resize(k)` followed by
`gradNorm[i] = gnorm[i]` for `0 <= i < k`. -/
def copyTrace (gnorm : Int → K) (k : Int) : List K :=
  (List.range k.toNat).map (fun (i : Nat) => gnorm (i : Int))

end Engine

/-! ## `BFGS::optimize` (bfgs.h, lines 105-186) -/

namespace BFGS

/-- The local variables of `BFGS::optimize` that live across loop iterations,
with the two `LineSearch` members the loop touches. -/
structure State (K : Type) (n : Nat) where
  k : Int
  x : Vec K n
  fx : K
  g : Vec K n
  H : Mat K n
  gnorm : Int → K
  funcNum : Int
  success : Bool

variable {K : Type} [AddCommMonoid K] [Mul K] [One K] [Neg K] [Sub K] [Div K] [LT K]
  [∀ a b : K, Decidable (a < b)] {n : Nat}

/-- The right-hand side of line 170,
`H + multTr(s,s)/ys - multTr(Hy,Hy)/yHy + multTr(v,v)`, with `v` of line 169,
`sqrt(yHy) * ( s/ys - Hy/yHy )`. -/
def secantUpdate (sqrt : K → K) (H : Mat K n) (s Hy : Vec K n) (ys yHy : K) :
    Mat K n :=
  let v : Vec K n := fun i => sqrt yHy * (s i / ys - Hy i / yHy)
  H + (fun i j => multTr s s i j / ys) - (fun i j => multTr Hy Hy i j / yHy)
    + multTr v v

/-- Lines 162-171: the new inverse-Hessian approximation from the old one and
the secant pair `(s, y)`. -/
def updateH (sqrt : K → K) (EPS : K) (H : Mat K n) (s y : Vec K n) : Mat K n :=
  let Hy := mulVec H y
  let ys := dotProd y s
  let yHy := dotProd y Hy
  if ys < EPS ∨ yHy < EPS then eye n 1
  else secantUpdate sqrt H s Hy ys yHy

/-- Line 135: the descent direction `d = - H * g`. -/
def direction (H : Mat K n) (g : Vec K n) : Vec K n := mulVec (-H) g

/-- Lines 126-130: the state on entry to the loop.  The buffer `gnorm` is
taken without its declared length here (the store at index `0` always
succeeds); `initChecked` declares it with `maxItr` entries. -/
def init (E : Env K n) (self : LineSearch) (x0 : Vec K n) : State K n :=
  let x := x0
  let fx := E.func x
  let g := E.grad x
  { k := 1, x := x, fx := fx, g := g, H := eye n 1,
    gnorm := Function.update (fun _ => 0) 0 (norm E.sqrt g),
    funcNum := self.funcNum + 1, success := self.success }

/-- Line 138: the call `this->getStep( func, x, d, 100 )` of one iteration. -/
def search (E : Env K n) (st : State K n) : StepResult K :=
  E.getStep st.x (direction st.H st.g) 100

/-- Line 154: the step `s = alpha * d` of one iteration. -/
def secantS (E : Env K n) (st : State K n) : Vec K n :=
  fun i => (search E st).alpha * direction st.H st.g i

/-- Lines 155-160: the gradient change `y = g - gPrev` of one iteration, the
new gradient being taken at `x + s`. -/
def secantY (E : Env K n) (st : State K n) : Vec K n :=
  E.grad (st.x + secantS E st) - st.g

/-- Lines 134-172: one execution of the loop body.  The store `gnorm[k++]`
is made without the declared length of the buffer here; `bodyChecked` makes it
into the `maxItr` entries. -/
def body (E : Env K n) (st : State K n) : State K n :=
  let s := secantS E st
  let x := st.x + s
  let fx := E.func x
  let g := E.grad x
  let y := secantY E st
  { k := st.k + 1, x := x, fx := fx, g := g,
    H := updateH E.sqrt E.EPS st.H s y,
    gnorm := Function.update st.gnorm st.k (norm E.sqrt g),
    funcNum := st.funcNum + (search E st).trials + 1,
    success := (search E st).success }

/-- Line 132: the `while` condition. -/
def guard (tol : K) (maxItr minItr : Int) (st : State K n) : Bool :=
  !(stopCond minItr maxItr tol st.k st.fx)

/-- The loop state after `m` executions of the body. -/
def iterate (E : Env K n) (self : LineSearch) (x0 : Vec K n) (m : Nat) :
    State K n :=
  (body E)^[m] (init E self x0)

/-- What the line-search call of round `m` (counting from zero) adds to the
counter `funcNum`. -/
def trialsAt (E : Env K n) (self : LineSearch) (x0 : Vec K n) (m : Nat) : Nat :=
  (search E (iterate E self x0 m)).trials

/-- Lines 132-174: the state on leaving the loop.  The counter `k` starts at
one and grows by one per round while `k <= maxItr`, so `maxItr` rounds of
unrolling are always enough (`BFGS.guard_run`). -/
def run (E : Env K n) (self : LineSearch) (x0 : Vec K n) (tol : K)
    (maxItr minItr : Int) : State K n :=
  whileLoop (guard tol maxItr minItr) (body E) maxItr.toNat (init E self x0)

/-- Number of outer iterations executed by the loop of lines 132-174. -/
def iterations (E : Env K n) (self : LineSearch) (x0 : Vec K n) (tol : K)
    (maxItr minItr : Int) : Nat :=
  whileCount (guard tol maxItr minItr) (body E) maxItr.toNat (init E self x0)

/-- Lines 176-185: what `optimize` stores in the object from the final loop
state.  The flag follows the test `fx > tol` of the code; when `fx` or `tol` is
not a number that test is false and the flag is set. -/
def finish (tol : K) (st : State K n) : Optimizer K n :=
  { xOpt := st.x, fMin := st.fx, gradNorm := copyTrace st.gnorm st.k,
    funcNum := st.funcNum,
    success := if st.fx > tol then false else true }

/-- `BFGS::optimize(func, x0, tol, maxItr, minItr)` called on the object
`self`; the result is the object afterwards. -/
def optimize (E : Env K n) (self : LineSearch) (x0 : Vec K n) (tol : K)
    (maxItr minItr : Int) : Optimizer K n :=
  finish tol (run E self x0 tol maxItr minItr)

end BFGS

/-! ## `SteepDesc::optimize` (steepdesc.h, lines 103-147) -/

namespace SteepDesc

/-- The local variables of `SteepDesc::optimize` that live across loop
iterations, with the two `LineSearch` members the loop touches. -/
structure State (K : Type) (n : Nat) where
  k : Int
  x : Vec K n
  fx : K
  g : Vec K n
  gnorm : Int → K
  funcNum : Int
  success : Bool

variable {K : Type} [AddCommMonoid K] [Mul K] [One K] [Neg K] [Sub K] [Div K] [LT K]
  [∀ a b : K, Decidable (a < b)] {n : Nat}

/-- Line 122: the descent direction `d = - g`. -/
def direction (g : Vec K n) : Vec K n := -g

/-- Lines 108-114: the state on entry to the loop.  The buffer `gnorm` is
taken without its declared length here; `initChecked` declares it with
`maxItr` entries. -/
def init (E : Env K n) (self : LineSearch) (x0 : Vec K n) : State K n :=
  let x := x0
  let fx := E.func x
  let g := E.grad x
  { k := 1, x := x, fx := fx, g := g,
    gnorm := Function.update (fun _ => 0) 0 (norm E.sqrt g),
    funcNum := self.funcNum + 1, success := self.success }

/-- Line 125: the call `this->getStep( func, x, d, 100 )` of one iteration. -/
def search (E : Env K n) (st : State K n) : StepResult K :=
  E.getStep st.x (direction st.g) 100

/-- Lines 121-134: one execution of the loop body.  The store `gnorm[k++]`
is made without the declared length of the buffer here; `bodyChecked` makes it
into the `maxItr` entries. -/
def body (E : Env K n) (st : State K n) : State K n :=
  let d := direction st.g
  let alpha := (search E st).alpha
  let x := st.x + (fun i => alpha * d i)
  let fx := E.func x
  let g := E.grad x
  { k := st.k + 1, x := x, fx := fx, g := g,
    gnorm := Function.update st.gnorm st.k (norm E.sqrt g),
    funcNum := st.funcNum + (search E st).trials + 1,
    success := (search E st).success }

/-- Line 119: the `while` condition. -/
def guard (tol : K) (maxItr minItr : Int) (st : State K n) : Bool :=
  !(stopCond minItr maxItr tol st.k st.fx)

/-- The loop state after `m` executions of the body. -/
def iterate (E : Env K n) (self : LineSearch) (x0 : Vec K n) (m : Nat) :
    State K n :=
  (body E)^[m] (init E self x0)

/-- What the line-search call of round `m` (counting from zero) adds to the
counter `funcNum`. -/
def trialsAt (E : Env K n) (self : LineSearch) (x0 : Vec K n) (m : Nat) : Nat :=
  (search E (iterate E self x0 m)).trials

/-- Lines 119-135: the state on leaving the loop; `maxItr` rounds of
unrolling are always enough (`SteepDesc.guard_run_sd`). -/
def run (E : Env K n) (self : LineSearch) (x0 : Vec K n) (tol : K)
    (maxItr minItr : Int) : State K n :=
  whileLoop (guard tol maxItr minItr) (body E) maxItr.toNat (init E self x0)

/-- Number of outer iterations executed by the loop of lines 119-135. -/
def iterations (E : Env K n) (self : LineSearch) (x0 : Vec K n) (tol : K)
    (maxItr minItr : Int) : Nat :=
  whileCount (guard tol maxItr minItr) (body E) maxItr.toNat (init E self x0)

/-- Lines 137-146: what `optimize` stores in the object from the final loop
state.  The flag follows the test `fx > tol` of the code; when `fx` or `tol` is
not a number that test is false and the flag is set. -/
def finish (tol : K) (st : State K n) : Optimizer K n :=
  { xOpt := st.x, fMin := st.fx, gradNorm := copyTrace st.gnorm st.k,
    funcNum := st.funcNum,
    success := if st.fx > tol then false else true }

/-- `SteepDesc::optimize(func, x0, tol, maxItr, minItr)` called on the object
`self`; the result is the object afterwards. -/
def optimize (E : Env K n) (self : LineSearch) (x0 : Vec K n) (tol : K)
    (maxItr minItr : Int) : Optimizer K n :=
  finish tol (run E self x0 tol maxItr minItr)

end SteepDesc

/-! ## `Vector<Dtype>` with its declared length -/

/-- Modelled from the spec: the two ways in which a `Vector<Dtype>` of
`vector.h` (absent) stops the program when `BOUNDS_CHECK` is defined
(main.cpp, line 3): a declaration with a negative length, and an element
access outside the declared entries. -/
inductive Fault where
  | badLength (length : Int) : Fault
  | outOfRange (index : Int) : Fault

/-- Modelled from the spec: the declaration `Vector<Dtype> v(length)`. -/
def declare (length : Int) : Except Fault Unit :=
  if length < 0 then Except.error (Fault.badLength length) else Except.ok ()

/-- Modelled from the spec: the assignment `v[i] = x` to a vector declared
with `length` entries and holding `buf`: the entry is replaced when
`0 <= i < length`, the program stops otherwise. -/
def store {K : Type} (length : Int) (buf : Int → K) (i : Int) (x : K) :
    Except Fault (Int → K) :=
  if 0 ≤ i ∧ i < length then Except.ok (Function.update buf i x)
  else Except.error (Fault.outOfRange i)

/-- Modelled from the spec: the read `v[i]` of a vector declared with
`length` entries and holding `buf`. -/
def fetch {K : Type} (length : Int) (buf : Int → K) (i : Int) : Except Fault K :=
  if 0 ≤ i ∧ i < length then Except.ok (buf i) else Except.error (Fault.outOfRange i)

/-- The reads `gnorm[i]` for `0 <= i < k` of the copy-out at the end of
`optimize`, in increasing order of `i`. -/
def fetchAll {K : Type} (length : Int) (buf : Int → K) : Nat → Except Fault (List K)
  | 0 => Except.ok []
  | k + 1 =>
    match fetchAll length buf k with
    | Except.error e => Except.error e
    | Except.ok l =>
      match fetch length buf (k : Int) with
      | Except.error e => Except.error e
      | Except.ok v => Except.ok (l ++ [v])

/-- The loop `while( c ) body` whose body may stop the program, unrolled at
most `fuel` times. -/
def whileLoopE {σ ε : Type} (c : σ → Bool) (body : σ → Except ε σ) :
    Nat → σ → Except ε σ
  | 0, st => Except.ok st
  | fuel + 1, st =>
    if c st then
      match body st with
      | Except.error e => Except.error e
      | Except.ok st' => whileLoopE c body fuel st'
    else Except.ok st

/-! ## `BFGS::optimize` with the trace buffer of `maxItr` entries -/

namespace BFGS

variable {K : Type} [AddCommMonoid K] [Mul K] [One K] [Neg K] [Sub K] [Div K] [LT K]
  [∀ a b : K, Decidable (a < b)] {n : Nat}

/-- Lines 126-130 with the buffer: `Vector<Dtype> gnorm(maxItr)` is declared
and `gnorm[k++] = norm(g)` stores at index `0`. -/
def initChecked (E : Env K n) (self : LineSearch) (x0 : Vec K n) (maxItr : Int) :
    Except Fault (State K n) :=
  match declare maxItr with
  | Except.error e => Except.error e
  | Except.ok _ =>
    match store maxItr (fun _ => 0) 0 (norm E.sqrt (E.grad x0)) with
    | Except.error e => Except.error e
    | Except.ok gn => Except.ok { init E self x0 with gnorm := gn }

/-- Lines 134-172 with the buffer: the round of `body`, whose last statement
`gnorm[k++] = norm(g)` stores at index `k` of the `maxItr` entries. -/
def bodyChecked (E : Env K n) (maxItr : Int) (st : State K n) :
    Except Fault (State K n) :=
  match store maxItr st.gnorm st.k (norm E.sqrt (body E st).g) with
  | Except.error e => Except.error e
  | Except.ok gn => Except.ok { body E st with gnorm := gn }

/-- Lines 126-174 with the buffer, the loop unrolled at most `fuel` times. -/
def loopChecked (E : Env K n) (self : LineSearch) (x0 : Vec K n) (tol : K)
    (maxItr minItr : Int) (fuel : Nat) : Except Fault (State K n) :=
  match initChecked E self x0 maxItr with
  | Except.error e => Except.error e
  | Except.ok st0 => whileLoopE (guard tol maxItr minItr) (bodyChecked E maxItr) fuel st0

/-- Lines 176-185 with the buffer: the copy-out reads `gnorm[i]` for
`0 <= i < k`. -/
def finishChecked (tol : K) (maxItr : Int) (st : State K n) :
    Except Fault (Optimizer K n) :=
  match fetchAll maxItr st.gnorm st.k.toNat with
  | Except.error e => Except.error e
  | Except.ok tr => Except.ok { finish tol st with gradNorm := tr }

/-- `BFGS::optimize` with the trace buffer of `maxItr` entries: the object
afterwards when the call returns, the fault when a `Vector` stops it. -/
def optimizeChecked (E : Env K n) (self : LineSearch) (x0 : Vec K n) (tol : K)
    (maxItr minItr : Int) : Except Fault (Optimizer K n) :=
  match loopChecked E self x0 tol maxItr minItr maxItr.toNat with
  | Except.error e => Except.error e
  | Except.ok st => finishChecked tol maxItr st

end BFGS

/-! ## `SteepDesc::optimize` with the trace buffer of `maxItr` entries -/

namespace SteepDesc

variable {K : Type} [AddCommMonoid K] [Mul K] [One K] [Neg K] [Sub K] [Div K] [LT K]
  [∀ a b : K, Decidable (a < b)] {n : Nat}

/-- Lines 108-114 with the buffer: `Vector<Dtype> gnorm(maxItr)` is declared
and `gnorm[k++] = norm(g)` stores at index `0`. -/
def initChecked (E : Env K n) (self : LineSearch) (x0 : Vec K n) (maxItr : Int) :
    Except Fault (State K n) :=
  match declare maxItr with
  | Except.error e => Except.error e
  | Except.ok _ =>
    match store maxItr (fun _ => 0) 0 (norm E.sqrt (E.grad x0)) with
    | Except.error e => Except.error e
    | Except.ok gn => Except.ok { init E self x0 with gnorm := gn }

/-- Lines 121-134 with the buffer: the round of `body`, whose last statement
`gnorm[k++] = norm(g)` stores at index `k` of the `maxItr` entries. -/
def bodyChecked (E : Env K n) (maxItr : Int) (st : State K n) :
    Except Fault (State K n) :=
  match store maxItr st.gnorm st.k (norm E.sqrt (body E st).g) with
  | Except.error e => Except.error e
  | Except.ok gn => Except.ok { body E st with gnorm := gn }

/-- Lines 108-135 with the buffer, the loop unrolled at most `fuel` times. -/
def loopChecked (E : Env K n) (self : LineSearch) (x0 : Vec K n) (tol : K)
    (maxItr minItr : Int) (fuel : Nat) : Except Fault (State K n) :=
  match initChecked E self x0 maxItr with
  | Except.error e => Except.error e
  | Except.ok st0 => whileLoopE (guard tol maxItr minItr) (bodyChecked E maxItr) fuel st0

/-- Lines 137-146 with the buffer: the copy-out reads `gnorm[i]` for
`0 <= i < k`. -/
def finishChecked (tol : K) (maxItr : Int) (st : State K n) :
    Except Fault (Optimizer K n) :=
  match fetchAll maxItr st.gnorm st.k.toNat with
  | Except.error e => Except.error e
  | Except.ok tr => Except.ok { finish tol st with gradNorm := tr }

/-- `SteepDesc::optimize` with the trace buffer of `maxItr` entries: the
object afterwards when the call returns, the fault when a `Vector` stops
it. -/
def optimizeChecked (E : Env K n) (self : LineSearch) (x0 : Vec K n) (tol : K)
    (maxItr minItr : Int) : Except Fault (Optimizer K n) :=
  match loopChecked E self x0 tol maxItr minItr maxItr.toNat with
  | Except.error e => Except.error e
  | Except.ok st => finishChecked tol maxItr st

end SteepDesc

/-! ## A scalar type with a NaN -/

/-- The rationals with one more value, `nan`, the feature of `double` (the
`Type` of main.cpp, line 15) that an ordered field lacks: every arithmetic
operation with a `nan` operand gives `nan`, `0/0` is `nan`, and every
comparison with a `nan` operand is false.  Rounding and infinities are not
represented (a non-zero number divided by zero also gives `nan`). -/
inductive Dbl where
  | nan : Dbl
  | num (q : ℚ) : Dbl

namespace Dbl

/-- Addition: `nan` is propagated. -/
def add : Dbl → Dbl → Dbl
  | num a, num b => num (a + b)
  | _, _ => nan

/-- Multiplication: `nan` is propagated. -/
def mul : Dbl → Dbl → Dbl
  | num a, num b => num (a * b)
  | _, _ => nan

/-- Subtraction: `nan` is propagated. -/
def sub : Dbl → Dbl → Dbl
  | num a, num b => num (a - b)
  | _, _ => nan

/-- Negation: `nan` is propagated. -/
def neg : Dbl → Dbl
  | num a => num (-a)
  | nan => nan

/-- Division: `nan` is propagated, and division by zero gives `nan`. -/
def div : Dbl → Dbl → Dbl
  | num a, num b => if b = 0 then nan else num (a / b)
  | _, _ => nan

/-- The comparison `<`: false as soon as one operand is `nan`. -/
def lt : Dbl → Dbl → Prop
  | num a, num b => a < b
  | _, _ => False

/-- The comparison `<=`: false as soon as one operand is `nan`. -/
def le : Dbl → Dbl → Prop
  | num a, num b => a ≤ b
  | _, _ => False

instance : Add Dbl := ⟨add⟩

instance : Mul Dbl := ⟨mul⟩

instance : Sub Dbl := ⟨sub⟩

instance : Neg Dbl := ⟨neg⟩

instance : Div Dbl := ⟨div⟩

instance : Zero Dbl := ⟨num 0⟩

instance : One Dbl := ⟨num 1⟩

instance : LT Dbl := ⟨lt⟩

instance : LE Dbl := ⟨le⟩

instance decLt : ∀ a b : Dbl, Decidable (a < b)
  | num a, num b => inferInstanceAs (Decidable (a < b))
  | nan, _ => isFalse (fun h => h)
  | num _, nan => isFalse (fun h => h)

/-- Addition on `Dbl` is associative and commutative with unit `num 0`, which
is what the sums of `dotProd` and `mulVec` use. -/
instance : AddCommMonoid Dbl where
  nsmul := nsmulRec
  add_assoc := by
    rintro (_ | a) (_ | b) (_ | c) <;>
      first
        | rfl
        | exact congrArg num (add_assoc a b c)
  zero_add := by
    rintro (_ | a)
    · rfl
    · exact congrArg num (zero_add a)
  add_zero := by
    rintro (_ | a)
    · rfl
    · exact congrArg num (add_zero a)
  add_comm := by
    rintro (_ | a) (_ | b) <;>
      first
        | rfl
        | exact congrArg num (add_comm a b)

/-- The function `fabs`: `nan` is propagated. -/
def fabs : Dbl → Dbl
  | num a => num |a|
  | nan => nan

end Dbl

/-! ## `ObjFunc` (objfunc.h) -/

/-- The members of `ObjFunc<Type>`: the reference coordinates `a`, `b`, `c`
and the measured distances `d`, one entry of each per reference point. -/
structure ObjFunc (K : Type) where
  a : List K
  b : List K
  c : List K
  d : List K

namespace ObjFunc

variable {K : Type} [LinearOrderedField K] {m : Nat}

/-- The expression under `fabs` in `operator()` (line 69), which is also `tmp`
of `grad` (line 87), for the reference point `i`.  The point `x` has dimension
`m + 3`, so that `x(1)`, `x(2)`, `x(3)` exist; `a[i]` is read for
`i < a.dim()` only, and the other three vectors are read at the same index. -/
def resid (f : ObjFunc K) (x : Vec K (m + 3)) (i : Nat) : K :=
  (f.a.getD i 0 - x 0) * (f.a.getD i 0 - x 0)
    + (f.b.getD i 0 - x 1) * (f.b.getD i 0 - x 1)
    + (f.c.getD i 0 - x 2) * (f.c.getD i 0 - x 2)
    - f.d.getD i 0 * f.d.getD i 0

/-- Lines 64-73: `operator()`, the loop `tmp += fabs(...)` over
`0 <= i < a.dim()` followed by `tmp / a.dim()`.  In a field the quotient by
zero is zero; `valueDbl` is the same function over `Dbl`, where `0.0 / 0` is
not a number. -/
def value (f : ObjFunc K) (x : Vec K (m + 3)) : K :=
  (List.range f.a.length).foldl (fun tmp i => tmp + |f.resid x i|) 0
    / (f.a.length : K)

/-- Lines 88-91: the variable `sign` of `grad`. -/
def sign (tmp : K) : K := if tmp < 0 then -1 else if tmp = 0 then 0 else 1

/-- Lines 81-96: the entries `df(1)`, `df(2)`, `df(3)` after the loop of
`grad`. -/
def gradLoop (f : ObjFunc K) (x : Vec K (m + 3)) : K × K × K :=
  (List.range f.a.length).foldl
    (fun df i =>
      (df.1 + 2 * sign (f.resid x i) * (x 0 - f.a.getD i 0),
        df.2.1 + 2 * sign (f.resid x i) * (x 1 - f.b.getD i 0),
        df.2.2 + 2 * sign (f.resid x i) * (x 2 - f.c.getD i 0)))
    (0, 0, 0)

/-- Lines 78-101: `grad`.  The result has the dimension of `x`; its first three
entries are those of the loop, and the entries beyond the third keep the
initial content of `Vector<Type> df(x.dim())`, taken as zero (the constructor
is in `vector.h`, absent); `df /= Type(a.dim())` divides every entry. -/
def grad (f : ObjFunc K) (x : Vec K (m + 3)) : Vec K (m + 3) :=
  fun j =>
    (if j = 0 then (f.gradLoop x).1
      else if j = 1 then (f.gradLoop x).2.1
      else if j = 2 then (f.gradLoop x).2.2
      else 0) / (f.a.length : K)

/-- The objective `f` as `optimize` sees it, with the line search, square root
and `EPS` supplied. -/
def env (f : ObjFunc K) (getStep : Vec K (m + 3) → Vec K (m + 3) → Int → StepResult K)
    (sqrt : K → K) (EPS : K) : Env K (m + 3) :=
  { func := f.value, grad := f.grad, getStep := getStep, sqrt := sqrt, EPS := EPS }

end ObjFunc

/-! ## `ObjFunc<double>` -/

namespace ObjFunc

variable {m : Nat}

/-- The expression under `fabs` in `operator()` (line 69) and `tmp` of `grad`
(line 87), as `ObjFunc.resid`, with `Type = double`. -/
def residDbl (f : ObjFunc Dbl) (x : Vec Dbl (m + 3)) (i : Nat) : Dbl :=
  (f.a.getD i 0 - x 0) * (f.a.getD i 0 - x 0)
    + (f.b.getD i 0 - x 1) * (f.b.getD i 0 - x 1)
    + (f.c.getD i 0 - x 2) * (f.c.getD i 0 - x 2)
    - f.d.getD i 0 * f.d.getD i 0

/-- Lines 64-73 with `Type = double`: `operator()`, as `ObjFunc.value`; the
final division `tmp / a.dim()` is `0.0 / 0` when there is no reference
point. -/
def valueDbl (f : ObjFunc Dbl) (x : Vec Dbl (m + 3)) : Dbl :=
  (List.range f.a.length).foldl (fun tmp i => tmp + Dbl.fabs (f.residDbl x i)) 0
    / Dbl.num (f.a.length : ℚ)

end ObjFunc

/-- An `ObjFunc<double>` built from four vectors of dimension zero: no
reference point. -/
def emptyRef : ObjFunc Dbl := { a := [], b := [], c := [], d := [] }

/-- One reference point at the origin at distance `1`. -/
def unitRef : ObjFunc ℚ := { a := [0], b := [0], c := [0], d := [1] }

/-- A line search that always answers step `1` after one trial. -/
def unitStep (n : Nat) : Vec ℚ n → Vec ℚ n → Int → StepResult ℚ :=
  fun _ _ _ => { alpha := 1, trials := 1, success := true }

/-! ## A small concrete problem -/

/-- One-dimensional quadratic `f(x) = x²` over the rationals, with a line
search that always answers step `1/4` after one trial and reports failure. -/
def quadEnv : Env ℚ 1 :=
  { func := fun x => x 0 * x 0
    grad := fun x => fun _ => 2 * x 0
    getStep := fun _ _ _ => { alpha := 1 / 4, trials := 1, success := false }
    sqrt := Rat.sqrt
    EPS := 1 / 1000000 }

/-- Start point `x0 = (1)` for `quadEnv`. -/
def quadStart : Vec ℚ 1 := fun _ => 1

/-- One-dimensional linear objective `f(x) = x` over the rationals: the
gradient is the constant `1`, so every secant pair has `y = 0`. -/
def linEnv : Env ℚ 1 :=
  { func := fun x => x 0
    grad := fun _ => fun _ => 1
    getStep := fun _ _ _ => { alpha := 1, trials := 1, success := true }
    sqrt := Rat.sqrt
    EPS := 1 / 1000000 }

/-- A loop state of `BFGS::optimize` for `linEnv` whose inverse-Hessian
approximation is `5`, not the identity. -/
def linState : BFGS.State ℚ 1 :=
  { k := 1, x := fun _ => 0, fx := 0, g := fun _ => 1, H := fun _ _ => 5,
    gnorm := fun _ => 0, funcNum := 1, success := true }

/-- The quadratic `f(x) = x²` in one dimension over any ordered field, with
the square root and `EPS` supplied, and a line search that always answers
step `1/4` after one trial and reports failure. -/
def quadEnvWith {K : Type} [LinearOrderedField K] (sqrt : K → K) (EPS : K) : Env K 1 :=
  { func := fun x => x 0 * x 0
    grad := fun x => fun _ => 2 * x 0
    getStep := fun _ _ _ => { alpha := 1 / 4, trials := 1, success := false }
    sqrt := sqrt
    EPS := EPS }

/-- One-dimensional objective `f(x) = x² + 1` over the rationals, whose values
are all at least `1`, with the line search of `quadEnv`. -/
def shiftEnv : Env ℚ 1 :=
  { func := fun x => x 0 * x 0 + 1
    grad := fun x => fun _ => 2 * x 0
    getStep := fun _ _ _ => { alpha := 1 / 4, trials := 1, success := false }
    sqrt := Rat.sqrt
    EPS := 1 / 1000000 }

/-- The largest value of an `int` of 32 bits, the type of `k` and `maxItr`. -/
def intMax : Int := 2147483647

/-- The four-dimensional start point `(2, 0, 0, 7)`. -/
def fourStart : Vec ℚ (1 + 3) := fun j => if j = 0 then 2 else if j = 3 then 7 else 0

/-! ## Generic facts about the loop -/

section Loop

variable {σ : Type} (c : σ → Bool) (body : σ → σ)

theorem whileLoop_eq_iterate (fuel : Nat) (st : σ) :
    whileLoop c body fuel st = body^[whileCount c body fuel st] st := by
  induction fuel generalizing st with
  | zero => rfl
  | succ f ih =>
    by_cases h : c st = true
    · simp only [whileLoop, whileCount, h, if_true, Function.iterate_succ,
        Function.comp_apply]
      exact ih (body st)
    · simp [whileLoop, whileCount, h]

theorem whileCount_le (fuel : Nat) (st : σ) : whileCount c body fuel st ≤ fuel := by
  induction fuel generalizing st with
  | zero => simp [whileCount]
  | succ f ih =>
    by_cases h : c st = true
    · simp only [whileCount, h, if_true]
      exact Nat.succ_le_succ (ih (body st))
    · simp [whileCount, h]

theorem guard_before_whileCount (fuel : Nat) (st : σ) (m : Nat)
    (hm : m < whileCount c body fuel st) : c (body^[m] st) = true := by
  induction fuel generalizing st m with
  | zero => simp [whileCount] at hm
  | succ f ih =>
    by_cases h : c st = true
    · simp only [whileCount, h, if_true] at hm
      cases m with
      | zero => simpa using h
      | succ m =>
        rw [Function.iterate_succ, Function.comp_apply]
        exact ih (body st) m (by omega)
    · simp [whileCount, h] at hm

theorem guard_after_whileLoop (kf : σ → Int) (M : Int)
    (hk : ∀ s, kf (body s) = kf s + 1) (hc : ∀ s, c s = true → kf s ≤ M)
    (fuel : Nat) (st : σ) (hfuel : M + 1 - kf st ≤ fuel) :
    c (whileLoop c body fuel st) = false := by
  induction fuel generalizing st with
  | zero =>
    by_contra h
    have := hc st (by simpa [whileLoop] using h)
    simp at hfuel
    omega
  | succ f ih =>
    by_cases h : c st = true
    · simp only [whileLoop, h, if_true]
      apply ih
      rw [hk]
      push_cast at hfuel
      omega
    · simp [whileLoop, h]

theorem whileLoop_sim {τ : Type} (c' : τ → Bool) (body' : τ → τ)
    (R : σ → τ → Prop) (hc : ∀ s s', R s s' → c s = c' s')
    (hb : ∀ s s', R s s' → R (body s) (body' s')) (fuel : Nat) (s : σ) (s' : τ)
    (h : R s s') :
    R (whileLoop c body fuel s) (whileLoop c' body' fuel s')
      ∧ whileCount c body fuel s = whileCount c' body' fuel s' := by
  induction fuel generalizing s s' with
  | zero => exact ⟨h, rfl⟩
  | succ f ih =>
    have hcs := hc s s' h
    by_cases hg : c s = true
    · have hg' : c' s' = true := hcs ▸ hg
      simp only [whileLoop, whileCount, hg, hg', if_true]
      have := ih (body s) (body' s') (hb s s' h)
      exact ⟨this.1, by rw [this.2]⟩
    · have hg' : ¬ c' s' = true := hcs ▸ hg
      simp only [whileLoop, whileCount, hg, hg']
      exact ⟨h, rfl⟩

theorem stopCond_eq_true_iff {K : Type} [LT K] [∀ a b : K, Decidable (a < b)]
    (minItr maxItr : Int) (tol : K) (k : Int) (fx : K) :
    stopCond minItr maxItr tol k fx = true
      ↔ ((k > minItr ∧ fx < tol) ∨ k > maxItr) := by
  simp only [stopCond, Bool.or_eq_true, Bool.and_eq_true, decide_eq_true_eq]

end Loop


/-! ## The loop of `BFGS::optimize` -/

namespace BFGS

variable {K : Type} [AddCommMonoid K] [Mul K] [One K] [Neg K] [Sub K] [Div K] [LT K]
  [∀ a b : K, Decidable (a < b)] {n : Nat}

theorem guard_eq_true_iff (tol : K) (maxItr minItr : Int) (st : State K n) :
    guard tol maxItr minItr st = true ↔
      ¬ ((st.k > minItr ∧ st.fx < tol) ∨ st.k > maxItr) := by
  rw [guard, Bool.not_eq_true', ← Bool.not_eq_true, stopCond_eq_true_iff]

theorem guard_eq_false_iff (tol : K) (maxItr minItr : Int) (st : State K n) :
    guard tol maxItr minItr st = false ↔
      ((st.k > minItr ∧ st.fx < tol) ∨ st.k > maxItr) := by
  rw [guard, Bool.not_eq_false', stopCond_eq_true_iff]

theorem k_le_of_guard (tol : K) (maxItr minItr : Int) (st : State K n)
    (h : guard tol maxItr minItr st = true) : st.k ≤ maxItr := by
  rw [guard_eq_true_iff] at h
  push_neg at h
  exact h.2

theorem guard_run (E : Env K n) (self : LineSearch) (x0 : Vec K n) (tol : K)
    (maxItr minItr : Int) :
    guard tol maxItr minItr (run E self x0 tol maxItr minItr) = false := by
  unfold run
  apply guard_after_whileLoop (guard tol maxItr minItr) (body E) (fun s => s.k) maxItr
  · intro s; rfl
  · exact k_le_of_guard tol maxItr minItr
  · have h1 : (init E self x0).k = 1 := rfl
    have h2 := Int.self_le_toNat maxItr
    simp only [h1]
    omega

theorem run_eq_iterate (E : Env K n) (self : LineSearch) (x0 : Vec K n) (tol : K)
    (maxItr minItr : Int) :
    run E self x0 tol maxItr minItr
      = iterate E self x0 (iterations E self x0 tol maxItr minItr) :=
  whileLoop_eq_iterate _ _ _ _

theorem iterate_succ (E : Env K n) (self : LineSearch) (x0 : Vec K n) (m : Nat) :
    iterate E self x0 (m + 1) = body E (iterate E self x0 m) := by
  simp only [iterate, Function.iterate_succ_apply']

theorem k_iterate (E : Env K n) (self : LineSearch) (x0 : Vec K n) (m : Nat) :
    (iterate E self x0 m).k = (m : Int) + 1 := by
  induction m with
  | zero => rfl
  | succ m ih =>
    rw [iterate_succ]
    show (iterate E self x0 m).k + 1 = _
    rw [ih]
    push_cast
    ring

theorem fx_iterate (E : Env K n) (self : LineSearch) (x0 : Vec K n) (m : Nat) :
    (iterate E self x0 m).fx = E.func (iterate E self x0 m).x := by
  cases m with
  | zero => rfl
  | succ m => rw [iterate_succ]; rfl

theorem guard_iterate_of_lt (E : Env K n) (self : LineSearch) (x0 : Vec K n)
    (tol : K) (maxItr minItr : Int) (m : Nat)
    (hm : m < iterations E self x0 tol maxItr minItr) :
    guard tol maxItr minItr (iterate E self x0 m) = true :=
  guard_before_whileCount _ _ _ _ m hm

theorem k_run (E : Env K n) (self : LineSearch) (x0 : Vec K n) (tol : K)
    (maxItr minItr : Int) :
    (run E self x0 tol maxItr minItr).k
      = (iterations E self x0 tol maxItr minItr : Int) + 1 := by
  rw [run_eq_iterate, k_iterate]

theorem length_gradNorm (E : Env K n) (self : LineSearch) (x0 : Vec K n) (tol : K)
    (maxItr minItr : Int) :
    ((optimize E self x0 tol maxItr minItr).gradNorm.length : Int)
      = (iterations E self x0 tol maxItr minItr : Int) + 1 := by
  simp only [optimize, finish, copyTrace, List.length_map, List.length_range, k_run]
  omega

theorem getItrNum_optimize (E : Env K n) (self : LineSearch) (x0 : Vec K n) (tol : K)
    (maxItr minItr : Int) :
    (optimize E self x0 tol maxItr minItr).getItrNum
      = (iterations E self x0 tol maxItr minItr : Int) := by
  unfold Optimizer.getItrNum
  rw [length_gradNorm]
  ring

theorem iterations_le (E : Env K n) (self : LineSearch) (x0 : Vec K n) (tol : K)
    (maxItr minItr : Int) :
    (iterations E self x0 tol maxItr minItr : Int) ≤ max maxItr 0 := by
  have h := whileCount_le (guard tol maxItr minItr) (body E) maxItr.toNat (init E self x0)
  have h2 : ((iterations E self x0 tol maxItr minItr : Nat) : Int) ≤ (maxItr.toNat : Int) := by
    exact_mod_cast h
  rw [Int.toNat_eq_max] at h2
  exact h2

theorem success_iff_not_gt (E : Env K n) (self : LineSearch) (x0 : Vec K n) (tol : K)
    (maxItr minItr : Int) :
    (optimize E self x0 tol maxItr minItr).isSuccess = true
      ↔ ¬ (optimize E self x0 tol maxItr minItr).getFuncMin > tol := by
  simp only [Optimizer.isSuccess, Optimizer.getFuncMin, optimize, finish]
  by_cases h : (run E self x0 tol maxItr minItr).fx > tol
  · simp [h]
  · simp [h]

theorem success_optimize {F : Type} [LinearOrderedField F] {d : Nat} (E : Env F d)
    (self : LineSearch) (x0 : Vec F d) (tol : F) (maxItr minItr : Int) :
    (optimize E self x0 tol maxItr minItr).isSuccess = true
      ↔ (optimize E self x0 tol maxItr minItr).getFuncMin ≤ tol := by
  rw [success_iff_not_gt, not_lt]

theorem fMin_optimize (E : Env K n) (self : LineSearch) (x0 : Vec K n) (tol : K)
    (maxItr minItr : Int) :
    (optimize E self x0 tol maxItr minItr).getFuncMin
      = E.func (optimize E self x0 tol maxItr minItr).getOptValue := by
  simp only [Optimizer.getFuncMin, Optimizer.getOptValue, optimize, finish]
  rw [run_eq_iterate]
  exact fx_iterate _ _ _ _

theorem minItr_le_iterations (E : Env K n) (self : LineSearch) (x0 : Vec K n)
    (tol : K) (maxItr minItr : Int) (h : minItr ≤ maxItr) :
    minItr ≤ (iterations E self x0 tol maxItr minItr : Int) := by
  have hg := guard_run E self x0 tol maxItr minItr
  rw [guard_eq_false_iff, k_run] at hg
  rcases hg with ⟨h1, _⟩ | h2 <;> omega

end BFGS

/-! ## The loop of `SteepDesc::optimize` -/

namespace SteepDesc

variable {K : Type} [AddCommMonoid K] [Mul K] [One K] [Neg K] [Sub K] [Div K] [LT K]
  [∀ a b : K, Decidable (a < b)] {n : Nat}

theorem guard_eq_true_iff_sd (tol : K) (maxItr minItr : Int) (st : State K n) :
    guard tol maxItr minItr st = true ↔
      ¬ ((st.k > minItr ∧ st.fx < tol) ∨ st.k > maxItr) := by
  rw [guard, Bool.not_eq_true', ← Bool.not_eq_true, stopCond_eq_true_iff]

theorem guard_eq_false_iff_sd (tol : K) (maxItr minItr : Int) (st : State K n) :
    guard tol maxItr minItr st = false ↔
      ((st.k > minItr ∧ st.fx < tol) ∨ st.k > maxItr) := by
  rw [guard, Bool.not_eq_false', stopCond_eq_true_iff]

theorem k_le_of_guard_sd (tol : K) (maxItr minItr : Int) (st : State K n)
    (h : guard tol maxItr minItr st = true) : st.k ≤ maxItr := by
  rw [guard_eq_true_iff_sd] at h
  push_neg at h
  exact h.2

theorem guard_run_sd (E : Env K n) (self : LineSearch) (x0 : Vec K n) (tol : K)
    (maxItr minItr : Int) :
    guard tol maxItr minItr (run E self x0 tol maxItr minItr) = false := by
  unfold run
  apply guard_after_whileLoop (guard tol maxItr minItr) (body E) (fun s => s.k) maxItr
  · intro s; rfl
  · exact k_le_of_guard_sd tol maxItr minItr
  · have h1 : (init E self x0).k = 1 := rfl
    have h2 := Int.self_le_toNat maxItr
    simp only [h1]
    omega

theorem run_eq_iterate_sd (E : Env K n) (self : LineSearch) (x0 : Vec K n) (tol : K)
    (maxItr minItr : Int) :
    run E self x0 tol maxItr minItr
      = iterate E self x0 (iterations E self x0 tol maxItr minItr) :=
  whileLoop_eq_iterate _ _ _ _

theorem iterate_succ_sd (E : Env K n) (self : LineSearch) (x0 : Vec K n) (m : Nat) :
    iterate E self x0 (m + 1) = body E (iterate E self x0 m) := by
  simp only [iterate, Function.iterate_succ_apply']

theorem k_iterate_sd (E : Env K n) (self : LineSearch) (x0 : Vec K n) (m : Nat) :
    (iterate E self x0 m).k = (m : Int) + 1 := by
  induction m with
  | zero => rfl
  | succ m ih =>
    rw [iterate_succ_sd]
    show (iterate E self x0 m).k + 1 = _
    rw [ih]
    push_cast
    ring

theorem fx_iterate_sd (E : Env K n) (self : LineSearch) (x0 : Vec K n) (m : Nat) :
    (iterate E self x0 m).fx = E.func (iterate E self x0 m).x := by
  cases m with
  | zero => rfl
  | succ m => rw [iterate_succ_sd]; rfl

theorem guard_iterate_of_lt_sd (E : Env K n) (self : LineSearch) (x0 : Vec K n)
    (tol : K) (maxItr minItr : Int) (m : Nat)
    (hm : m < iterations E self x0 tol maxItr minItr) :
    guard tol maxItr minItr (iterate E self x0 m) = true :=
  guard_before_whileCount _ _ _ _ m hm

theorem k_run_sd (E : Env K n) (self : LineSearch) (x0 : Vec K n) (tol : K)
    (maxItr minItr : Int) :
    (run E self x0 tol maxItr minItr).k
      = (iterations E self x0 tol maxItr minItr : Int) + 1 := by
  rw [run_eq_iterate_sd, k_iterate_sd]

theorem length_gradNorm_sd (E : Env K n) (self : LineSearch) (x0 : Vec K n) (tol : K)
    (maxItr minItr : Int) :
    ((optimize E self x0 tol maxItr minItr).gradNorm.length : Int)
      = (iterations E self x0 tol maxItr minItr : Int) + 1 := by
  simp only [optimize, finish, copyTrace, List.length_map, List.length_range, k_run_sd]
  omega

theorem getItrNum_optimize_sd (E : Env K n) (self : LineSearch) (x0 : Vec K n) (tol : K)
    (maxItr minItr : Int) :
    (optimize E self x0 tol maxItr minItr).getItrNum
      = (iterations E self x0 tol maxItr minItr : Int) := by
  unfold Optimizer.getItrNum
  rw [length_gradNorm_sd]
  ring

theorem iterations_le_sd (E : Env K n) (self : LineSearch) (x0 : Vec K n) (tol : K)
    (maxItr minItr : Int) :
    (iterations E self x0 tol maxItr minItr : Int) ≤ max maxItr 0 := by
  have h := whileCount_le (guard tol maxItr minItr) (body E) maxItr.toNat (init E self x0)
  have h2 : ((iterations E self x0 tol maxItr minItr : Nat) : Int) ≤ (maxItr.toNat : Int) := by
    exact_mod_cast h
  rw [Int.toNat_eq_max] at h2
  exact h2

theorem success_iff_not_gt_sd (E : Env K n) (self : LineSearch) (x0 : Vec K n) (tol : K)
    (maxItr minItr : Int) :
    (optimize E self x0 tol maxItr minItr).isSuccess = true
      ↔ ¬ (optimize E self x0 tol maxItr minItr).getFuncMin > tol := by
  simp only [Optimizer.isSuccess, Optimizer.getFuncMin, optimize, finish]
  by_cases h : (run E self x0 tol maxItr minItr).fx > tol
  · simp [h]
  · simp [h]

theorem success_optimize_sd {F : Type} [LinearOrderedField F] {d : Nat} (E : Env F d)
    (self : LineSearch) (x0 : Vec F d) (tol : F) (maxItr minItr : Int) :
    (optimize E self x0 tol maxItr minItr).isSuccess = true
      ↔ (optimize E self x0 tol maxItr minItr).getFuncMin ≤ tol := by
  rw [success_iff_not_gt_sd, not_lt]

theorem fMin_optimize_sd (E : Env K n) (self : LineSearch) (x0 : Vec K n) (tol : K)
    (maxItr minItr : Int) :
    (optimize E self x0 tol maxItr minItr).getFuncMin
      = E.func (optimize E self x0 tol maxItr minItr).getOptValue := by
  simp only [Optimizer.getFuncMin, Optimizer.getOptValue, optimize, finish]
  rw [run_eq_iterate_sd]
  exact fx_iterate_sd _ _ _ _

theorem minItr_le_iterations_sd (E : Env K n) (self : LineSearch) (x0 : Vec K n)
    (tol : K) (maxItr minItr : Int) (h : minItr ≤ maxItr) :
    minItr ≤ (iterations E self x0 tol maxItr minItr : Int) := by
  have hg := guard_run_sd E self x0 tol maxItr minItr
  rw [guard_eq_false_iff_sd, k_run_sd] at hg
  rcases hg with ⟨h1, _⟩ | h2 <;> omega

end SteepDesc



/-! ## Evaluation counter of `BFGS::optimize` -/

namespace BFGS

variable {K : Type} [AddCommMonoid K] [Mul K] [One K] [Neg K] [Sub K] [Div K] [LT K]
  [∀ a b : K, Decidable (a < b)] {n : Nat}

theorem funcNum_iterate_succ (E : Env K n) (self : LineSearch) (x0 : Vec K n)
    (m : Nat) :
    (iterate E self x0 (m + 1)).funcNum
      = (iterate E self x0 m).funcNum + (trialsAt E self x0 m : Int) + 1 := by
  rw [iterate_succ]
  rfl

theorem funcNum_iterate (E : Env K n) (self : LineSearch) (x0 : Vec K n) (m : Nat) :
    (iterate E self x0 m).funcNum
      = self.funcNum + 1 + (m : Int)
        + ∑ i in Finset.range m, (trialsAt E self x0 i : Int) := by
  induction m with
  | zero => simp [iterate, init]
  | succ m ih =>
    rw [funcNum_iterate_succ, ih, Finset.sum_range_succ]
    push_cast
    ring

theorem funcNum_optimize (E : Env K n) (self : LineSearch) (x0 : Vec K n) (tol : K)
    (maxItr minItr : Int) :
    (optimize E self x0 tol maxItr minItr).getFuncNum
      = self.funcNum + 1 + (iterations E self x0 tol maxItr minItr : Int)
        + ∑ i in Finset.range (iterations E self x0 tol maxItr minItr),
            (trialsAt E self x0 i : Int) := by
  simp only [Optimizer.getFuncNum, optimize, finish]
  rw [run_eq_iterate, funcNum_iterate]

theorem one_le_funcNum_optimize_fresh (E : Env K n) (x0 : Vec K n) (tol : K)
    (maxItr minItr : Int) :
    1 ≤ (optimize E LineSearch.fresh x0 tol maxItr minItr).getFuncNum := by
  rw [funcNum_optimize]
  have h1 : (0 : Int) ≤ ∑ i in Finset.range
      (iterations E LineSearch.fresh x0 tol maxItr minItr),
      (trialsAt E LineSearch.fresh x0 i : Int) :=
    Finset.sum_nonneg (fun i _ => Int.natCast_nonneg _)
  have h2 : (0 : Int) ≤ (iterations E LineSearch.fresh x0 tol maxItr minItr : Int) :=
    Int.natCast_nonneg _
  simp only [LineSearch.fresh] at h1 h2 ⊢
  omega

theorem run_shift (E : Env K n) (self self' : LineSearch) (x0 : Vec K n) (tol : K)
    (maxItr minItr : Int) :
    ((run E self x0 tol maxItr minItr).k = (run E self' x0 tol maxItr minItr).k
      ∧ (run E self x0 tol maxItr minItr).x = (run E self' x0 tol maxItr minItr).x
      ∧ (run E self x0 tol maxItr minItr).fx = (run E self' x0 tol maxItr minItr).fx
      ∧ (run E self x0 tol maxItr minItr).g = (run E self' x0 tol maxItr minItr).g
       ∧ (run E self x0 tol maxItr minItr).H = (run E self' x0 tol maxItr minItr).H
      ∧ (run E self x0 tol maxItr minItr).gnorm
          = (run E self' x0 tol maxItr minItr).gnorm
      ∧ (run E self x0 tol maxItr minItr).funcNum
          = (self.funcNum - self'.funcNum)
            + (run E self' x0 tol maxItr minItr).funcNum)
    ∧ iterations E self x0 tol maxItr minItr
        = iterations E self' x0 tol maxItr minItr := by
  have key := whileLoop_sim (guard tol maxItr minItr) (body E)
    (guard tol maxItr minItr) (body E)
    (fun (a b : State K n) => a.k = b.k ∧ a.x = b.x ∧ a.fx = b.fx ∧ a.g = b.g
         ∧ a.H = b.H ∧ a.gnorm = b.gnorm
        ∧ a.funcNum = (self.funcNum - self'.funcNum) + b.funcNum)
    ?_ ?_ maxItr.toNat (init E self x0) (init E self' x0) ?_
  · exact key
  · rintro s s' ⟨hk, _, hfx, _⟩
    simp only [guard, hk, hfx]
  · rintro s s' ⟨hk, hx, hfx, hg, hH, hgn, hf⟩
    have hs : search E s = search E s' := by simp only [search, hx, hH, hg]
    have hS : secantS E s = secantS E s' := by
      funext i
      simp only [secantS, hs, hH, hg]
    have hY : secantY E s = secantY E s' := by simp only [secantY, hS, hx, hg]
    refine ⟨?_, ?_, ?_, ?_, ?_, ?_, ?_⟩
    all_goals simp only [body, hs, hS, hY, hk, hx, hfx, hg, hH, hgn]
    rw [hf]
    ring
  · refine ⟨rfl, rfl, rfl, rfl, rfl, rfl, ?_⟩
    simp only [init]
    ring

theorem optimize_shift (E : Env K n) (self : LineSearch) (x0 : Vec K n) (tol : K)
    (maxItr minItr : Int) :
    (optimize E self x0 tol maxItr minItr).getFuncNum
        = self.funcNum
          + (optimize E LineSearch.fresh x0 tol maxItr minItr).getFuncNum
      ∧ (optimize E self x0 tol maxItr minItr).getOptValue
          = (optimize E LineSearch.fresh x0 tol maxItr minItr).getOptValue
      ∧ (optimize E self x0 tol maxItr minItr).getFuncMin
          = (optimize E LineSearch.fresh x0 tol maxItr minItr).getFuncMin
      ∧ (optimize E self x0 tol maxItr minItr).getGradNorm
          = (optimize E LineSearch.fresh x0 tol maxItr minItr).getGradNorm
      ∧ (optimize E self x0 tol maxItr minItr).isSuccess
          = (optimize E LineSearch.fresh x0 tol maxItr minItr).isSuccess := by
  obtain ⟨⟨hk, hx, hfx, _, _, hgn, hf⟩, _⟩ :=
    run_shift E self LineSearch.fresh x0 tol maxItr minItr
  simp only [Optimizer.getFuncNum, Optimizer.getOptValue, Optimizer.getFuncMin,
    Optimizer.getGradNorm, Optimizer.isSuccess, optimize, finish]
  refine ⟨?_, hx, hfx, ?_, ?_⟩
  · rw [hf]
    simp [LineSearch.fresh]
  · rw [hk, hgn]
  · rw [hfx]

end BFGS

/-! ## Evaluation counter of `SteepDesc::optimize` -/

namespace SteepDesc

variable {K : Type} [AddCommMonoid K] [Mul K] [One K] [Neg K] [Sub K] [Div K] [LT K]
  [∀ a b : K, Decidable (a < b)] {n : Nat}

theorem funcNum_iterate_succ_sd (E : Env K n) (self : LineSearch) (x0 : Vec K n)
    (m : Nat) :
    (iterate E self x0 (m + 1)).funcNum
      = (iterate E self x0 m).funcNum + (trialsAt E self x0 m : Int) + 1 := by
  rw [iterate_succ_sd]
  rfl

theorem funcNum_iterate_sd (E : Env K n) (self : LineSearch) (x0 : Vec K n) (m : Nat) :
    (iterate E self x0 m).funcNum
      = self.funcNum + 1 + (m : Int)
        + ∑ i in Finset.range m, (trialsAt E self x0 i : Int) := by
  induction m with
  | zero => simp [iterate, init]
  | succ m ih =>
    rw [funcNum_iterate_succ_sd, ih, Finset.sum_range_succ]
    push_cast
    ring

theorem funcNum_optimize_sd (E : Env K n) (self : LineSearch) (x0 : Vec K n) (tol : K)
    (maxItr minItr : Int) :
    (optimize E self x0 tol maxItr minItr).getFuncNum
      = self.funcNum + 1 + (iterations E self x0 tol maxItr minItr : Int)
        + ∑ i in Finset.range (iterations E self x0 tol maxItr minItr),
            (trialsAt E self x0 i : Int) := by
  simp only [Optimizer.getFuncNum, optimize, finish]
  rw [run_eq_iterate_sd, funcNum_iterate_sd]

theorem one_le_funcNum_optimize_fresh_sd (E : Env K n) (x0 : Vec K n) (tol : K)
    (maxItr minItr : Int) :
    1 ≤ (optimize E LineSearch.fresh x0 tol maxItr minItr).getFuncNum := by
  rw [funcNum_optimize_sd]
  have h1 : (0 : Int) ≤ ∑ i in Finset.range
      (iterations E LineSearch.fresh x0 tol maxItr minItr),
      (trialsAt E LineSearch.fresh x0 i : Int) :=
    Finset.sum_nonneg (fun i _ => Int.natCast_nonneg _)
  have h2 : (0 : Int) ≤ (iterations E LineSearch.fresh x0 tol maxItr minItr : Int) :=
    Int.natCast_nonneg _
  simp only [LineSearch.fresh] at h1 h2 ⊢
  omega

theorem run_shift_sd (E : Env K n) (self self' : LineSearch) (x0 : Vec K n) (tol : K)
    (maxItr minItr : Int) :
    ((run E self x0 tol maxItr minItr).k = (run E self' x0 tol maxItr minItr).k
      ∧ (run E self x0 tol maxItr minItr).x = (run E self' x0 tol maxItr minItr).x
      ∧ (run E self x0 tol maxItr minItr).fx = (run E self' x0 tol maxItr minItr).fx
      ∧ (run E self x0 tol maxItr minItr).g = (run E self' x0 tol maxItr minItr).g
      
      ∧ (run E self x0 tol maxItr minItr).gnorm
          = (run E self' x0 tol maxItr minItr).gnorm
      ∧ (run E self x0 tol maxItr minItr).funcNum
          = (self.funcNum - self'.funcNum)
            + (run E self' x0 tol maxItr minItr).funcNum)
    ∧ iterations E self x0 tol maxItr minItr
        = iterations E self' x0 tol maxItr minItr := by
  have key := whileLoop_sim (guard tol maxItr minItr) (body E)
    (guard tol maxItr minItr) (body E)
    (fun (a b : State K n) => a.k = b.k ∧ a.x = b.x ∧ a.fx = b.fx ∧ a.g = b.g
         ∧ a.gnorm = b.gnorm
        ∧ a.funcNum = (self.funcNum - self'.funcNum) + b.funcNum)
    ?_ ?_ maxItr.toNat (init E self x0) (init E self' x0) ?_
  · exact key
  · rintro s s' ⟨hk, _, hfx, _⟩
    simp only [guard, hk, hfx]
  · rintro s s' ⟨hk, hx, hfx, hg, hgn, hf⟩
    refine ⟨?_, ?_, ?_, ?_, ?_, ?_⟩
    all_goals simp only [body, search, hk, hx, hfx, hg, hgn]
    rw [hf]
    ring
  · refine ⟨rfl, rfl, rfl, rfl, rfl, ?_⟩
    simp only [init]
    ring

theorem optimize_shift_sd (E : Env K n) (self : LineSearch) (x0 : Vec K n) (tol : K)
    (maxItr minItr : Int) :
    (optimize E self x0 tol maxItr minItr).getFuncNum
        = self.funcNum
          + (optimize E LineSearch.fresh x0 tol maxItr minItr).getFuncNum
      ∧ (optimize E self x0 tol maxItr minItr).getOptValue
          = (optimize E LineSearch.fresh x0 tol maxItr minItr).getOptValue
      ∧ (optimize E self x0 tol maxItr minItr).getFuncMin
          = (optimize E LineSearch.fresh x0 tol maxItr minItr).getFuncMin
      ∧ (optimize E self x0 tol maxItr minItr).getGradNorm
          = (optimize E LineSearch.fresh x0 tol maxItr minItr).getGradNorm
      ∧ (optimize E self x0 tol maxItr minItr).isSuccess
          = (optimize E LineSearch.fresh x0 tol maxItr minItr).isSuccess := by
  obtain ⟨⟨hk, hx, hfx, _, hgn, hf⟩, _⟩ :=
    run_shift_sd E self LineSearch.fresh x0 tol maxItr minItr
  simp only [Optimizer.getFuncNum, Optimizer.getOptValue, Optimizer.getFuncMin,
    Optimizer.getGradNorm, Optimizer.isSuccess, optimize, finish]
  refine ⟨?_, hx, hfx, ?_, ?_⟩
  · rw [hf]
    simp [LineSearch.fresh]
  · rw [hk, hgn]
  · rw [hfx]

end SteepDesc

/-! ## Termination predicate, iteration count and success flag -/

section Claims

variable {K : Type} [LinearOrderedField K] {n : Nat}

/-- C6: for both strategies and every run, the trace returned by
`getGradNorm()` has exactly `getItrNum() + 1` entries, and `getItrNum()` is
the number of outer loop iterations that `optimize` executed. -/
theorem gradNorm_length_eq_itrNum_succ (E : Env K n) (self : LineSearch)
    (x0 : Vec K n) (tol : K) (maxItr minItr : Int) :
    (((BFGS.optimize E self x0 tol maxItr minItr).getGradNorm.length : Int)
        = (BFGS.optimize E self x0 tol maxItr minItr).getItrNum + 1
      ∧ (BFGS.optimize E self x0 tol maxItr minItr).getItrNum
          = (BFGS.iterations E self x0 tol maxItr minItr : Int))
    ∧ (((SteepDesc.optimize E self x0 tol maxItr minItr).getGradNorm.length : Int)
        = (SteepDesc.optimize E self x0 tol maxItr minItr).getItrNum + 1
      ∧ (SteepDesc.optimize E self x0 tol maxItr minItr).getItrNum
          = (SteepDesc.iterations E self x0 tol maxItr minItr : Int)) := by
  refine ⟨⟨?_, BFGS.getItrNum_optimize _ _ _ _ _ _⟩,
    ⟨?_, SteepDesc.getItrNum_optimize_sd _ _ _ _ _ _⟩⟩
  · rw [BFGS.getItrNum_optimize]
    exact BFGS.length_gradNorm _ _ _ _ _ _
  · rw [SteepDesc.getItrNum_optimize_sd]
    exact SteepDesc.length_gradNorm_sd _ _ _ _ _ _

/-- C8: for both strategies and every run with `0 <= minItr <= maxItr`,
`getItrNum() >= minItr` after `optimize` returns, whatever the objective
value at the start point. -/
theorem minItr_le_itrNum (E : Env K n) (self : LineSearch)
    (x0 : Vec K n) (tol : K) (maxItr minItr : Int)
    (h0 : 0 ≤ minItr) (h : minItr ≤ maxItr) :
    minItr ≤ (BFGS.optimize E self x0 tol maxItr minItr).getItrNum
    ∧ minItr ≤ (SteepDesc.optimize E self x0 tol maxItr minItr).getItrNum := by
  have _ := h0
  rw [BFGS.getItrNum_optimize, SteepDesc.getItrNum_optimize_sd]
  exact ⟨BFGS.minItr_le_iterations _ _ _ _ _ _ h,
    SteepDesc.minItr_le_iterations_sd _ _ _ _ _ _ h⟩

/-- Witness for C8: `quadEnv` from `x0 = (1)` with `tol = 2`, so that the
start value `1` is already below `tol`, and `minItr = 2`, `maxItr = 5`. -/
theorem minItr_le_itrNum_witness :
    (0 : Int) ≤ 2 ∧ (2 : Int) ≤ 5
    ∧ quadEnv.func quadStart < 2
    ∧ (2 : Int) ≤ (BFGS.optimize quadEnv LineSearch.fresh quadStart 2 5 2).getItrNum
    ∧ (2 : Int) ≤ (SteepDesc.optimize quadEnv LineSearch.fresh quadStart 2 5 2).getItrNum :=
  ⟨by decide, by decide, by norm_num [quadEnv, quadStart],
    minItr_le_itrNum quadEnv LineSearch.fresh quadStart 2 5 2 (by decide) (by decide)⟩

end Claims


/-! ## Function-evaluation counter -/

section Counter

variable {K : Type} [LinearOrderedField K] {n : Nat}

/-- C9: for both strategies, on a fresh instance (counter 0), the
function-evaluation counter after `optimize` equals `1 + getItrNum()` plus
the sum of the increments made by the `getItrNum()` line-search calls; the
counter never decreases during the run (neither at the initial evaluation,
nor across a line-search call, nor across the value evaluation that follows
it); and if every line-search call of the run counts at most 100 trials, the
final count is at most `1 + 101·getItrNum()`. -/
theorem funcNum_accounting (E : Env K n) (x0 : Vec K n) (tol : K)
    (maxItr minItr : Int) :
    ((BFGS.optimize E LineSearch.fresh x0 tol maxItr minItr).getFuncNum
        = 1 + (BFGS.optimize E LineSearch.fresh x0 tol maxItr minItr).getItrNum
          + ∑ i in Finset.range (BFGS.iterations E LineSearch.fresh x0 tol maxItr minItr),
              (BFGS.trialsAt E LineSearch.fresh x0 i : Int)
      ∧ LineSearch.fresh.funcNum ≤ (BFGS.iterate E LineSearch.fresh x0 0).funcNum
      ∧ (∀ m : Nat,
          (BFGS.iterate E LineSearch.fresh x0 m).funcNum
              ≤ (BFGS.iterate E LineSearch.fresh x0 m).funcNum
                + (BFGS.trialsAt E LineSearch.fresh x0 m : Int)
          ∧ (BFGS.iterate E LineSearch.fresh x0 m).funcNum
                + (BFGS.trialsAt E LineSearch.fresh x0 m : Int)
              ≤ (BFGS.iterate E LineSearch.fresh x0 (m + 1)).funcNum)
      ∧ ((∀ m : Nat, m < BFGS.iterations E LineSearch.fresh x0 tol maxItr minItr →
            BFGS.trialsAt E LineSearch.fresh x0 m ≤ 100) →
          (BFGS.optimize E LineSearch.fresh x0 tol maxItr minItr).getFuncNum
            ≤ 1 + 101 * (BFGS.optimize E LineSearch.fresh x0 tol maxItr minItr).getItrNum))
    ∧ ((SteepDesc.optimize E LineSearch.fresh x0 tol maxItr minItr).getFuncNum
        = 1 + (SteepDesc.optimize E LineSearch.fresh x0 tol maxItr minItr).getItrNum
          + ∑ i in Finset.range (SteepDesc.iterations E LineSearch.fresh x0 tol maxItr minItr),
              (SteepDesc.trialsAt E LineSearch.fresh x0 i : Int)
      ∧ LineSearch.fresh.funcNum ≤ (SteepDesc.iterate E LineSearch.fresh x0 0).funcNum
      ∧ (∀ m : Nat,
          (SteepDesc.iterate E LineSearch.fresh x0 m).funcNum
              ≤ (SteepDesc.iterate E LineSearch.fresh x0 m).funcNum
                + (SteepDesc.trialsAt E LineSearch.fresh x0 m : Int)
          ∧ (SteepDesc.iterate E LineSearch.fresh x0 m).funcNum
                + (SteepDesc.trialsAt E LineSearch.fresh x0 m : Int)
              ≤ (SteepDesc.iterate E LineSearch.fresh x0 (m + 1)).funcNum)
      ∧ ((∀ m : Nat, m < SteepDesc.iterations E LineSearch.fresh x0 tol maxItr minItr →
            SteepDesc.trialsAt E LineSearch.fresh x0 m ≤ 100) →
          (SteepDesc.optimize E LineSearch.fresh x0 tol maxItr minItr).getFuncNum
            ≤ 1 + 101 * (SteepDesc.optimize E LineSearch.fresh x0 tol maxItr minItr).getItrNum)) := by
  refine ⟨⟨?_, ?_, ?_, ?_⟩, ⟨?_, ?_, ?_, ?_⟩⟩
  · rw [BFGS.funcNum_optimize, BFGS.getItrNum_optimize]
    simp [LineSearch.fresh]
  · show (0 : Int) ≤ 0 + 1
    decide
  · intro m
    rw [BFGS.funcNum_iterate_succ]
    have := Int.natCast_nonneg (BFGS.trialsAt E LineSearch.fresh x0 m)
    constructor <;> omega
  · intro h
    rw [BFGS.funcNum_optimize, BFGS.getItrNum_optimize]
    have hs : ∑ i in Finset.range (BFGS.iterations E LineSearch.fresh x0 tol maxItr minItr),
        (BFGS.trialsAt E LineSearch.fresh x0 i : Int)
        ≤ ∑ _i in Finset.range (BFGS.iterations E LineSearch.fresh x0 tol maxItr minItr),
            (100 : Int) := by
      apply Finset.sum_le_sum
      intro i hi
      exact_mod_cast h i (Finset.mem_range.mp hi)
    rw [Finset.sum_const, Finset.card_range, nsmul_eq_mul] at hs
    have h0 : LineSearch.fresh.funcNum = 0 := rfl
    rw [h0]
    linarith
  · rw [SteepDesc.funcNum_optimize_sd, SteepDesc.getItrNum_optimize_sd]
    simp [LineSearch.fresh]
  · show (0 : Int) ≤ 0 + 1
    decide
  · intro m
    rw [SteepDesc.funcNum_iterate_succ_sd]
    have := Int.natCast_nonneg (SteepDesc.trialsAt E LineSearch.fresh x0 m)
    constructor <;> omega
  · intro h
    rw [SteepDesc.funcNum_optimize_sd, SteepDesc.getItrNum_optimize_sd]
    have hs : ∑ i in Finset.range (SteepDesc.iterations E LineSearch.fresh x0 tol maxItr minItr),
        (SteepDesc.trialsAt E LineSearch.fresh x0 i : Int)
        ≤ ∑ _i in Finset.range (SteepDesc.iterations E LineSearch.fresh x0 tol maxItr minItr),
            (100 : Int) := by
      apply Finset.sum_le_sum
      intro i hi
      exact_mod_cast h i (Finset.mem_range.mp hi)
    rw [Finset.sum_const, Finset.card_range, nsmul_eq_mul] at hs
    have h0 : LineSearch.fresh.funcNum = 0 := rfl
    rw [h0]
    linarith

/-- Witness for C9: every line-search call of `quadEnv` counts one trial. -/
theorem funcNum_accounting_witness :
    (∀ m : Nat, m < BFGS.iterations quadEnv LineSearch.fresh quadStart (1 / 1000) 3 3 →
        BFGS.trialsAt quadEnv LineSearch.fresh quadStart m ≤ 100)
    ∧ (BFGS.optimize quadEnv LineSearch.fresh quadStart (1 / 1000) 3 3).getFuncNum
        ≤ 1 + 101 * (BFGS.optimize quadEnv LineSearch.fresh quadStart (1 / 1000) 3 3).getItrNum :=
  ⟨fun _ _ => by simp [BFGS.trialsAt, BFGS.search, quadEnv],
    (funcNum_accounting quadEnv quadStart (1 / 1000) 3 3).1.2.2.2
      (fun _ _ => by simp [BFGS.trialsAt, BFGS.search, quadEnv])⟩

/-- C10 (amended): `optimize` does not reset the evaluation counter.  Called
on an object whose counter holds `self.funcNum` (for instance the object left
by an earlier call), either strategy reports that value plus what a new
object would report for the same call, while the optimal point, minimal
value, trace and success flag are those a new object would report, and the
inverse-Hessian approximation of BFGS starts again from the identity. -/
theorem second_call_count_accumulates (E : Env K n) (self : LineSearch)
    (x0 : Vec K n) (tol : K) (maxItr minItr : Int) :
    ((BFGS.optimize E self x0 tol maxItr minItr).getFuncNum
        = self.funcNum
          + (BFGS.optimize E LineSearch.fresh x0 tol maxItr minItr).getFuncNum
      ∧ (BFGS.optimize E self x0 tol maxItr minItr).getOptValue
          = (BFGS.optimize E LineSearch.fresh x0 tol maxItr minItr).getOptValue
      ∧ (BFGS.optimize E self x0 tol maxItr minItr).getFuncMin
          = (BFGS.optimize E LineSearch.fresh x0 tol maxItr minItr).getFuncMin
      ∧ (BFGS.optimize E self x0 tol maxItr minItr).getGradNorm
          = (BFGS.optimize E LineSearch.fresh x0 tol maxItr minItr).getGradNorm
      ∧ (BFGS.optimize E self x0 tol maxItr minItr).isSuccess
          = (BFGS.optimize E LineSearch.fresh x0 tol maxItr minItr).isSuccess)
    ∧ (BFGS.init E self x0).H = eye n 1
    ∧ ((SteepDesc.optimize E self x0 tol maxItr minItr).getFuncNum
        = self.funcNum
          + (SteepDesc.optimize E LineSearch.fresh x0 tol maxItr minItr).getFuncNum
      ∧ (SteepDesc.optimize E self x0 tol maxItr minItr).getOptValue
          = (SteepDesc.optimize E LineSearch.fresh x0 tol maxItr minItr).getOptValue
      ∧ (SteepDesc.optimize E self x0 tol maxItr minItr).getFuncMin
          = (SteepDesc.optimize E LineSearch.fresh x0 tol maxItr minItr).getFuncMin
      ∧ (SteepDesc.optimize E self x0 tol maxItr minItr).getGradNorm
          = (SteepDesc.optimize E LineSearch.fresh x0 tol maxItr minItr).getGradNorm
      ∧ (SteepDesc.optimize E self x0 tol maxItr minItr).isSuccess
          = (SteepDesc.optimize E LineSearch.fresh x0 tol maxItr minItr).isSuccess) :=
  ⟨BFGS.optimize_shift E self x0 tol maxItr minItr, rfl,
    SteepDesc.optimize_shift_sd E self x0 tol maxItr minItr⟩

end Counter


/-! ## Linear algebra of the primitives -/

section Algebra

variable {K : Type} [LinearOrderedField K] {n : Nat}

theorem sum_eye_mul (f : Fin n → K) (i : Fin n) :
    ∑ m, eye n (1 : K) i m * f m = f i := by
  simp [eye]

theorem sum_mul_eye (f : Fin n → K) (j : Fin n) :
    ∑ l, f l * eye n (1 : K) l j = f j := by
  simp [eye]

theorem mulVec_eye (x : Vec K n) : mulVec (eye n 1) x = x := by
  funext i
  exact sum_eye_mul x i

theorem direction_eye (g : Vec K n) : BFGS.direction (eye n 1) g = -g := by
  funext i
  simp [BFGS.direction, mulVec, eye]

theorem isSymm_eye : IsSymm (eye n (1 : K)) := by
  intro i j
  simp only [eye]
  by_cases h : i = j
  · simp [h]
  · simp [h, Ne.symm h]

theorem dotProd_self_pos (x : Vec K n) (hx : x ≠ 0) : 0 < dotProd x x := by
  have hex : ∃ i, x i ≠ 0 := by
    by_contra hcon
    push_neg at hcon
    exact hx (funext hcon)
  obtain ⟨i, hi⟩ := hex
  unfold dotProd
  apply Finset.sum_pos'
  · intro j _
    exact mul_self_nonneg (x j)
  · exact ⟨i, Finset.mem_univ i, mul_self_pos.mpr hi⟩

theorem posDef_eye : PosDef (eye n (1 : K)) := by
  intro x hx
  rw [mulVec_eye]
  exact dotProd_self_pos x hx

theorem updateH_reset (sqrt : K → K) (EPS : K) (H : Mat K n) (s y : Vec K n)
    (h : dotProd y s < EPS ∨ dotProd y (mulVec H y) < EPS) :
    BFGS.updateH sqrt EPS H s y = eye n 1 := by
  simp only [BFGS.updateH, h, if_true]

theorem updateH_update (sqrt : K → K) (EPS : K) (H : Mat K n) (s y : Vec K n)
    (h : ¬ (dotProd y s < EPS ∨ dotProd y (mulVec H y) < EPS)) :
    BFGS.updateH sqrt EPS H s y
      = BFGS.secantUpdate sqrt H s (mulVec H y) (dotProd y s)
          (dotProd y (mulVec H y)) := by
  simp only [BFGS.updateH, h, if_false]

end Algebra

/-! ## Curvature safeguard -/

section Safeguard

variable {K : Type} [LinearOrderedField K] {n : Nat}

/-- C3: in `BFGS::optimize`, for every iteration (from any loop state, whatever
its `H`) whose secant pair has `ys <= 0`, or more generally `ys < EPS` or
`yHy < EPS`, with `EPS > 0`, the inverse-Hessian approximation at the end of
the iteration is exactly the identity, and the direction `d = - H * g`
computed from the resulting state is the negated gradient at the new point. -/
theorem safeguard_resets_to_identity (E : Env K n) (st : BFGS.State K n)
    (hEPS : 0 < E.EPS)
    (h : dotProd (BFGS.secantY E st) (BFGS.secantS E st) ≤ 0
      ∨ dotProd (BFGS.secantY E st) (BFGS.secantS E st) < E.EPS
      ∨ dotProd (BFGS.secantY E st) (mulVec st.H (BFGS.secantY E st)) < E.EPS) :
    (BFGS.body E st).H = eye n 1
    ∧ BFGS.direction (BFGS.body E st).H (BFGS.body E st).g = -(BFGS.body E st).g := by
  have hH : (BFGS.body E st).H = eye n 1 := by
    show BFGS.updateH E.sqrt E.EPS st.H (BFGS.secantS E st) (BFGS.secantY E st) = eye n 1
    apply updateH_reset
    rcases h with h | h | h
    · exact Or.inl (lt_of_le_of_lt h hEPS)
    · exact Or.inl h
    · exact Or.inr h
  exact ⟨hH, by rw [hH, direction_eye]⟩

/-- Witness for C3: `linEnv` has a constant gradient, so from `linState`
(where `H = 5`) the secant pair has `ys = 0 <= 0`. -/
theorem safeguard_resets_to_identity_witness :
    0 < linEnv.EPS
    ∧ dotProd (BFGS.secantY linEnv linState) (BFGS.secantS linEnv linState) ≤ 0
    ∧ linState.H ≠ eye 1 1
    ∧ (BFGS.body linEnv linState).H = eye 1 1
    ∧ BFGS.direction (BFGS.body linEnv linState).H (BFGS.body linEnv linState).g
        = -(BFGS.body linEnv linState).g :=
  ⟨by norm_num [linEnv],
    by simp [BFGS.secantY, linEnv, linState, dotProd],
    by
      intro hcon
      have := congrFun (congrFun hcon 0) 0
      norm_num [linState, eye] at this,
    safeguard_resets_to_identity linEnv linState (by norm_num [linEnv])
      (Or.inl (by simp [BFGS.secantY, linEnv, linState, dotProd]))⟩

end Safeguard


/-! ## The secant update -/

section Secant

variable {K : Type} [LinearOrderedField K] {n : Nat}

theorem sum_mul_symm (H : Mat K n) (hsym : IsSymm H) (y : Vec K n) (l : Fin n) :
    ∑ m, y m * H m l = mulVec H y l := by
  unfold mulVec
  apply Finset.sum_congr rfl
  intro m _
  rw [hsym m l, mul_comm]

theorem secantUpdate_eq_standard (sqrt : K → K) (H : Mat K n) (s y : Vec K n)
    (hsym : IsSymm H) (hys : dotProd y s ≠ 0) (hyHy : dotProd y (mulVec H y) ≠ 0)
    (hsq : sqrt (dotProd y (mulVec H y)) * sqrt (dotProd y (mulVec H y))
      = dotProd y (mulVec H y)) :
    BFGS.secantUpdate sqrt H s (mulVec H y) (dotProd y s) (dotProd y (mulVec H y))
      = standardBFGS H s y := by
  funext i j
  have h1 : ∀ l, mulMat (eye n 1 - fun i j => multTr s y i j / dotProd y s) H i l
      = H i l - s i / dotProd y s * mulVec H y l := by
    intro l
    simp only [mulMat, Pi.sub_apply, sub_mul, Finset.sum_sub_distrib, sum_eye_mul,
      multTr]
    congr 1
    rw [← sum_mul_symm H hsym y l, Finset.mul_sum]
    apply Finset.sum_congr rfl
    intro m _
    ring
  have h2 : ∑ l, H i l * y l = mulVec H y i := rfl
  have h3 : ∑ l, mulVec H y l * y l = dotProd y (mulVec H y) := by
    unfold dotProd
    apply Finset.sum_congr rfl
    intro l _
    ring
  have h4 : mulMat (mulMat (eye n 1 - fun i j => multTr s y i j / dotProd y s) H)
      (eye n 1 - fun i j => multTr y s i j / dotProd y s) i j
      = (H i j - s i / dotProd y s * mulVec H y j)
        - (mulVec H y i - s i / dotProd y s * dotProd y (mulVec H y)) * s j / dotProd y s := by
    show ∑ l, mulMat (eye n 1 - fun i j => multTr s y i j / dotProd y s) H i l
        * ((eye n 1 - fun i j => multTr y s i j / dotProd y s : Mat K n) l j) = _
    simp only [h1, Pi.sub_apply, mul_sub, Finset.sum_sub_distrib, sum_mul_eye]
    congr 1
    simp only [multTr]
    rw [← h2, ← h3, Finset.mul_sum, ← Finset.sum_sub_distrib, Finset.sum_mul,
      Finset.sum_div]
    apply Finset.sum_congr rfl
    intro l _
    ring
  show H i j + multTr s s i j / dotProd y s
      - multTr (mulVec H y) (mulVec H y) i j / dotProd y (mulVec H y)
      + multTr (fun i => sqrt (dotProd y (mulVec H y))
          * (s i / dotProd y s - mulVec H y i / dotProd y (mulVec H y)))
        (fun i => sqrt (dotProd y (mulVec H y))
          * (s i / dotProd y s - mulVec H y i / dotProd y (mulVec H y))) i j
    = mulMat (mulMat (eye n 1 - fun i j => multTr s y i j / dotProd y s) H)
        (eye n 1 - fun i j => multTr y s i j / dotProd y s) i j
      + multTr s s i j / dotProd y s
  rw [h4]
  have hv : ∀ u v : K, sqrt (dotProd y (mulVec H y)) * u
      * (sqrt (dotProd y (mulVec H y)) * v) = dotProd y (mulVec H y) * (u * v) := by
    intro u v
    rw [mul_mul_mul_comm, hsq]
  simp only [multTr, hv]
  field_simp
  ring

theorem dotProd_symm (a b : Vec K n) : dotProd a b = dotProd b a := by
  unfold dotProd
  exact Finset.sum_congr rfl (fun i _ => mul_comm _ _)

theorem dotProd_add_right (u a b : Vec K n) :
    dotProd u (a + b) = dotProd u a + dotProd u b := by
  simp only [dotProd, Pi.add_apply, mul_add, Finset.sum_add_distrib]

theorem dotProd_sub_right (u a b : Vec K n) :
    dotProd u (a - b) = dotProd u a - dotProd u b := by
  simp only [dotProd, Pi.sub_apply, mul_sub, Finset.sum_sub_distrib]

theorem dotProd_sub_smul_right (u a b : Vec K n) (t : K) :
    dotProd u (fun i => a i - t * b i) = dotProd u a - t * dotProd u b := by
  simp only [dotProd, mul_sub, Finset.sum_sub_distrib, Finset.mul_sum]
  congr 1
  exact Finset.sum_congr rfl (fun i _ => by ring)

theorem dotProd_sub_smul_left (a b v : Vec K n) (t : K) :
    dotProd (fun i => a i - t * b i) v = dotProd a v - t * dotProd b v := by
  rw [dotProd_symm, dotProd_sub_smul_right, dotProd_symm v a, dotProd_symm v b]

theorem mulVec_sub_smul (H : Mat K n) (a b : Vec K n) (t : K) :
    mulVec H (fun i => a i - t * b i) = fun i => mulVec H a i - t * mulVec H b i := by
  funext i
  simp only [mulVec, mul_sub, Finset.sum_sub_distrib, Finset.mul_sum]
  congr 1
  exact Finset.sum_congr rfl (fun j _ => by ring)

theorem mulVec_add_mat (A B : Mat K n) (x : Vec K n) :
    mulVec (A + B) x = mulVec A x + mulVec B x := by
  funext i
  simp only [mulVec, Pi.add_apply, add_mul, Finset.sum_add_distrib]

theorem mulVec_sub_mat (A B : Mat K n) (x : Vec K n) :
    mulVec (A - B) x = mulVec A x - mulVec B x := by
  funext i
  simp only [mulVec, Pi.sub_apply, sub_mul, Finset.sum_sub_distrib]

theorem quad_multTr (u v x : Vec K n) :
    dotProd x (mulVec (multTr u v) x) = dotProd u x * dotProd v x := by
  simp only [dotProd, mulVec, multTr]
  rw [Finset.sum_mul_sum]
  apply Finset.sum_congr rfl
  intro i _
  rw [Finset.mul_sum]
  exact Finset.sum_congr rfl (fun j _ => by ring)

theorem quad_multTr_div (u v x : Vec K n) (c : K) :
    dotProd x (mulVec (fun i j => multTr u v i j / c) x)
      = dotProd u x * dotProd v x / c := by
  rw [← quad_multTr, dotProd, dotProd, Finset.sum_div]
  apply Finset.sum_congr rfl
  intro i _
  simp only [mulVec, Finset.mul_sum, Finset.sum_div]
  exact Finset.sum_congr rfl (fun j _ => by ring)

theorem dotProd_mulVec_symm (H : Mat K n) (hsym : IsSymm H) (a b : Vec K n) :
    dotProd (mulVec H a) b = dotProd a (mulVec H b) := by
  simp only [dotProd, mulVec, Finset.sum_mul, Finset.mul_sum]
  rw [Finset.sum_comm]
  apply Finset.sum_congr rfl
  intro i _
  apply Finset.sum_congr rfl
  intro j _
  rw [hsym j i]
  ring

theorem posDef_nonneg (H : Mat K n) (hpd : PosDef H) (w : Vec K n) :
    0 ≤ dotProd w (mulVec H w) := by
  by_cases hw : w = 0
  · subst hw
    simp [dotProd]
  · exact le_of_lt (hpd w hw)

theorem quad_secantUpdate (sqrt : K → K) (H : Mat K n) (s y x : Vec K n)
    (hsym : IsSymm H) (hys : dotProd y s ≠ 0) (hyHy : dotProd y (mulVec H y) ≠ 0)
    (hsq : sqrt (dotProd y (mulVec H y)) * sqrt (dotProd y (mulVec H y))
      = dotProd y (mulVec H y)) :
    dotProd x (mulVec (BFGS.secantUpdate sqrt H s (mulVec H y) (dotProd y s)
        (dotProd y (mulVec H y))) x)
      = dotProd (fun i => x i - dotProd s x / dotProd y s * y i)
          (mulVec H (fun i => x i - dotProd s x / dotProd y s * y i))
        + dotProd s x * dotProd s x / dotProd y s := by
  have hb : dotProd y (mulVec H x) = dotProd (mulVec H y) x :=
    (dotProd_mulVec_symm H hsym y x).symm
  have hb' : dotProd x (mulVec H y) = dotProd (mulVec H y) x := dotProd_symm _ _
  have hv : dotProd (fun i => sqrt (dotProd y (mulVec H y))
        * (s i / dotProd y s - mulVec H y i / dotProd y (mulVec H y))) x
      = sqrt (dotProd y (mulVec H y))
        * (dotProd s x / dotProd y s
          - dotProd (mulVec H y) x / dotProd y (mulVec H y)) := by
    simp only [dotProd, Finset.mul_sum, Finset.sum_div, ← Finset.sum_sub_distrib]
    exact Finset.sum_congr rfl (fun i _ => by ring)
  have hr : ∀ u : K, sqrt (dotProd y (mulVec H y)) * u
      * (sqrt (dotProd y (mulVec H y)) * u) = dotProd y (mulVec H y) * (u * u) := by
    intro u
    rw [mul_mul_mul_comm, hsq]
  unfold BFGS.secantUpdate
  simp only [mulVec_add_mat, mulVec_sub_mat, dotProd_add_right, dotProd_sub_right,
    quad_multTr_div, quad_multTr, hv, hr, mulVec_sub_smul, dotProd_sub_smul_right,
    dotProd_sub_smul_left, hb, hb']
  field_simp
  ring

theorem isSymm_secantUpdate (sqrt : K → K) (H : Mat K n) (s Hy : Vec K n) (ys yHy : K)
    (hsym : IsSymm H) : IsSymm (BFGS.secantUpdate sqrt H s Hy ys yHy) := by
  intro i j
  simp only [BFGS.secantUpdate, Pi.add_apply, Pi.sub_apply, multTr, hsym i j]
  ring

theorem posDef_secantUpdate (sqrt : K → K) (H : Mat K n) (s y : Vec K n)
    (hsym : IsSymm H) (hpd : PosDef H) (hys : 0 < dotProd y s)
    (hyHy : 0 < dotProd y (mulVec H y))
    (hsq : sqrt (dotProd y (mulVec H y)) * sqrt (dotProd y (mulVec H y))
      = dotProd y (mulVec H y)) :
    PosDef (BFGS.secantUpdate sqrt H s (mulVec H y) (dotProd y s)
      (dotProd y (mulVec H y))) := by
  intro x hx
  rw [quad_secantUpdate sqrt H s y x hsym (ne_of_gt hys) (ne_of_gt hyHy) hsq]
  by_cases ha : dotProd s x = 0
  · have hw : (fun i => x i - dotProd s x / dotProd y s * y i) = x := by
      funext i
      simp [ha]
    rw [hw, ha]
    have := hpd x hx
    simpa using this
  · have h1 := posDef_nonneg H hpd (fun i => x i - dotProd s x / dotProd y s * y i)
    have h2 : 0 < dotProd s x * dotProd s x / dotProd y s :=
      div_pos (mul_self_pos.mpr ha) hys
    linarith

end Secant

section SecantGeneric

variable {K : Type} [LinearOrderedField K] {n : Nat}

theorem isSymm_updateH (sqrt : K → K) (EPS : K) (H : Mat K n) (s y : Vec K n)
    (hsym : IsSymm H) : IsSymm (BFGS.updateH sqrt EPS H s y) := by
  by_cases h : dotProd y s < EPS ∨ dotProd y (mulVec H y) < EPS
  · rw [updateH_reset sqrt EPS H s y h]
    exact isSymm_eye
  · rw [updateH_update sqrt EPS H s y h]
    exact isSymm_secantUpdate sqrt H s _ _ _ hsym

theorem posDef_updateH (sqrt : K → K) (hsqrt : ∀ a : K, 0 ≤ a → sqrt a * sqrt a = a)
    (EPS : K) (hEPS : 0 < EPS) (H : Mat K n) (s y : Vec K n)
    (hsym : IsSymm H) (hpd : PosDef H) : PosDef (BFGS.updateH sqrt EPS H s y) := by
  by_cases h : dotProd y s < EPS ∨ dotProd y (mulVec H y) < EPS
  · rw [updateH_reset sqrt EPS H s y h]
    exact posDef_eye
  · rw [updateH_update sqrt EPS H s y h]
    push_neg at h
    have hys : 0 < dotProd y s := lt_of_lt_of_le hEPS h.1
    have hyHy : 0 < dotProd y (mulVec H y) := lt_of_lt_of_le hEPS h.2
    exact posDef_secantUpdate sqrt H s y hsym hpd hys hyHy (hsqrt _ (le_of_lt hyHy))

theorem spd_iterate (E : Env K n) (hsqrt : ∀ a : K, 0 ≤ a → E.sqrt a * E.sqrt a = a)
    (hEPS : 0 < E.EPS) (self : LineSearch) (x0 : Vec K n) (m : Nat) :
    IsSymm (BFGS.iterate E self x0 m).H ∧ PosDef (BFGS.iterate E self x0 m).H := by
  induction m with
  | zero => exact ⟨isSymm_eye, posDef_eye⟩
  | succ m ih =>
    rw [BFGS.iterate_succ]
    exact ⟨isSymm_updateH E.sqrt E.EPS _ _ _ ih.1,
      posDef_updateH E.sqrt hsqrt E.EPS hEPS _ _ _ ih.1 ih.2⟩

end SecantGeneric

section SecantReal

variable {n : Nat}

/-- C4: over exact real arithmetic, for every symmetric `H` and vectors `s`,
`y` with `ys = dot(y,s) > 0` and `yHy = dot(y, H·y) > 0`, the matrix computed
by the update branch of `BFGS::optimize`,
`H + s·sᵗ/ys − Hy·Hyᵗ/yHy + v·vᵗ` with `Hy = H·y` and
`v = sqrt(yHy)·(s/ys − Hy/yHy)`, equals the standard BFGS inverse update
`(I − s·yᵗ/ys)·H·(I − y·sᵗ/ys) + s·sᵗ/ys`; the same holds of the whole
`H`-step whenever it takes the update branch. -/
theorem secantUpdate_eq_standardBFGS (H : Mat ℝ n) (s y : Vec ℝ n)
    (hsym : IsSymm H) (hys : 0 < dotProd y s) (hyHy : 0 < dotProd y (mulVec H y)) :
    BFGS.secantUpdate Real.sqrt H s (mulVec H y) (dotProd y s) (dotProd y (mulVec H y))
        = standardBFGS H s y
    ∧ ∀ EPS : ℝ, ¬ (dotProd y s < EPS ∨ dotProd y (mulVec H y) < EPS) →
        BFGS.updateH Real.sqrt EPS H s y = standardBFGS H s y := by
  have key := secantUpdate_eq_standard Real.sqrt H s y hsym (ne_of_gt hys)
    (ne_of_gt hyHy) (Real.mul_self_sqrt (le_of_lt hyHy))
  refine ⟨key, fun EPS h => ?_⟩
  rw [updateH_update Real.sqrt EPS H s y h]
  exact key

/-- Witness for C4: `H = [[2,1],[1,2]]`, `s = y = (1,1)`, where `ys = 2` and
`yHy = 6`. -/
theorem secantUpdate_eq_standardBFGS_witness :
    IsSymm (fun i j : Fin 2 => if i = j then (2 : ℝ) else 1)
    ∧ 0 < dotProd (fun _ : Fin 2 => (1 : ℝ)) (fun _ => 1)
    ∧ 0 < dotProd (fun _ : Fin 2 => (1 : ℝ))
        (mulVec (fun i j : Fin 2 => if i = j then (2 : ℝ) else 1) (fun _ => 1))
    ∧ BFGS.secantUpdate Real.sqrt (fun i j : Fin 2 => if i = j then (2 : ℝ) else 1)
        (fun _ => 1)
        (mulVec (fun i j : Fin 2 => if i = j then (2 : ℝ) else 1) (fun _ => 1))
        (dotProd (fun _ : Fin 2 => (1 : ℝ)) (fun _ => 1))
        (dotProd (fun _ : Fin 2 => (1 : ℝ))
          (mulVec (fun i j : Fin 2 => if i = j then (2 : ℝ) else 1) (fun _ => 1)))
      = standardBFGS (fun i j : Fin 2 => if i = j then (2 : ℝ) else 1)
          (fun _ => 1) (fun _ => 1) :=
  have hsym : IsSymm (fun i j : Fin 2 => if i = j then (2 : ℝ) else 1) := by
    intro i j
    by_cases h : i = j
    · simp [h]
    · simp [h, Ne.symm h]
  have hys : 0 < dotProd (fun _ : Fin 2 => (1 : ℝ)) (fun _ => 1) := by
    norm_num [dotProd]
  have hyHy : 0 < dotProd (fun _ : Fin 2 => (1 : ℝ))
      (mulVec (fun i j : Fin 2 => if i = j then (2 : ℝ) else 1) (fun _ => 1)) := by
    norm_num [dotProd, mulVec, Fin.sum_univ_two]
  ⟨hsym, hys, hyHy, (secantUpdate_eq_standardBFGS _ _ _ hsym hys hyHy).1⟩

/-- C5: over exact real arithmetic with `EPS > 0`, the inverse-Hessian
approximation of `BFGS::optimize` is symmetric and positive-definite at the
start of every iteration: the identity it starts from is, one `H`-step (reset
to the identity when `ys < EPS` or `yHy < EPS`, the secant update otherwise)
maps every symmetric positive-definite `H` to a symmetric positive-definite
matrix for all `s` and `y`, and so the `H` of the loop state after any number
of rounds is symmetric and positive-definite. -/
theorem hessian_symm_posDef (EPS : ℝ) (hEPS : 0 < EPS) :
    (IsSymm (eye n (1 : ℝ)) ∧ PosDef (eye n (1 : ℝ)))
    ∧ (∀ (H : Mat ℝ n) (s y : Vec ℝ n), IsSymm H → PosDef H →
        IsSymm (BFGS.updateH Real.sqrt EPS H s y)
          ∧ PosDef (BFGS.updateH Real.sqrt EPS H s y))
    ∧ (∀ E : Env ℝ n, E.sqrt = Real.sqrt → E.EPS = EPS →
        ∀ (self : LineSearch) (x0 : Vec ℝ n) (m : Nat),
          IsSymm (BFGS.iterate E self x0 m).H ∧ PosDef (BFGS.iterate E self x0 m).H) := by
  refine ⟨⟨isSymm_eye, posDef_eye⟩, fun H s y hsym hpd => ?_, ?_⟩
  · exact ⟨isSymm_updateH Real.sqrt EPS H s y hsym,
      posDef_updateH Real.sqrt (fun a ha => Real.mul_self_sqrt ha) EPS hEPS H s y
        hsym hpd⟩
  · intro E hs he self x0 m
    apply spd_iterate E
    · rw [hs]
      exact fun a ha => Real.mul_self_sqrt ha
    · rw [he]
      exact hEPS

/-- Witness for C5: `EPS = 1`, `H` the 1×1 identity, `s = (1)`, `y = (2)`,
where `ys = 2` and `yHy = 4` are not below `EPS`, so the secant update is
applied. -/
theorem hessian_symm_posDef_witness :
    (0 : ℝ) < 1
    ∧ IsSymm (eye 1 (1 : ℝ)) ∧ PosDef (eye 1 (1 : ℝ))
    ∧ ¬ (dotProd (fun _ : Fin 1 => (2 : ℝ)) (fun _ => 1) < 1
        ∨ dotProd (fun _ : Fin 1 => (2 : ℝ)) (mulVec (eye 1 1) (fun _ => 2)) < 1)
    ∧ IsSymm (BFGS.updateH Real.sqrt 1 (eye 1 1) (fun _ : Fin 1 => 1) (fun _ => 2))
    ∧ PosDef (BFGS.updateH Real.sqrt 1 (eye 1 1) (fun _ : Fin 1 => 1) (fun _ => 2)) :=
  ⟨one_pos, isSymm_eye, posDef_eye,
    by norm_num [dotProd, mulVec, eye],
    (hessian_symm_posDef 1 one_pos).2.1 (eye 1 1) (fun _ => 1) (fun _ => 2)
      isSymm_eye posDef_eye⟩

end SecantReal

/-! ## Termination and the final iterate -/

section LoopFuel

variable {σ : Type} (c : σ → Bool) (body : σ → σ)

theorem whileLoop_add_fuel (fuel : Nat) (st : σ)
    (h : c (whileLoop c body fuel st) = false) (d : Nat) :
    whileLoop c body (fuel + d) st = whileLoop c body fuel st
      ∧ whileCount c body (fuel + d) st = whileCount c body fuel st := by
  induction fuel generalizing st with
  | zero =>
    have hc : c st = false := h
    cases d with
    | zero => exact ⟨rfl, rfl⟩
    | succ d =>
      rw [Nat.zero_add]
      simp [whileLoop, whileCount, hc]
  | succ f ih =>
    rw [Nat.add_right_comm]
    by_cases hg : c st = true
    · simp only [whileLoop, whileCount, hg, if_true] at h ⊢
      have := ih (body st) h
      exact ⟨this.1, by rw [this.2]⟩
    · simp [whileLoop, whileCount, hg]

end LoopFuel

namespace BFGS

variable {K : Type} [AddCommMonoid K] [Mul K] [One K] [Neg K] [Sub K] [Div K] [LT K]
  [∀ a b : K, Decidable (a < b)] {n : Nat}

theorem g_iterate (E : Env K n) (self : LineSearch) (x0 : Vec K n) (m : Nat) :
    (iterate E self x0 m).g = E.grad (iterate E self x0 m).x := by
  cases m with
  | zero => rfl
  | succ m => rw [iterate_succ]; rfl

theorem gnorm_iterate (E : Env K n) (self : LineSearch) (x0 : Vec K n) (m : Nat) :
    (iterate E self x0 m).gnorm (m : Int) = norm E.sqrt (iterate E self x0 m).g := by
  cases m with
  | zero => simp [iterate, init]
  | succ m =>
    rw [iterate_succ]
    have hk := k_iterate E self x0 m
    simp only [body, hk]
    push_cast
    simp

theorem last_gradNorm (E : Env K n) (self : LineSearch) (x0 : Vec K n) (tol : K)
    (maxItr minItr : Int) :
    (optimize E self x0 tol maxItr minItr).getGradNorm[
        (optimize E self x0 tol maxItr minItr).getItrNum.toNat]?
      = some (norm E.sqrt (E.grad (optimize E self x0 tol maxItr minItr).getOptValue)) := by
  rw [getItrNum_optimize]
  simp only [Optimizer.getGradNorm, Optimizer.getOptValue, optimize, finish, copyTrace,
    k_run, Int.toNat_ofNat]
  rw [run_eq_iterate]
  have h1 : ((iterations E self x0 tol maxItr minItr : Int) + 1).toNat
      = iterations E self x0 tol maxItr minItr + 1 := by omega
  rw [h1, List.getElem?_map, List.getElem?_range (Nat.lt_succ_self _)]
  simp only [Option.map_some']
  rw [gnorm_iterate, g_iterate]

theorem itrNum_eq_maxItr_of_fail {F : Type} [LinearOrderedField F] {d : Nat}
    (E : Env F d) (self : LineSearch) (x0 : Vec F d)
    (tol : F) (maxItr minItr : Int) (h0 : 0 ≤ maxItr)
    (hs : (optimize E self x0 tol maxItr minItr).isSuccess = false) :
    (optimize E self x0 tol maxItr minItr).getItrNum = maxItr := by
  have hle := iterations_le E self x0 tol maxItr minItr
  rw [max_eq_left h0] at hle
  have hg := guard_run E self x0 tol maxItr minItr
  rw [guard_eq_false_iff, k_run] at hg
  have hfx : tol < (run E self x0 tol maxItr minItr).fx := by
    by_contra hcon
    have : (optimize E self x0 tol maxItr minItr).isSuccess = true := by
      simp only [Optimizer.isSuccess, optimize, finish]
      simp [hcon]
    rw [hs] at this
    exact Bool.noConfusion this
  rw [getItrNum_optimize]
  rcases hg with ⟨_, h2⟩ | h2
  · exact absurd h2 (not_lt.mpr (le_of_lt hfx))
  · omega

theorem run_add_fuel (E : Env K n) (self : LineSearch) (x0 : Vec K n) (tol : K)
    (maxItr minItr : Int) (d : Nat) :
    whileLoop (guard tol maxItr minItr) (body E) (maxItr.toNat + d) (init E self x0)
        = run E self x0 tol maxItr minItr
      ∧ whileCount (guard tol maxItr minItr) (body E) (maxItr.toNat + d) (init E self x0)
        = iterations E self x0 tol maxItr minItr :=
  whileLoop_add_fuel _ _ _ _ (guard_run E self x0 tol maxItr minItr) d

end BFGS

namespace SteepDesc

variable {K : Type} [AddCommMonoid K] [Mul K] [One K] [Neg K] [Sub K] [Div K] [LT K]
  [∀ a b : K, Decidable (a < b)] {n : Nat}

theorem g_iterate_sd (E : Env K n) (self : LineSearch) (x0 : Vec K n) (m : Nat) :
    (iterate E self x0 m).g = E.grad (iterate E self x0 m).x := by
  cases m with
  | zero => rfl
  | succ m => rw [iterate_succ_sd]; rfl

theorem gnorm_iterate_sd (E : Env K n) (self : LineSearch) (x0 : Vec K n) (m : Nat) :
    (iterate E self x0 m).gnorm (m : Int) = norm E.sqrt (iterate E self x0 m).g := by
  cases m with
  | zero => simp [iterate, init]
  | succ m =>
    rw [iterate_succ_sd]
    have hk := k_iterate_sd E self x0 m
    simp only [body, hk]
    push_cast
    simp

theorem last_gradNorm_sd (E : Env K n) (self : LineSearch) (x0 : Vec K n) (tol : K)
    (maxItr minItr : Int) :
    (optimize E self x0 tol maxItr minItr).getGradNorm[
        (optimize E self x0 tol maxItr minItr).getItrNum.toNat]?
      = some (norm E.sqrt (E.grad (optimize E self x0 tol maxItr minItr).getOptValue)) := by
  rw [getItrNum_optimize_sd]
  simp only [Optimizer.getGradNorm, Optimizer.getOptValue, optimize, finish, copyTrace,
    k_run_sd, Int.toNat_ofNat]
  rw [run_eq_iterate_sd]
  have h1 : ((iterations E self x0 tol maxItr minItr : Int) + 1).toNat
      = iterations E self x0 tol maxItr minItr + 1 := by omega
  rw [h1, List.getElem?_map, List.getElem?_range (Nat.lt_succ_self _)]
  simp only [Option.map_some']
  rw [gnorm_iterate_sd, g_iterate_sd]

theorem itrNum_eq_maxItr_of_fail_sd {F : Type} [LinearOrderedField F] {d : Nat}
    (E : Env F d) (self : LineSearch) (x0 : Vec F d)
    (tol : F) (maxItr minItr : Int) (h0 : 0 ≤ maxItr)
    (hs : (optimize E self x0 tol maxItr minItr).isSuccess = false) :
    (optimize E self x0 tol maxItr minItr).getItrNum = maxItr := by
  have hle := iterations_le_sd E self x0 tol maxItr minItr
  rw [max_eq_left h0] at hle
  have hg := guard_run_sd E self x0 tol maxItr minItr
  rw [guard_eq_false_iff_sd, k_run_sd] at hg
  have hfx : tol < (run E self x0 tol maxItr minItr).fx := by
    by_contra hcon
    have : (optimize E self x0 tol maxItr minItr).isSuccess = true := by
      simp only [Optimizer.isSuccess, optimize, finish]
      simp [hcon]
    rw [hs] at this
    exact Bool.noConfusion this
  rw [getItrNum_optimize_sd]
  rcases hg with ⟨_, h2⟩ | h2
  · exact absurd h2 (not_lt.mpr (le_of_lt hfx))
  · omega

theorem run_add_fuel_sd (E : Env K n) (self : LineSearch) (x0 : Vec K n) (tol : K)
    (maxItr minItr : Int) (d : Nat) :
    whileLoop (guard tol maxItr minItr) (body E) (maxItr.toNat + d) (init E self x0)
        = run E self x0 tol maxItr minItr
      ∧ whileCount (guard tol maxItr minItr) (body E) (maxItr.toNat + d) (init E self x0)
        = iterations E self x0 tol maxItr minItr :=
  whileLoop_add_fuel _ _ _ _ (guard_run_sd E self x0 tol maxItr minItr) d

end SteepDesc


/-! ## Descent directions and the secant equation -/

section Descent

variable {K : Type} [LinearOrderedField K] {n : Nat}

theorem mulVec_neg_mat (H : Mat K n) (x : Vec K n) : mulVec (-H) x = -mulVec H x := by
  funext i
  simp only [mulVec, Pi.neg_apply, neg_mul, Finset.sum_neg_distrib]

theorem dotProd_neg_right (a b : Vec K n) : dotProd a (-b) = -dotProd a b := by
  simp only [dotProd, Pi.neg_apply, mul_neg, Finset.sum_neg_distrib]

theorem steep_direction_descent (g : Vec K n) (hg : g ≠ 0) :
    dotProd g (SteepDesc.direction g) < 0 := by
  rw [SteepDesc.direction, dotProd_neg_right]
  exact neg_neg_of_pos (dotProd_self_pos g hg)

theorem bfgs_direction_descent (H : Mat K n) (hpd : PosDef H) (g : Vec K n)
    (hg : g ≠ 0) : dotProd g (BFGS.direction H g) < 0 := by
  rw [BFGS.direction, mulVec_neg_mat, dotProd_neg_right]
  exact neg_neg_of_pos (hpd g hg)

theorem mulVec_multTr (u v x : Vec K n) :
    mulVec (multTr u v) x = fun i => u i * dotProd v x := by
  funext i
  simp only [mulVec, multTr, dotProd, Finset.mul_sum]
  exact Finset.sum_congr rfl (fun j _ => by ring)

theorem mulVec_multTr_div (u v x : Vec K n) (c : K) :
    mulVec (fun i j => multTr u v i j / c) x = fun i => u i * dotProd v x / c := by
  funext i
  simp only [mulVec, multTr, dotProd, Finset.mul_sum, Finset.sum_div]
  exact Finset.sum_congr rfl (fun j _ => by ring)

theorem secantUpdate_mulVec (sqrt : K → K) (H : Mat K n) (s y : Vec K n)
    (hys : dotProd y s ≠ 0) (hyHy : dotProd y (mulVec H y) ≠ 0) :
    mulVec (BFGS.secantUpdate sqrt H s (mulVec H y) (dotProd y s)
        (dotProd y (mulVec H y))) y = s := by
  have hv : dotProd (fun i => sqrt (dotProd y (mulVec H y))
        * (s i / dotProd y s - mulVec H y i / dotProd y (mulVec H y))) y = 0 := by
    have h1 : dotProd (fun i => sqrt (dotProd y (mulVec H y))
          * (s i / dotProd y s - mulVec H y i / dotProd y (mulVec H y))) y
        = sqrt (dotProd y (mulVec H y))
          * (dotProd s y / dotProd y s
            - dotProd (mulVec H y) y / dotProd y (mulVec H y)) := by
      simp only [dotProd, Finset.mul_sum, Finset.sum_div, ← Finset.sum_sub_distrib]
      exact Finset.sum_congr rfl (fun i _ => by ring)
    rw [h1, dotProd_symm s y, dotProd_symm (mulVec H y) y, div_self hys, div_self hyHy,
      sub_self, mul_zero]
  funext i
  unfold BFGS.secantUpdate
  simp only [mulVec_add_mat, mulVec_sub_mat, mulVec_multTr_div, mulVec_multTr, hv,
    Pi.add_apply, Pi.sub_apply, dotProd_symm s y, dotProd_symm (mulVec H y) y]
  field_simp

end Descent

section DescentReal

variable {n : Nat}

/-- C15: over exact real arithmetic with `EPS > 0`, the direction handed to
the line search in every outer iteration is a descent direction whenever the
current gradient `g` is non-zero: `dot(g, d) < 0` for `d = -g` in
`SteepDesc::optimize` and for `d = -H·g` in `BFGS::optimize`, after any
number of rounds of any run and for any line search. -/
theorem direction_is_descent (E : Env ℝ n) (hsqrt : E.sqrt = Real.sqrt)
    (hEPS : 0 < E.EPS) (self : LineSearch) (x0 : Vec ℝ n) (m : Nat) :
    ((SteepDesc.iterate E self x0 m).g ≠ 0 →
        dotProd (SteepDesc.iterate E self x0 m).g
          (SteepDesc.direction (SteepDesc.iterate E self x0 m).g) < 0)
    ∧ ((BFGS.iterate E self x0 m).g ≠ 0 →
        dotProd (BFGS.iterate E self x0 m).g
          (BFGS.direction (BFGS.iterate E self x0 m).H (BFGS.iterate E self x0 m).g) < 0)
    ∧ SteepDesc.search E (SteepDesc.iterate E self x0 m)
        = E.getStep (SteepDesc.iterate E self x0 m).x
            (SteepDesc.direction (SteepDesc.iterate E self x0 m).g) 100
    ∧ BFGS.search E (BFGS.iterate E self x0 m)
        = E.getStep (BFGS.iterate E self x0 m).x
            (BFGS.direction (BFGS.iterate E self x0 m).H (BFGS.iterate E self x0 m).g)
            100 := by
  refine ⟨steep_direction_descent _, ?_, rfl, rfl⟩
  have hspd := spd_iterate E (by rw [hsqrt]; exact fun a ha => Real.mul_self_sqrt ha)
    hEPS self x0 m
  exact bfgs_direction_descent _ hspd.2 _

/-- C16: over exact real arithmetic, whenever `BFGS::optimize` takes the
update branch (`ys >= EPS` and `yHy >= EPS` with `EPS > 0`), the new
approximation `H'` satisfies the secant equation `H'·y = s`, for every matrix
`H` (symmetric or not) and all vectors `s`, `y`; in that branch both divisors
`ys` and `yHy` are strictly positive and the argument of `sqrt` is
non-negative. -/
theorem secant_equation (EPS : ℝ) (hEPS : 0 < EPS) (H : Mat ℝ n) (s y : Vec ℝ n)
    (h : ¬ (dotProd y s < EPS ∨ dotProd y (mulVec H y) < EPS)) :
    mulVec (BFGS.updateH Real.sqrt EPS H s y) y = s
    ∧ 0 < dotProd y s ∧ 0 < dotProd y (mulVec H y) ∧ 0 ≤ dotProd y (mulVec H y) := by
  have h' := h
  push_neg at h'
  have hys : 0 < dotProd y s := lt_of_lt_of_le hEPS h'.1
  have hyHy : 0 < dotProd y (mulVec H y) := lt_of_lt_of_le hEPS h'.2
  refine ⟨?_, hys, hyHy, le_of_lt hyHy⟩
  rw [updateH_update Real.sqrt EPS H s y h]
  exact secantUpdate_mulVec Real.sqrt H s y (ne_of_gt hys) (ne_of_gt hyHy)

/-- Witness for C16: the non-symmetric `H = [[2,1],[0,2]]` with `s = y = (1,1)`
and `EPS = 1`, where `ys = 2` and `yHy = 5`. -/
theorem secant_equation_witness :
    (0 : ℝ) < 1
    ∧ ¬ (dotProd (fun _ : Fin 2 => (1 : ℝ)) (fun _ => 1) < 1
        ∨ dotProd (fun _ : Fin 2 => (1 : ℝ))
            (mulVec (fun i j : Fin 2 => if i = j then (2 : ℝ) else if i = 0 then 1 else 0)
              (fun _ => 1)) < 1)
    ∧ mulVec (BFGS.updateH Real.sqrt 1
          (fun i j : Fin 2 => if i = j then (2 : ℝ) else if i = 0 then 1 else 0)
          (fun _ => 1) (fun _ => 1)) (fun _ => 1)
        = fun _ => 1 :=
  have h : ¬ (dotProd (fun _ : Fin 2 => (1 : ℝ)) (fun _ => 1) < 1
      ∨ dotProd (fun _ : Fin 2 => (1 : ℝ))
          (mulVec (fun i j : Fin 2 => if i = j then (2 : ℝ) else if i = 0 then 1 else 0)
            (fun _ => 1)) < 1) := by
    norm_num [dotProd, mulVec, Fin.sum_univ_two]
  ⟨one_pos, h, (secant_equation 1 one_pos _ _ _ h).1⟩

end DescentReal

/-! ## BFGS with the safeguard firing in every round -/

section LoopCount

variable {σ : Type} (c : σ → Bool) (body : σ → σ)

theorem whileCount_eq_of (fuel : Nat) (st : σ) (N : Nat) (hN : N ≤ fuel)
    (h1 : ∀ m, m < N → c (body^[m] st) = true)
    (h2 : c (body^[N] st) = false ∨ N = fuel) :
    whileCount c body fuel st = N := by
  induction fuel generalizing st N with
  | zero =>
    have : N = 0 := by omega
    subst this
    rfl
  | succ f ih =>
    cases N with
    | zero =>
      have hc : c st = false := by
        rcases h2 with h | h
        · exact h
        · omega
      simp [whileCount, hc]
    | succ N =>
      have hc : c st = true := h1 0 (Nat.succ_pos N)
      simp only [whileCount, hc, if_true]
      congr 1
      apply ih (body st) N (by omega)
      · intro m hm
        have := h1 (m + 1) (by omega)
        rwa [Function.iterate_succ_apply] at this
      · rcases h2 with h | h
        · left
          rwa [Function.iterate_succ_apply] at h
        · right
          omega

end LoopCount

section Degenerate

variable {K : Type} [LinearOrderedField K] {n : Nat}

end Degenerate

section DegenerateClaim

variable {K : Type} [LinearOrderedField K] {n : Nat}

end DegenerateClaim

/-! ## `ObjFunc::grad` is the gradient of `ObjFunc::operator()` -/

section ObjFuncSums

variable {K : Type} [LinearOrderedField K]

theorem foldl_add_eq_sum (g : Nat → K) (L : List Nat) (acc : K) :
    L.foldl (fun tmp i => tmp + g i) acc = acc + (L.map g).sum := by
  induction L generalizing acc with
  | nil => simp
  | cons i L ih =>
    simp only [List.foldl_cons, List.map_cons, List.sum_cons, ih]
    ring

theorem foldl_triple_eq_sum (g1 g2 g3 : Nat → K) (L : List Nat) (acc : K × K × K) :
    L.foldl (fun df i => (df.1 + g1 i, df.2.1 + g2 i, df.2.2 + g3 i)) acc
      = (acc.1 + (L.map g1).sum, acc.2.1 + (L.map g2).sum, acc.2.2 + (L.map g3).sum) := by
  induction L generalizing acc with
  | nil => simp
  | cons i L ih =>
    simp only [List.foldl_cons, List.map_cons, List.sum_cons, ih, add_assoc]

theorem value_eq_sum {m : Nat} (f : ObjFunc K) (x : Vec K (m + 3)) :
    f.value x
      = ((List.range f.a.length).map (fun i => |f.resid x i|)).sum / (f.a.length : K) := by
  rw [ObjFunc.value, foldl_add_eq_sum, zero_add]

theorem gradLoop_eq_sum {m : Nat} (f : ObjFunc K) (x : Vec K (m + 3)) :
    f.gradLoop x
      = (((List.range f.a.length).map
            (fun i => 2 * ObjFunc.sign (f.resid x i) * (x 0 - f.a.getD i 0))).sum,
          ((List.range f.a.length).map
            (fun i => 2 * ObjFunc.sign (f.resid x i) * (x 1 - f.b.getD i 0))).sum,
          ((List.range f.a.length).map
            (fun i => 2 * ObjFunc.sign (f.resid x i) * (x 2 - f.c.getD i 0))).sum) := by
  rw [ObjFunc.gradLoop, foldl_triple_eq_sum]
  simp only [zero_add]

theorem sum_two_mul (g : Nat → K) (L : List Nat) :
    (L.map (fun i => 2 * g i)).sum = 2 * (L.map g).sum := by
  induction L with
  | nil => simp
  | cons i L ih =>
    simp only [List.map_cons, List.sum_cons, ih]
    ring

end ObjFuncSums

section ObjFuncDeriv

theorem sign_of_neg (t : ℝ) (h : t < 0) : ObjFunc.sign t = -1 := by
  simp [ObjFunc.sign, h]

theorem sign_of_pos (t : ℝ) (h : 0 < t) : ObjFunc.sign t = 1 := by
  simp [ObjFunc.sign, not_lt.mpr (le_of_lt h), ne_of_gt h]

theorem hasFDerivAt_resid (f : ObjFunc ℝ) (x : Vec ℝ 3) (i : Nat) :
    HasFDerivAt (fun z : Vec ℝ 3 => f.resid z i)
      ((2 * (x 0 - f.a.getD i 0)) • (ContinuousLinearMap.proj 0 : (Fin 3 → ℝ) →L[ℝ] ℝ)
        + (2 * (x 1 - f.b.getD i 0)) • (ContinuousLinearMap.proj 1 : (Fin 3 → ℝ) →L[ℝ] ℝ)
        + (2 * (x 2 - f.c.getD i 0)) • (ContinuousLinearMap.proj 2 : (Fin 3 → ℝ) →L[ℝ] ℝ))
      x := by
  have h0 : HasFDerivAt (fun z : Fin 3 → ℝ => z 0)
      (ContinuousLinearMap.proj 0 : (Fin 3 → ℝ) →L[ℝ] ℝ) x := hasFDerivAt_apply 0 x
  have h1 : HasFDerivAt (fun z : Fin 3 → ℝ => z 1)
      (ContinuousLinearMap.proj 1 : (Fin 3 → ℝ) →L[ℝ] ℝ) x := hasFDerivAt_apply 1 x
  have h2 : HasFDerivAt (fun z : Fin 3 → ℝ => z 2)
      (ContinuousLinearMap.proj 2 : (Fin 3 → ℝ) →L[ℝ] ℝ) x := hasFDerivAt_apply 2 x
  have ha := (h0.const_sub (f.a.getD i 0)).mul (h0.const_sub (f.a.getD i 0))
  have hb := (h1.const_sub (f.b.getD i 0)).mul (h1.const_sub (f.b.getD i 0))
  have hc := (h2.const_sub (f.c.getD i 0)).mul (h2.const_sub (f.c.getD i 0))
  have h := ((ha.add hb).add hc).sub_const (f.d.getD i 0 * f.d.getD i 0)
  refine h.congr_fderiv ?_
  ext v
  simp only [ContinuousLinearMap.add_apply, ContinuousLinearMap.smul_apply,
    ContinuousLinearMap.neg_apply, ContinuousLinearMap.proj_apply, smul_eq_mul]
  ring

theorem hasFDerivAt_abs_resid (f : ObjFunc ℝ) (x : Vec ℝ 3) (i : Nat)
    (hr : f.resid x i ≠ 0) :
    HasFDerivAt (fun z : Vec ℝ 3 => |f.resid z i|)
      ((2 * ObjFunc.sign (f.resid x i) * (x 0 - f.a.getD i 0))
          • (ContinuousLinearMap.proj 0 : (Fin 3 → ℝ) →L[ℝ] ℝ)
        + (2 * ObjFunc.sign (f.resid x i) * (x 1 - f.b.getD i 0))
          • (ContinuousLinearMap.proj 1 : (Fin 3 → ℝ) →L[ℝ] ℝ)
        + (2 * ObjFunc.sign (f.resid x i) * (x 2 - f.c.getD i 0))
          • (ContinuousLinearMap.proj 2 : (Fin 3 → ℝ) →L[ℝ] ℝ))
      x := by
  rcases lt_or_gt_of_ne hr with hneg | hpos
  · refine ((hasFDerivAt_resid f x i).abs_of_neg hneg).congr_fderiv ?_
    rw [sign_of_neg _ hneg]
    ext v
    simp only [ContinuousLinearMap.add_apply, ContinuousLinearMap.smul_apply,
      ContinuousLinearMap.neg_apply, ContinuousLinearMap.proj_apply, smul_eq_mul]
    ring
  · refine ((hasFDerivAt_resid f x i).abs_of_pos hpos).congr_fderiv ?_
    rw [sign_of_pos _ hpos]
    ext v
    simp only [ContinuousLinearMap.add_apply, ContinuousLinearMap.smul_apply,
      ContinuousLinearMap.proj_apply, smul_eq_mul]
    ring

theorem hasFDerivAt_abs_sum (f : ObjFunc ℝ) (x : Vec ℝ 3) (L : List Nat)
    (hr : ∀ i ∈ L, f.resid x i ≠ 0) :
    HasFDerivAt (fun z : Vec ℝ 3 => (L.map (fun i => |f.resid z i|)).sum)
      ((L.map (fun i => 2 * ObjFunc.sign (f.resid x i) * (x 0 - f.a.getD i 0))).sum
          • (ContinuousLinearMap.proj 0 : (Fin 3 → ℝ) →L[ℝ] ℝ)
        + (L.map (fun i => 2 * ObjFunc.sign (f.resid x i) * (x 1 - f.b.getD i 0))).sum
          • (ContinuousLinearMap.proj 1 : (Fin 3 → ℝ) →L[ℝ] ℝ)
        + (L.map (fun i => 2 * ObjFunc.sign (f.resid x i) * (x 2 - f.c.getD i 0))).sum
          • (ContinuousLinearMap.proj 2 : (Fin 3 → ℝ) →L[ℝ] ℝ))
      x := by
  induction L with
  | nil =>
    simp only [List.map_nil, List.sum_nil, zero_smul, add_zero]
    exact hasFDerivAt_const 0 x
  | cons i L ih =>
    have hi := hasFDerivAt_abs_resid f x i (hr i (List.mem_cons_self i L))
    have hL := ih (fun j hj => hr j (List.mem_cons_of_mem i hj))
    simp only [List.map_cons, List.sum_cons]
    refine (hi.add hL).congr_fderiv ?_
    ext v
    simp only [ContinuousLinearMap.add_apply, ContinuousLinearMap.smul_apply,
      ContinuousLinearMap.proj_apply, smul_eq_mul]
    ring

end ObjFuncDeriv

section ObjFuncGradient

theorem grad_zero (f : ObjFunc ℝ) (x : Vec ℝ 3) :
    f.grad x 0
      = ((List.range f.a.length).map
          (fun i => 2 * ObjFunc.sign (f.resid x i) * (x 0 - f.a.getD i 0))).sum
        / (f.a.length : ℝ) := by
  simp only [ObjFunc.grad, gradLoop_eq_sum, if_true]

theorem grad_one (f : ObjFunc ℝ) (x : Vec ℝ 3) :
    f.grad x 1
      = ((List.range f.a.length).map
          (fun i => 2 * ObjFunc.sign (f.resid x i) * (x 1 - f.b.getD i 0))).sum
        / (f.a.length : ℝ) := by
  have h10 : ¬ ((1 : Fin (0 + 3)) = 0) := by decide
  simp only [ObjFunc.grad, gradLoop_eq_sum, h10, if_false, if_true]

theorem grad_two (f : ObjFunc ℝ) (x : Vec ℝ 3) :
    f.grad x 2
      = ((List.range f.a.length).map
          (fun i => 2 * ObjFunc.sign (f.resid x i) * (x 2 - f.c.getD i 0))).sum
        / (f.a.length : ℝ) := by
  have h20 : ¬ ((2 : Fin (0 + 3)) = 0) := by decide
  have h21 : ¬ ((2 : Fin (0 + 3)) = 1) := by decide
  simp only [ObjFunc.grad, gradLoop_eq_sum, h20, h21, if_false, if_true]

theorem sum_two_sign_mul (g h : Nat → ℝ) (L : List Nat) :
    (L.map (fun i => 2 * g i * h i)).sum = 2 * (L.map (fun i => g i * h i)).sum := by
  have hfun : (fun i => 2 * g i * h i) = fun i => 2 * (g i * h i) := by
    funext i
    ring
  rw [hfun, sum_two_mul]

/-- C19: `ObjFunc::grad` computes the gradient of the objective computed by
`ObjFunc::operator()`.  Over the reals, for every non-empty set of `n`
reference points and every three-dimensional point `x` at which no residual
`r_i(x) = (a_i−x1)² + (b_i−x2)² + (c_i−x3)² − d_i²` is zero, the function
`x ↦ (1/n)·Σ|r_i(x)|` is differentiable at `x`, its derivative is
`v ↦ dot(grad(x), v)`, and `grad(x)` is `(2/n)·Σ sign(r_i(x))·(x − (a_i, b_i, c_i))`. -/
theorem grad_is_gradient (f : ObjFunc ℝ) (hne : f.a ≠ []) (x : Vec ℝ 3)
    (hr : ∀ i, i < f.a.length → f.resid x i ≠ 0) :
    HasFDerivAt (fun z : Vec ℝ 3 => f.value z)
        (∑ j : Fin 3, f.grad x j • (ContinuousLinearMap.proj j : (Fin 3 → ℝ) →L[ℝ] ℝ)) x
    ∧ (∀ v : Vec ℝ 3,
        (∑ j : Fin 3, f.grad x j • (ContinuousLinearMap.proj j : (Fin 3 → ℝ) →L[ℝ] ℝ)) v
          = dotProd (f.grad x) v)
    ∧ f.grad x 0 = 2 / (f.a.length : ℝ)
        * ((List.range f.a.length).map
            (fun i => ObjFunc.sign (f.resid x i) * (x 0 - f.a.getD i 0))).sum
    ∧ f.grad x 1 = 2 / (f.a.length : ℝ)
        * ((List.range f.a.length).map
            (fun i => ObjFunc.sign (f.resid x i) * (x 1 - f.b.getD i 0))).sum
    ∧ f.grad x 2 = 2 / (f.a.length : ℝ)
        * ((List.range f.a.length).map
            (fun i => ObjFunc.sign (f.resid x i) * (x 2 - f.c.getD i 0))).sum := by
  have _ := hne
  refine ⟨?_, ?_, ?_, ?_, ?_⟩
  · have hfun : (fun z : Vec ℝ 3 => f.value z)
        = fun z => ((List.range f.a.length).map (fun i => |f.resid z i|)).sum
            * (f.a.length : ℝ)⁻¹ := by
      funext z
      rw [value_eq_sum, div_eq_mul_inv]
    rw [hfun]
    have hsum := hasFDerivAt_abs_sum f x (List.range f.a.length)
      (fun i hi => hr i (List.mem_range.mp hi))
    refine (hsum.mul_const ((f.a.length : ℝ)⁻¹)).congr_fderiv ?_
    ext v
    simp only [Fin.sum_univ_three, grad_zero, grad_one, grad_two,
      ContinuousLinearMap.add_apply, ContinuousLinearMap.smul_apply,
      ContinuousLinearMap.proj_apply, smul_eq_mul]
    ring
  · intro v
    simp only [ContinuousLinearMap.sum_apply, ContinuousLinearMap.smul_apply,
      ContinuousLinearMap.proj_apply, smul_eq_mul, dotProd]
  · rw [grad_zero, sum_two_sign_mul]
    ring
  · rw [grad_one, sum_two_sign_mul]
    ring
  · rw [grad_two, sum_two_sign_mul]
    ring

/-- Witness for C19: one reference point at the origin at distance `1`, and
the point `x = (1,1,1)`, where the residual is `2`. -/
theorem grad_is_gradient_witness :
    ({ a := [0], b := [0], c := [0], d := [1] } : ObjFunc ℝ).a ≠ []
    ∧ (∀ i, i < ({ a := [0], b := [0], c := [0], d := [1] } : ObjFunc ℝ).a.length →
        ({ a := [0], b := [0], c := [0], d := [1] } : ObjFunc ℝ).resid
          (fun _ : Fin 3 => (1 : ℝ)) i ≠ 0)
    ∧ HasFDerivAt
        (fun z : Vec ℝ 3 => ({ a := [0], b := [0], c := [0], d := [1] } : ObjFunc ℝ).value z)
        (∑ j : Fin 3,
          ({ a := [0], b := [0], c := [0], d := [1] } : ObjFunc ℝ).grad (fun _ => 1) j
            • (ContinuousLinearMap.proj j : (Fin 3 → ℝ) →L[ℝ] ℝ))
        (fun _ => 1) :=
  have hne : ({ a := [0], b := [0], c := [0], d := [1] } : ObjFunc ℝ).a ≠ [] :=
    List.cons_ne_nil _ _
  have hr : ∀ i, i < ({ a := [0], b := [0], c := [0], d := [1] } : ObjFunc ℝ).a.length →
      ({ a := [0], b := [0], c := [0], d := [1] } : ObjFunc ℝ).resid
        (fun _ : Fin 3 => (1 : ℝ)) i ≠ 0 := by
    intro i hi
    have hi0 : i = 0 := by
      simp only [List.length_singleton] at hi
      omega
    subst hi0
    norm_num [ObjFunc.resid]
  ⟨hne, hr, (grad_is_gradient _ hne _ hr).1⟩

end ObjFuncGradient

/-! ## The loop with a buffer of `maxItr` entries -/

section Checked

theorem whileLoopE_ok {σ ε : Type} (c : σ → Bool) (body : σ → σ) (bodyE : σ → Except ε σ)
    (fuel : Nat) (st : σ)
    (h : ∀ m, m < whileCount c body fuel st →
      bodyE (body^[m] st) = Except.ok (body (body^[m] st))) :
    whileLoopE c bodyE fuel st = Except.ok (whileLoop c body fuel st) := by
  induction fuel generalizing st with
  | zero => rfl
  | succ f ih =>
    by_cases hc : c st = true
    · have h0 : bodyE st = Except.ok (body st) :=
        h 0 (by simp [whileCount, hc])
      simp only [whileLoopE, whileLoop, hc, if_true, h0]
      apply ih
      intro m hm
      have := h (m + 1) (by simp only [whileCount, hc, if_true]; omega)
      rwa [Function.iterate_succ_apply] at this
    · simp [whileLoopE, whileLoop, hc]

theorem whileLoopE_error {σ ε : Type} (c : σ → Bool) (body : σ → σ)
    (bodyE : σ → Except ε σ) (fuel : Nat) (st : σ) (m0 : Nat) (e : ε)
    (hm0 : m0 < whileCount c body fuel st)
    (h : ∀ m, m < m0 → bodyE (body^[m] st) = Except.ok (body (body^[m] st)))
    (he : bodyE (body^[m0] st) = Except.error e) :
    whileLoopE c bodyE fuel st = Except.error e := by
  induction fuel generalizing st m0 with
  | zero => simp [whileCount] at hm0
  | succ f ih =>
    by_cases hc : c st = true
    · simp only [whileCount, hc, if_true] at hm0
      cases m0 with
      | zero =>
        have he' : bodyE st = Except.error e := he
        simp only [whileLoopE, hc, if_true, he']
      | succ m0 =>
        have h0 : bodyE st = Except.ok (body st) := h 0 (Nat.succ_pos m0)
        simp only [whileLoopE, hc, if_true, h0]
        apply ih (body st) m0 (by omega)
        · intro m hm
          have := h (m + 1) (by omega)
          rwa [Function.iterate_succ_apply] at this
        · rwa [Function.iterate_succ_apply] at he
    · simp [whileCount, hc] at hm0

theorem fetchAll_ok {K : Type} (length : Int) (buf : Int → K) (j : Nat)
    (h : (j : Int) ≤ length) :
    fetchAll length buf j = Except.ok ((List.range j).map (fun (i : Nat) => buf (i : Int))) := by
  induction j with
  | zero => rfl
  | succ j ih =>
    have hj : (0 : Int) ≤ (j : Int) ∧ (j : Int) < length := by
      constructor
      · exact Int.natCast_nonneg j
      · push_cast at h
        omega
    simp only [fetchAll, ih (by push_cast at h; omega), fetch, hj, and_self, if_true,
      List.range_succ, List.map_append, List.map_cons, List.map_nil]

end Checked

namespace BFGS

variable {K : Type} [AddCommMonoid K] [Mul K] [One K] [Neg K] [Sub K] [Div K] [LT K]
  [∀ a b : K, Decidable (a < b)] {n : Nat}

theorem bodyChecked_eq (E : Env K n) (maxItr : Int) (st : State K n) :
    bodyChecked E maxItr st
      = if 0 ≤ st.k ∧ st.k < maxItr then Except.ok (body E st)
        else Except.error (Fault.outOfRange st.k) := by
  unfold bodyChecked store
  by_cases h : 0 ≤ st.k ∧ st.k < maxItr
  · simp only [h, and_self, if_true]
    rfl
  · simp only [h, if_false]

theorem initChecked_eq (E : Env K n) (self : LineSearch) (x0 : Vec K n) (maxItr : Int) :
    initChecked E self x0 maxItr
      = if maxItr < 0 then Except.error (Fault.badLength maxItr)
        else if 0 < maxItr then Except.ok (init E self x0)
        else Except.error (Fault.outOfRange 0) := by
  unfold initChecked declare store
  by_cases h1 : maxItr < 0
  · simp only [h1, if_true]
  · by_cases h2 : 0 < maxItr
    · simp only [h1, h2, if_false, if_true, le_refl, and_self]
      rfl
    · simp only [h1, h2, if_false, le_refl, true_and]

theorem loopChecked_eq (E : Env K n) (self : LineSearch) (x0 : Vec K n) (tol : K)
    (maxItr minItr : Int) (d : Nat) :
    loopChecked E self x0 tol maxItr minItr (maxItr.toNat + d)
      = if maxItr < 0 then Except.error (Fault.badLength maxItr)
        else if (iterations E self x0 tol maxItr minItr : Int) < maxItr then
          Except.ok (run E self x0 tol maxItr minItr)
        else Except.error (Fault.outOfRange maxItr) := by
  have hN := iterations_le E self x0 tol maxItr minItr
  have hfuel := run_add_fuel E self x0 tol maxItr minItr d
  unfold loopChecked
  rw [initChecked_eq]
  by_cases h1 : maxItr < 0
  · simp only [h1, if_true]
  · by_cases h2 : 0 < maxItr
    · simp only [h1, h2, if_false, if_true]
      by_cases h3 : (iterations E self x0 tol maxItr minItr : Int) < maxItr
      · simp only [h3, if_true]
        rw [← hfuel.1]
        apply whileLoopE_ok
        intro m hm
        rw [hfuel.2] at hm
        have hk := k_iterate E self x0 m
        rw [iterate] at hk
        rw [bodyChecked_eq, hk]
        have : (0 : Int) ≤ (m : Int) + 1 ∧ (m : Int) + 1 < maxItr := by omega
        simp only [this, and_self, if_true]
      · simp only [h3, if_false]
        have hmax : max maxItr 0 = maxItr := max_eq_left (le_of_lt h2)
        rw [hmax] at hN
        apply whileLoopE_error (guard tol maxItr minItr) (body E) (bodyChecked E maxItr) _ _
          (maxItr - 1).toNat
        · rw [hfuel.2]
          omega
        · intro m hm
          have hk := k_iterate E self x0 m
          rw [iterate] at hk
          rw [bodyChecked_eq, hk]
          have : (0 : Int) ≤ (m : Int) + 1 ∧ (m : Int) + 1 < maxItr := by omega
          simp only [this, and_self, if_true]
        · have hk := k_iterate E self x0 (maxItr - 1).toNat
          rw [iterate] at hk
          have hk' : ((body E)^[(maxItr - 1).toNat] (init E self x0)).k = maxItr := by
            rw [hk]
            omega
          rw [bodyChecked_eq, hk']
          simp only [lt_irrefl, and_false, if_false]
    · have h0 : maxItr = 0 := by omega
      have h4 : ¬ ((iterations E self x0 tol maxItr minItr : Int) < maxItr) := by omega
      simp only [h1, h2, h4, if_false]
      rw [h0]

theorem finishChecked_eq (tol : K) (maxItr : Int) (st : State K n)
    (h : st.k ≤ maxItr) (h0 : 0 ≤ st.k) :
    finishChecked tol maxItr st = Except.ok (finish tol st) := by
  unfold finishChecked
  rw [fetchAll_ok maxItr st.gnorm st.k.toNat (by omega)]
  rfl

theorem optimizeChecked_eq (E : Env K n) (self : LineSearch) (x0 : Vec K n) (tol : K)
    (maxItr minItr : Int) :
    optimizeChecked E self x0 tol maxItr minItr
      = if maxItr < 0 then Except.error (Fault.badLength maxItr)
        else if (optimize E self x0 tol maxItr minItr).getItrNum < maxItr then
          Except.ok (optimize E self x0 tol maxItr minItr)
        else Except.error (Fault.outOfRange maxItr) := by
  have hl := loopChecked_eq E self x0 tol maxItr minItr 0
  rw [Nat.add_zero] at hl
  unfold optimizeChecked
  rw [hl, getItrNum_optimize]
  by_cases h1 : maxItr < 0
  · simp only [h1, if_true]
  · by_cases h3 : (iterations E self x0 tol maxItr minItr : Int) < maxItr
    · simp only [h1, h3, if_false, if_true]
      rw [finishChecked_eq tol maxItr _ (by rw [k_run]; omega) (by rw [k_run]; omega)]
      rfl
    · simp only [h1, h3, if_false]

theorem optimizeChecked_ok_iff (E : Env K n) (self : LineSearch) (x0 : Vec K n)
    (tol : K) (maxItr minItr : Int) (o : Optimizer K n) :
    optimizeChecked E self x0 tol maxItr minItr = Except.ok o
      ↔ (optimize E self x0 tol maxItr minItr).getItrNum < maxItr
        ∧ o = optimize E self x0 tol maxItr minItr := by
  have hN : 0 ≤ (optimize E self x0 tol maxItr minItr).getItrNum := by
    rw [getItrNum_optimize]
    exact Int.natCast_nonneg _
  rw [optimizeChecked_eq]
  by_cases h1 : maxItr < 0
  · simp only [h1, if_true]
    constructor
    · intro h
      exact Except.noConfusion h
    · intro h
      omega
  · by_cases h3 : (optimize E self x0 tol maxItr minItr).getItrNum < maxItr
    · simp only [h1, h3, if_false, if_true, true_and]
      constructor
      · intro h
        exact (Except.ok.inj h).symm
      · intro h
        rw [h]
    · simp only [h1, h3, if_false, false_and]
      constructor
      · intro h
        exact Except.noConfusion h
      · intro h
        exact h.elim

end BFGS

namespace SteepDesc

variable {K : Type} [AddCommMonoid K] [Mul K] [One K] [Neg K] [Sub K] [Div K] [LT K]
  [∀ a b : K, Decidable (a < b)] {n : Nat}

theorem bodyChecked_eq_sd (E : Env K n) (maxItr : Int) (st : State K n) :
    bodyChecked E maxItr st
      = if 0 ≤ st.k ∧ st.k < maxItr then Except.ok (body E st)
        else Except.error (Fault.outOfRange st.k) := by
  unfold bodyChecked store
  by_cases h : 0 ≤ st.k ∧ st.k < maxItr
  · simp only [h, and_self, if_true]
    rfl
  · simp only [h, if_false]

theorem initChecked_eq_sd (E : Env K n) (self : LineSearch) (x0 : Vec K n) (maxItr : Int) :
    initChecked E self x0 maxItr
      = if maxItr < 0 then Except.error (Fault.badLength maxItr)
        else if 0 < maxItr then Except.ok (init E self x0)
        else Except.error (Fault.outOfRange 0) := by
  unfold initChecked declare store
  by_cases h1 : maxItr < 0
  · simp only [h1, if_true]
  · by_cases h2 : 0 < maxItr
    · simp only [h1, h2, if_false, if_true, le_refl, and_self]
      rfl
    · simp only [h1, h2, if_false, le_refl, true_and]

theorem loopChecked_eq_sd (E : Env K n) (self : LineSearch) (x0 : Vec K n) (tol : K)
    (maxItr minItr : Int) (d : Nat) :
    loopChecked E self x0 tol maxItr minItr (maxItr.toNat + d)
      = if maxItr < 0 then Except.error (Fault.badLength maxItr)
        else if (iterations E self x0 tol maxItr minItr : Int) < maxItr then
          Except.ok (run E self x0 tol maxItr minItr)
        else Except.error (Fault.outOfRange maxItr) := by
  have hN := iterations_le_sd E self x0 tol maxItr minItr
  have hfuel := run_add_fuel_sd E self x0 tol maxItr minItr d
  unfold loopChecked
  rw [initChecked_eq_sd]
  by_cases h1 : maxItr < 0
  · simp only [h1, if_true]
  · by_cases h2 : 0 < maxItr
    · simp only [h1, h2, if_false, if_true]
      by_cases h3 : (iterations E self x0 tol maxItr minItr : Int) < maxItr
      · simp only [h3, if_true]
        rw [← hfuel.1]
        apply whileLoopE_ok
        intro m hm
        rw [hfuel.2] at hm
        have hk := k_iterate_sd E self x0 m
        rw [iterate] at hk
        rw [bodyChecked_eq_sd, hk]
        have : (0 : Int) ≤ (m : Int) + 1 ∧ (m : Int) + 1 < maxItr := by omega
        simp only [this, and_self, if_true]
      · simp only [h3, if_false]
        have hmax : max maxItr 0 = maxItr := max_eq_left (le_of_lt h2)
        rw [hmax] at hN
        apply whileLoopE_error (guard tol maxItr minItr) (body E) (bodyChecked E maxItr) _ _
          (maxItr - 1).toNat
        · rw [hfuel.2]
          omega
        · intro m hm
          have hk := k_iterate_sd E self x0 m
          rw [iterate] at hk
          rw [bodyChecked_eq_sd, hk]
          have : (0 : Int) ≤ (m : Int) + 1 ∧ (m : Int) + 1 < maxItr := by omega
          simp only [this, and_self, if_true]
        · have hk := k_iterate_sd E self x0 (maxItr - 1).toNat
          rw [iterate] at hk
          have hk' : ((body E)^[(maxItr - 1).toNat] (init E self x0)).k = maxItr := by
            rw [hk]
            omega
          rw [bodyChecked_eq_sd, hk']
          simp only [lt_irrefl, and_false, if_false]
    · have h0 : maxItr = 0 := by omega
      have h4 : ¬ ((iterations E self x0 tol maxItr minItr : Int) < maxItr) := by omega
      simp only [h1, h2, h4, if_false]
      rw [h0]

theorem finishChecked_eq_sd (tol : K) (maxItr : Int) (st : State K n)
    (h : st.k ≤ maxItr) (h0 : 0 ≤ st.k) :
    finishChecked tol maxItr st = Except.ok (finish tol st) := by
  unfold finishChecked
  rw [fetchAll_ok maxItr st.gnorm st.k.toNat (by omega)]
  rfl

theorem optimizeChecked_eq_sd (E : Env K n) (self : LineSearch) (x0 : Vec K n) (tol : K)
    (maxItr minItr : Int) :
    optimizeChecked E self x0 tol maxItr minItr
      = if maxItr < 0 then Except.error (Fault.badLength maxItr)
        else if (optimize E self x0 tol maxItr minItr).getItrNum < maxItr then
          Except.ok (optimize E self x0 tol maxItr minItr)
        else Except.error (Fault.outOfRange maxItr) := by
  have hl := loopChecked_eq_sd E self x0 tol maxItr minItr 0
  rw [Nat.add_zero] at hl
  unfold optimizeChecked
  rw [hl, getItrNum_optimize_sd]
  by_cases h1 : maxItr < 0
  · simp only [h1, if_true]
  · by_cases h3 : (iterations E self x0 tol maxItr minItr : Int) < maxItr
    · simp only [h1, h3, if_false, if_true]
      rw [finishChecked_eq_sd tol maxItr _ (by rw [k_run_sd]; omega) (by rw [k_run_sd]; omega)]
      rfl
    · simp only [h1, h3, if_false]

theorem optimizeChecked_ok_iff_sd (E : Env K n) (self : LineSearch) (x0 : Vec K n)
    (tol : K) (maxItr minItr : Int) (o : Optimizer K n) :
    optimizeChecked E self x0 tol maxItr minItr = Except.ok o
      ↔ (optimize E self x0 tol maxItr minItr).getItrNum < maxItr
        ∧ o = optimize E self x0 tol maxItr minItr := by
  have hN : 0 ≤ (optimize E self x0 tol maxItr minItr).getItrNum := by
    rw [getItrNum_optimize_sd]
    exact Int.natCast_nonneg _
  rw [optimizeChecked_eq_sd]
  by_cases h1 : maxItr < 0
  · simp only [h1, if_true]
    constructor
    · intro h
      exact Except.noConfusion h
    · intro h
      omega
  · by_cases h3 : (optimize E self x0 tol maxItr minItr).getItrNum < maxItr
    · simp only [h1, h3, if_false, if_true, true_and]
      constructor
      · intro h
        exact (Except.ok.inj h).symm
      · intro h
        rw [h]
    · simp only [h1, h3, if_false, false_and]
      constructor
      · intro h
        exact Except.noConfusion h
      · intro h
        exact h.elim

end SteepDesc

/-! ## Counting the rounds of a run -/

namespace BFGS

variable {K : Type} [AddCommMonoid K] [Mul K] [One K] [Neg K] [Sub K] [Div K] [LT K]
  [∀ a b : K, Decidable (a < b)] {n : Nat}

theorem iterations_eq_of (E : Env K n) (self : LineSearch) (x0 : Vec K n) (tol : K)
    (maxItr minItr : Int) (N : Nat) (hN : N ≤ maxItr.toNat)
    (h1 : ∀ m, m < N →
      ¬ ((m : Int) + 1 > minItr ∧ E.func (iterate E self x0 m).x < tol))
    (h2 : ((N : Int) + 1 > minItr ∧ E.func (iterate E self x0 N).x < tol)
      ∨ (N : Int) + 1 > maxItr) :
    iterations E self x0 tol maxItr minItr = N := by
  unfold iterations
  apply whileCount_eq_of _ _ _ _ N hN
  · intro m hm
    show guard tol maxItr minItr (iterate E self x0 m) = true
    rw [guard_eq_true_iff, k_iterate, fx_iterate]
    rintro (h | h)
    · exact h1 m hm h
    · omega
  · by_cases hc : (N : Int) + 1 > maxItr
    · right
      omega
    · left
      show guard tol maxItr minItr (iterate E self x0 N) = false
      rw [guard_eq_false_iff, k_iterate, fx_iterate]
      rcases h2 with h | h
      · exact Or.inl h
      · exact absurd h hc

theorem iterations_eq_cap (E : Env K n) (self : LineSearch) (x0 : Vec K n) (tol : K)
    (maxItr minItr : Int) (hno : ∀ x, ¬ E.func x < tol) :
    iterations E self x0 tol maxItr minItr = maxItr.toNat := by
  apply iterations_eq_of E self x0 tol maxItr minItr maxItr.toNat (le_refl _)
  · intro m _ h
    exact hno _ h.2
  · right
    have := Int.self_le_toNat maxItr
    omega

theorem optimizeChecked_of_lt (E : Env K n) (self : LineSearch) (x0 : Vec K n)
    (tol : K) (maxItr minItr : Int)
    (h : (optimize E self x0 tol maxItr minItr).getItrNum < maxItr) :
    optimizeChecked E self x0 tol maxItr minItr
      = Except.ok (optimize E self x0 tol maxItr minItr) :=
  (optimizeChecked_ok_iff E self x0 tol maxItr minItr _).mpr ⟨h, rfl⟩

theorem optimizeChecked_of_cap (E : Env K n) (self : LineSearch) (x0 : Vec K n)
    (tol : K) (maxItr minItr : Int) (h0 : 0 ≤ maxItr)
    (h : (optimize E self x0 tol maxItr minItr).getItrNum = maxItr) :
    optimizeChecked E self x0 tol maxItr minItr
      = Except.error (Fault.outOfRange maxItr) := by
  rw [optimizeChecked_eq, if_neg (not_lt.mpr h0), if_neg (by omega)]

theorem getItrNum_self (E : Env K n) (self : LineSearch) (x0 : Vec K n)
    (tol : K) (maxItr minItr : Int) :
    (optimize E self x0 tol maxItr minItr).getItrNum
      = (optimize E LineSearch.fresh x0 tol maxItr minItr).getItrNum := by
  rw [getItrNum_optimize, getItrNum_optimize]
  rw [(run_shift E self LineSearch.fresh x0 tol maxItr minItr).2]

theorem funcMin_lt_of_below_cap (E : Env K n) (self : LineSearch) (x0 : Vec K n)
    (tol : K) (maxItr minItr : Int)
    (h : (optimize E self x0 tol maxItr minItr).getItrNum < maxItr) :
    (optimize E self x0 tol maxItr minItr).getFuncMin < tol := by
  have hg := guard_run E self x0 tol maxItr minItr
  rw [guard_eq_false_iff, k_run] at hg
  rw [getItrNum_optimize] at h
  rcases hg with ⟨_, hfx⟩ | hk
  · exact hfx
  · omega

theorem itrNum_eq_maxItr_of_minItr_ge (E : Env K n) (self : LineSearch)
    (x0 : Vec K n) (tol : K) (maxItr minItr : Int) (h0 : 0 ≤ maxItr)
    (h : maxItr ≤ minItr) :
    (optimize E self x0 tol maxItr minItr).getItrNum = maxItr := by
  have hg := guard_run E self x0 tol maxItr minItr
  rw [guard_eq_false_iff, k_run] at hg
  have hle := iterations_le E self x0 tol maxItr minItr
  rw [getItrNum_optimize]
  rw [max_eq_left h0] at hle
  rcases hg with ⟨hk, _⟩ | hk <;> omega

end BFGS

namespace SteepDesc

variable {K : Type} [AddCommMonoid K] [Mul K] [One K] [Neg K] [Sub K] [Div K] [LT K]
  [∀ a b : K, Decidable (a < b)] {n : Nat}

theorem iterations_eq_of_sd (E : Env K n) (self : LineSearch) (x0 : Vec K n) (tol : K)
    (maxItr minItr : Int) (N : Nat) (hN : N ≤ maxItr.toNat)
    (h1 : ∀ m, m < N →
      ¬ ((m : Int) + 1 > minItr ∧ E.func (iterate E self x0 m).x < tol))
    (h2 : ((N : Int) + 1 > minItr ∧ E.func (iterate E self x0 N).x < tol)
      ∨ (N : Int) + 1 > maxItr) :
    iterations E self x0 tol maxItr minItr = N := by
  unfold iterations
  apply whileCount_eq_of _ _ _ _ N hN
  · intro m hm
    show guard tol maxItr minItr (iterate E self x0 m) = true
    rw [guard_eq_true_iff_sd, k_iterate_sd, fx_iterate_sd]
    rintro (h | h)
    · exact h1 m hm h
    · omega
  · by_cases hc : (N : Int) + 1 > maxItr
    · right
      omega
    · left
      show guard tol maxItr minItr (iterate E self x0 N) = false
      rw [guard_eq_false_iff_sd, k_iterate_sd, fx_iterate_sd]
      rcases h2 with h | h
      · exact Or.inl h
      · exact absurd h hc

theorem iterations_eq_cap_sd (E : Env K n) (self : LineSearch) (x0 : Vec K n) (tol : K)
    (maxItr minItr : Int) (hno : ∀ x, ¬ E.func x < tol) :
    iterations E self x0 tol maxItr minItr = maxItr.toNat := by
  apply iterations_eq_of_sd E self x0 tol maxItr minItr maxItr.toNat (le_refl _)
  · intro m _ h
    exact hno _ h.2
  · right
    have := Int.self_le_toNat maxItr
    omega

theorem optimizeChecked_of_lt_sd (E : Env K n) (self : LineSearch) (x0 : Vec K n)
    (tol : K) (maxItr minItr : Int)
    (h : (optimize E self x0 tol maxItr minItr).getItrNum < maxItr) :
    optimizeChecked E self x0 tol maxItr minItr
      = Except.ok (optimize E self x0 tol maxItr minItr) :=
  (optimizeChecked_ok_iff_sd E self x0 tol maxItr minItr _).mpr ⟨h, rfl⟩

theorem optimizeChecked_of_cap_sd (E : Env K n) (self : LineSearch) (x0 : Vec K n)
    (tol : K) (maxItr minItr : Int) (h0 : 0 ≤ maxItr)
    (h : (optimize E self x0 tol maxItr minItr).getItrNum = maxItr) :
    optimizeChecked E self x0 tol maxItr minItr
      = Except.error (Fault.outOfRange maxItr) := by
  rw [optimizeChecked_eq_sd, if_neg (not_lt.mpr h0), if_neg (by omega)]

theorem getItrNum_self_sd (E : Env K n) (self : LineSearch) (x0 : Vec K n)
    (tol : K) (maxItr minItr : Int) :
    (optimize E self x0 tol maxItr minItr).getItrNum
      = (optimize E LineSearch.fresh x0 tol maxItr minItr).getItrNum := by
  rw [getItrNum_optimize_sd, getItrNum_optimize_sd]
  rw [(run_shift_sd E self LineSearch.fresh x0 tol maxItr minItr).2]

theorem funcMin_lt_of_below_cap_sd (E : Env K n) (self : LineSearch) (x0 : Vec K n)
    (tol : K) (maxItr minItr : Int)
    (h : (optimize E self x0 tol maxItr minItr).getItrNum < maxItr) :
    (optimize E self x0 tol maxItr minItr).getFuncMin < tol := by
  have hg := guard_run_sd E self x0 tol maxItr minItr
  rw [guard_eq_false_iff_sd, k_run_sd] at hg
  rw [getItrNum_optimize_sd] at h
  rcases hg with ⟨_, hfx⟩ | hk
  · exact hfx
  · omega

theorem itrNum_eq_maxItr_of_minItr_ge_sd (E : Env K n) (self : LineSearch)
    (x0 : Vec K n) (tol : K) (maxItr minItr : Int) (h0 : 0 ≤ maxItr)
    (h : maxItr ≤ minItr) :
    (optimize E self x0 tol maxItr minItr).getItrNum = maxItr := by
  have hg := guard_run_sd E self x0 tol maxItr minItr
  rw [guard_eq_false_iff_sd, k_run_sd] at hg
  have hle := iterations_le_sd E self x0 tol maxItr minItr
  rw [getItrNum_optimize_sd]
  rw [max_eq_left h0] at hle
  rcases hg with ⟨hk, _⟩ | hk <;> omega

end SteepDesc

section Runs

theorem quad_first_iterate (self : LineSearch) :
    (BFGS.iterate quadEnv self quadStart 1).x = fun _ => 1 / 2 := by
  funext i
  simp only [BFGS.iterate, Function.iterate_succ, Function.iterate_zero, Function.comp,
    id, BFGS.body, BFGS.init, BFGS.secantS, BFGS.search, BFGS.direction, mulVec, eye,
    quadEnv, quadStart, Pi.add_apply, Pi.neg_apply]
  have hi : i = 0 := Subsingleton.elim _ _
  subst hi
  norm_num

theorem quad_first_iterate_sd (self : LineSearch) :
    (SteepDesc.iterate quadEnv self quadStart 1).x = fun _ => 1 / 2 := by
  funext i
  simp only [SteepDesc.iterate, Function.iterate_succ, Function.iterate_zero, Function.comp,
    id, SteepDesc.body, SteepDesc.init, SteepDesc.search, SteepDesc.direction,
    quadEnv, quadStart, Pi.add_apply, Pi.neg_apply]
  norm_num


theorem quad_iterations (self : LineSearch) :
    BFGS.iterations quadEnv self quadStart 2 5 1 = 1 := by
  apply BFGS.iterations_eq_of quadEnv self quadStart 2 5 1 1 (by decide)
  · intro m hm
    omega
  · left
    refine ⟨by decide, ?_⟩
    rw [quad_first_iterate]
    norm_num [quadEnv]

theorem quad_iterations_sd (self : LineSearch) :
    SteepDesc.iterations quadEnv self quadStart 2 5 1 = 1 := by
  apply SteepDesc.iterations_eq_of_sd quadEnv self quadStart 2 5 1 1 (by decide)
  · intro m hm
    omega
  · left
    refine ⟨by decide, ?_⟩
    rw [quad_first_iterate_sd]
    norm_num [quadEnv]

theorem quad_itrNum (self : LineSearch) :
    (BFGS.optimize quadEnv self quadStart 2 5 1).getItrNum = 1 := by
  rw [BFGS.getItrNum_optimize, quad_iterations]
  rfl

theorem quad_itrNum_sd (self : LineSearch) :
    (SteepDesc.optimize quadEnv self quadStart 2 5 1).getItrNum = 1 := by
  rw [SteepDesc.getItrNum_optimize_sd, quad_iterations_sd]
  rfl

theorem quad_checked (self : LineSearch) :
    BFGS.optimizeChecked quadEnv self quadStart 2 5 1
      = Except.ok (BFGS.optimize quadEnv self quadStart 2 5 1) :=
  BFGS.optimizeChecked_of_lt quadEnv self quadStart 2 5 1
    (by rw [quad_itrNum]; decide)

theorem quad_checked_sd (self : LineSearch) :
    SteepDesc.optimizeChecked quadEnv self quadStart 2 5 1
      = Except.ok (SteepDesc.optimize quadEnv self quadStart 2 5 1) :=
  SteepDesc.optimizeChecked_of_lt_sd quadEnv self quadStart 2 5 1
    (by rw [quad_itrNum_sd]; decide)

theorem quad_funcNum (self : LineSearch) :
    (BFGS.optimize quadEnv self quadStart 2 5 1).getFuncNum = self.funcNum + 3 := by
  rw [BFGS.funcNum_optimize, quad_iterations]
  simp [BFGS.trialsAt, BFGS.search, quadEnv]
  ring

theorem quad_funcNum_sd (self : LineSearch) :
    (SteepDesc.optimize quadEnv self quadStart 2 5 1).getFuncNum = self.funcNum + 3 := by
  rw [SteepDesc.funcNum_optimize_sd, quad_iterations_sd]
  simp [SteepDesc.trialsAt, SteepDesc.search, quadEnv]
  ring

end Runs

section RunsAtCap

theorem shift_func_ge (x : Vec ℚ 1) : 1 ≤ shiftEnv.func x := by
  have h := mul_self_nonneg (x 0)
  show 1 ≤ x 0 * x 0 + 1
  linarith

theorem shift_not_lt (x : Vec ℚ 1) : ¬ shiftEnv.func x < 1 / 2 := by
  have h := shift_func_ge x
  intro hlt
  linarith

theorem shift_itrNum (self : LineSearch) (minItr : Int) :
    (BFGS.optimize shiftEnv self quadStart (1 / 2) 2 minItr).getItrNum = 2 := by
  rw [BFGS.getItrNum_optimize, BFGS.iterations_eq_cap shiftEnv self quadStart (1 / 2) 2
    minItr shift_not_lt]
  rfl

theorem shift_itrNum_sd (self : LineSearch) (minItr : Int) :
    (SteepDesc.optimize shiftEnv self quadStart (1 / 2) 2 minItr).getItrNum = 2 := by
  rw [SteepDesc.getItrNum_optimize_sd, SteepDesc.iterations_eq_cap_sd shiftEnv self
    quadStart (1 / 2) 2 minItr shift_not_lt]
  rfl

theorem shift_fails (self : LineSearch) (maxItr minItr : Int) :
    (BFGS.optimize shiftEnv self quadStart (1 / 2) maxItr minItr).isSuccess = false := by
  have hs := BFGS.success_optimize shiftEnv self quadStart (1 / 2) maxItr minItr
  rw [BFGS.fMin_optimize] at hs
  have hge := shift_func_ge
    (BFGS.optimize shiftEnv self quadStart (1 / 2) maxItr minItr).getOptValue
  cases hb : (BFGS.optimize shiftEnv self quadStart (1 / 2) maxItr minItr).isSuccess
  · rfl
  · have := hs.mp hb
    linarith

theorem shift_fails_sd (self : LineSearch) (maxItr minItr : Int) :
    (SteepDesc.optimize shiftEnv self quadStart (1 / 2) maxItr minItr).isSuccess
      = false := by
  have hs := SteepDesc.success_optimize_sd shiftEnv self quadStart (1 / 2) maxItr minItr
  rw [SteepDesc.fMin_optimize_sd] at hs
  have hge := shift_func_ge
    (SteepDesc.optimize shiftEnv self quadStart (1 / 2) maxItr minItr).getOptValue
  cases hb : (SteepDesc.optimize shiftEnv self quadStart (1 / 2) maxItr minItr).isSuccess
  · rfl
  · have := hs.mp hb
    linarith

theorem quad_success (self : LineSearch) :
    (BFGS.optimize quadEnv self quadStart 2 5 1).isSuccess = true := by
  rw [BFGS.success_optimize]
  exact le_of_lt (BFGS.funcMin_lt_of_below_cap quadEnv self quadStart 2 5 1
    (by rw [quad_itrNum]; decide))

theorem quad_success_sd (self : LineSearch) :
    (SteepDesc.optimize quadEnv self quadStart 2 5 1).isSuccess = true := by
  rw [SteepDesc.success_optimize_sd]
  exact le_of_lt (SteepDesc.funcMin_lt_of_below_cap_sd quadEnv self quadStart 2 5 1
    (by rw [quad_itrNum_sd]; decide))

theorem shift_loop_fault :
    BFGS.loopChecked shiftEnv LineSearch.fresh quadStart (1 / 2) 2 0 (2 : Int).toNat
      = Except.error (Fault.outOfRange 2) := by
  have h := BFGS.loopChecked_eq shiftEnv LineSearch.fresh quadStart (1 / 2) 2 0 0
  rw [BFGS.iterations_eq_cap shiftEnv LineSearch.fresh quadStart (1 / 2) 2 0
    shift_not_lt] at h
  exact h

end RunsAtCap

/-! ## The termination predicate -/

section Predicate

variable {K : Type} [AddCommMonoid K] [Mul K] [One K] [Neg K] [Sub K] [Div K] [LT K]
  [∀ a b : K, Decidable (a < b)] {n : Nat}

/-- C2: for both strategies, `optimize` executes exactly `N` outer iterations
(the loop leaves in the state reached after `N` rounds, and `getItrNum()` is
`N`), where `N` is the least natural number at which the predicate
`(iteration > minItr AND currentValue < tol) OR (iteration > maxItr)` holds
with `iteration = N + 1`, the loop counter `k`, and `currentValue` the
objective value at the `N`-th iterate: the predicate holds after `N` rounds
and fails after every smaller number of rounds.  The loop continues from a
state exactly when the predicate is false at its `k` and `fx`. -/
theorem iterations_least_stop (E : Env K n) (self : LineSearch)
    (x0 : Vec K n) (tol : K) (maxItr minItr : Int) :
    (BFGS.run E self x0 tol maxItr minItr
        = BFGS.iterate E self x0 (BFGS.iterations E self x0 tol maxItr minItr)
      ∧ (BFGS.optimize E self x0 tol maxItr minItr).getItrNum
          = (BFGS.iterations E self x0 tol maxItr minItr : Int)
      ∧ (∀ m : Nat, (BFGS.iterate E self x0 m).k = (m : Int) + 1
          ∧ (BFGS.iterate E self x0 m).fx = E.func (BFGS.iterate E self x0 m).x)
      ∧ ((((BFGS.iterations E self x0 tol maxItr minItr : Int) + 1 > minItr
            ∧ E.func (BFGS.iterate E self x0
                (BFGS.iterations E self x0 tol maxItr minItr)).x < tol)
          ∨ (BFGS.iterations E self x0 tol maxItr minItr : Int) + 1 > maxItr))
      ∧ (∀ m : Nat, m < BFGS.iterations E self x0 tol maxItr minItr →
          ¬ (((m : Int) + 1 > minItr ∧ E.func (BFGS.iterate E self x0 m).x < tol)
            ∨ (m : Int) + 1 > maxItr))
      ∧ ∀ st : BFGS.State K n, BFGS.guard tol maxItr minItr st = true
          ↔ ¬ ((st.k > minItr ∧ st.fx < tol) ∨ st.k > maxItr))
    ∧ (SteepDesc.run E self x0 tol maxItr minItr
        = SteepDesc.iterate E self x0
            (SteepDesc.iterations E self x0 tol maxItr minItr)
      ∧ (SteepDesc.optimize E self x0 tol maxItr minItr).getItrNum
          = (SteepDesc.iterations E self x0 tol maxItr minItr : Int)
      ∧ (∀ m : Nat, (SteepDesc.iterate E self x0 m).k = (m : Int) + 1
          ∧ (SteepDesc.iterate E self x0 m).fx
              = E.func (SteepDesc.iterate E self x0 m).x)
      ∧ ((((SteepDesc.iterations E self x0 tol maxItr minItr : Int) + 1 > minItr
            ∧ E.func (SteepDesc.iterate E self x0
                (SteepDesc.iterations E self x0 tol maxItr minItr)).x < tol)
          ∨ (SteepDesc.iterations E self x0 tol maxItr minItr : Int) + 1 > maxItr))
      ∧ (∀ m : Nat, m < SteepDesc.iterations E self x0 tol maxItr minItr →
          ¬ (((m : Int) + 1 > minItr ∧ E.func (SteepDesc.iterate E self x0 m).x < tol)
            ∨ (m : Int) + 1 > maxItr))
      ∧ ∀ st : SteepDesc.State K n, SteepDesc.guard tol maxItr minItr st = true
          ↔ ¬ ((st.k > minItr ∧ st.fx < tol) ∨ st.k > maxItr)) := by
  refine ⟨⟨BFGS.run_eq_iterate _ _ _ _ _ _, BFGS.getItrNum_optimize _ _ _ _ _ _,
      fun m => ⟨BFGS.k_iterate _ _ _ m, BFGS.fx_iterate _ _ _ m⟩, ?_, ?_,
      BFGS.guard_eq_true_iff tol maxItr minItr⟩,
    ⟨SteepDesc.run_eq_iterate_sd _ _ _ _ _ _, SteepDesc.getItrNum_optimize_sd _ _ _ _ _ _,
      fun m => ⟨SteepDesc.k_iterate_sd _ _ _ m, SteepDesc.fx_iterate_sd _ _ _ m⟩, ?_, ?_,
      SteepDesc.guard_eq_true_iff_sd tol maxItr minItr⟩⟩
  · have h := BFGS.guard_run E self x0 tol maxItr minItr
    rw [BFGS.run_eq_iterate, BFGS.guard_eq_false_iff, BFGS.k_iterate,
      BFGS.fx_iterate] at h
    exact h
  · intro m hm
    have h := BFGS.guard_iterate_of_lt E self x0 tol maxItr minItr m hm
    rw [BFGS.guard_eq_true_iff, BFGS.k_iterate, BFGS.fx_iterate] at h
    exact h
  · have h := SteepDesc.guard_run_sd E self x0 tol maxItr minItr
    rw [SteepDesc.run_eq_iterate_sd, SteepDesc.guard_eq_false_iff_sd,
      SteepDesc.k_iterate_sd, SteepDesc.fx_iterate_sd] at h
    exact h
  · intro m hm
    have h := SteepDesc.guard_iterate_of_lt_sd E self x0 tol maxItr minItr m hm
    rw [SteepDesc.guard_eq_true_iff_sd, SteepDesc.k_iterate_sd,
      SteepDesc.fx_iterate_sd] at h
    exact h

end Predicate

/-! ## Iteration cap and the flag `success` -/

section Cap

variable {K : Type} [LinearOrderedField K] {n : Nat}

/-- C7: for both strategies, `getItrNum() <= maxItr + 1` after `optimize`
returns: for every run with `maxItr >= -1` when the trace buffer is taken
without its capacity, and for every run that returns (every `int` `maxItr`)
when the buffer has its `maxItr` entries. -/
theorem itrNum_le_maxItr_succ (E : Env K n) (self : LineSearch)
    (x0 : Vec K n) (tol : K) (maxItr minItr : Int) :
    (-1 ≤ maxItr →
        (BFGS.optimize E self x0 tol maxItr minItr).getItrNum ≤ maxItr + 1
        ∧ (SteepDesc.optimize E self x0 tol maxItr minItr).getItrNum ≤ maxItr + 1)
    ∧ (∀ o : Optimizer K n,
        BFGS.optimizeChecked E self x0 tol maxItr minItr = Except.ok o →
          o.getItrNum ≤ maxItr + 1)
    ∧ (∀ o : Optimizer K n,
        SteepDesc.optimizeChecked E self x0 tol maxItr minItr = Except.ok o →
          o.getItrNum ≤ maxItr + 1) := by
  refine ⟨fun h => ?_, fun o ho => ?_, fun o ho => ?_⟩
  · have h1 := BFGS.iterations_le E self x0 tol maxItr minItr
    have h2 := SteepDesc.iterations_le_sd E self x0 tol maxItr minItr
    rw [BFGS.getItrNum_optimize, SteepDesc.getItrNum_optimize_sd]
    have h3 : max maxItr 0 ≤ maxItr + 1 := max_le (by omega) (by omega)
    exact ⟨le_trans h1 h3, le_trans h2 h3⟩
  · obtain ⟨hlt, rfl⟩ := (BFGS.optimizeChecked_ok_iff E self x0 tol maxItr minItr o).mp ho
    omega
  · obtain ⟨hlt, rfl⟩ :=
      (SteepDesc.optimizeChecked_ok_iff_sd E self x0 tol maxItr minItr o).mp ho
    omega

/-- Witness for C7: `quadEnv` from `x0 = (1)` with `tol = 2`, `maxItr = 5`,
`minItr = 1` returns after one round, in both strategies. -/
theorem itrNum_le_maxItr_succ_witness :
    (-1 : Int) ≤ 5
    ∧ BFGS.optimizeChecked quadEnv LineSearch.fresh quadStart 2 5 1
        = Except.ok (BFGS.optimize quadEnv LineSearch.fresh quadStart 2 5 1)
    ∧ (BFGS.optimize quadEnv LineSearch.fresh quadStart 2 5 1).getItrNum = 1
    ∧ (BFGS.optimize quadEnv LineSearch.fresh quadStart 2 5 1).getItrNum ≤ 5 + 1
    ∧ (SteepDesc.optimize quadEnv LineSearch.fresh quadStart 2 5 1).getItrNum = 1
    ∧ (SteepDesc.optimize quadEnv LineSearch.fresh quadStart 2 5 1).getItrNum ≤ 5 + 1 :=
  ⟨by decide, quad_checked LineSearch.fresh, quad_itrNum LineSearch.fresh,
    (itrNum_le_maxItr_succ quadEnv LineSearch.fresh quadStart 2 5 1).2.1 _
      (quad_checked LineSearch.fresh),
    quad_itrNum_sd LineSearch.fresh,
    ((itrNum_le_maxItr_succ quadEnv LineSearch.fresh quadStart 2 5 1).1 (by decide)).2⟩

/-- C12: for both strategies and every run with `maxItr >= 0`, if
`isSuccess()` is false after `optimize` returns then `getItrNum() == maxItr`;
equivalently, a run that returns with `getItrNum() < maxItr` has
`isSuccess() == true`.  With the trace buffer of `maxItr` entries every call
that returns has `getItrNum() < maxItr` and `isSuccess() == true`. -/
theorem fail_only_at_cap (E : Env K n) (self : LineSearch) (x0 : Vec K n)
    (tol : K) (maxItr minItr : Int) (h0 : 0 ≤ maxItr) :
    (((BFGS.optimize E self x0 tol maxItr minItr).isSuccess = false →
        (BFGS.optimize E self x0 tol maxItr minItr).getItrNum = maxItr)
      ∧ ((BFGS.optimize E self x0 tol maxItr minItr).getItrNum < maxItr →
        (BFGS.optimize E self x0 tol maxItr minItr).isSuccess = true)
      ∧ (∀ o : Optimizer K n,
          BFGS.optimizeChecked E self x0 tol maxItr minItr = Except.ok o →
            o.getItrNum < maxItr ∧ o.isSuccess = true))
    ∧ (((SteepDesc.optimize E self x0 tol maxItr minItr).isSuccess = false →
        (SteepDesc.optimize E self x0 tol maxItr minItr).getItrNum = maxItr)
      ∧ ((SteepDesc.optimize E self x0 tol maxItr minItr).getItrNum < maxItr →
        (SteepDesc.optimize E self x0 tol maxItr minItr).isSuccess = true)
      ∧ (∀ o : Optimizer K n,
          SteepDesc.optimizeChecked E self x0 tol maxItr minItr = Except.ok o →
            o.getItrNum < maxItr ∧ o.isSuccess = true)) := by
  have hb : (BFGS.optimize E self x0 tol maxItr minItr).getItrNum < maxItr →
      (BFGS.optimize E self x0 tol maxItr minItr).isSuccess = true := by
    intro hlt
    rw [BFGS.success_optimize]
    exact le_of_lt (BFGS.funcMin_lt_of_below_cap E self x0 tol maxItr minItr hlt)
  have hs : (SteepDesc.optimize E self x0 tol maxItr minItr).getItrNum < maxItr →
      (SteepDesc.optimize E self x0 tol maxItr minItr).isSuccess = true := by
    intro hlt
    rw [SteepDesc.success_optimize_sd]
    exact le_of_lt (SteepDesc.funcMin_lt_of_below_cap_sd E self x0 tol maxItr minItr hlt)
  refine ⟨⟨BFGS.itrNum_eq_maxItr_of_fail E self x0 tol maxItr minItr h0, hb, ?_⟩,
    ⟨SteepDesc.itrNum_eq_maxItr_of_fail_sd E self x0 tol maxItr minItr h0, hs, ?_⟩⟩
  · intro o ho
    obtain ⟨hlt, rfl⟩ := (BFGS.optimizeChecked_ok_iff E self x0 tol maxItr minItr o).mp ho
    exact ⟨hlt, hb hlt⟩
  · intro o ho
    obtain ⟨hlt, rfl⟩ :=
      (SteepDesc.optimizeChecked_ok_iff_sd E self x0 tol maxItr minItr o).mp ho
    exact ⟨hlt, hs hlt⟩

/-- Witness for C12: `shiftEnv` (values at least `1`) with `tol = 1/2` and
`maxItr = 2` reports failure after two rounds, in both strategies (a failing
run always ends at the cap, so its last store is at index `maxItr`, which the
buffer of `maxItr` entries does not have); `quadEnv` with `tol = 2`,
`maxItr = 5`, `minItr = 1` returns after one round, below the cap, with
`isSuccess() == true`. -/
theorem fail_only_at_cap_witness :
    ((0 : Int) ≤ 2
      ∧ (BFGS.optimize shiftEnv LineSearch.fresh quadStart (1 / 2) 2 0).isSuccess = false
      ∧ (BFGS.optimize shiftEnv LineSearch.fresh quadStart (1 / 2) 2 0).getItrNum = 2
      ∧ (SteepDesc.optimize shiftEnv LineSearch.fresh quadStart (1 / 2) 2 0).isSuccess
          = false
      ∧ (SteepDesc.optimize shiftEnv LineSearch.fresh quadStart (1 / 2) 2 0).getItrNum = 2
      ∧ BFGS.optimizeChecked shiftEnv LineSearch.fresh quadStart (1 / 2) 2 0
          = Except.error (Fault.outOfRange 2))
    ∧ ((0 : Int) ≤ 5
      ∧ BFGS.optimizeChecked quadEnv LineSearch.fresh quadStart 2 5 1
          = Except.ok (BFGS.optimize quadEnv LineSearch.fresh quadStart 2 5 1)
      ∧ (BFGS.optimize quadEnv LineSearch.fresh quadStart 2 5 1).getItrNum < 5
      ∧ (BFGS.optimize quadEnv LineSearch.fresh quadStart 2 5 1).isSuccess = true) :=
  ⟨⟨by decide, shift_fails LineSearch.fresh 2 0,
      (fail_only_at_cap shiftEnv LineSearch.fresh quadStart (1 / 2) 2 0 (by decide)).1.1
        (shift_fails LineSearch.fresh 2 0),
      shift_fails_sd LineSearch.fresh 2 0,
      (fail_only_at_cap shiftEnv LineSearch.fresh quadStart (1 / 2) 2 0 (by decide)).2.1
        (shift_fails_sd LineSearch.fresh 2 0),
      BFGS.optimizeChecked_of_cap shiftEnv LineSearch.fresh quadStart (1 / 2) 2 0
        (by decide) (shift_itrNum LineSearch.fresh 0)⟩,
    ⟨by decide, quad_checked LineSearch.fresh,
      ((fail_only_at_cap quadEnv LineSearch.fresh quadStart 2 5 1 (by decide)).1.2.2 _
        (quad_checked LineSearch.fresh))⟩⟩

end Cap

/-! ## Termination -/

section Termination

variable {K : Type} [AddCommMonoid K] [Mul K] [One K] [Neg K] [Sub K] [Div K] [LT K]
  [∀ a b : K, Decidable (a < b)] {n : Nat}

/-- C13: for both strategies, `optimize` terminates for every objective, start
point, `tol`, `minItr`, line search and every `maxItr` below the largest
`int`: the loop counter `k` grows by exactly one per outer iteration and stays
between `1` and the largest `int`, the loop body runs at most
`max(maxItr, 0)` times, the loop is left with its condition false, and
unrolling the loop further (any number of extra rounds allowed) changes
neither the final state nor the number of rounds; the same holds of the loop
with the trace buffer of `maxItr` entries, which ends within `max(maxItr, 0)`
rounds in a state or in a fault. -/
theorem optimize_terminates (E : Env K n) (self : LineSearch) (x0 : Vec K n)
    (tol : K) (maxItr minItr : Int) (hint : maxItr < intMax) :
    ((∀ st : BFGS.State K n, (BFGS.body E st).k = st.k + 1)
      ∧ (∀ m : Nat, m ≤ BFGS.iterations E self x0 tol maxItr minItr →
          1 ≤ (BFGS.iterate E self x0 m).k ∧ (BFGS.iterate E self x0 m).k ≤ intMax)
      ∧ (BFGS.iterations E self x0 tol maxItr minItr : Int) ≤ max maxItr 0
      ∧ BFGS.guard tol maxItr minItr (BFGS.run E self x0 tol maxItr minItr) = false
      ∧ (∀ d : Nat,
          whileLoop (BFGS.guard tol maxItr minItr) (BFGS.body E) (maxItr.toNat + d)
              (BFGS.init E self x0) = BFGS.run E self x0 tol maxItr minItr
          ∧ whileCount (BFGS.guard tol maxItr minItr) (BFGS.body E) (maxItr.toNat + d)
              (BFGS.init E self x0) = BFGS.iterations E self x0 tol maxItr minItr)
      ∧ ∀ d : Nat, BFGS.loopChecked E self x0 tol maxItr minItr (maxItr.toNat + d)
          = BFGS.loopChecked E self x0 tol maxItr minItr maxItr.toNat)
    ∧ ((∀ st : SteepDesc.State K n, (SteepDesc.body E st).k = st.k + 1)
      ∧ (∀ m : Nat, m ≤ SteepDesc.iterations E self x0 tol maxItr minItr →
          1 ≤ (SteepDesc.iterate E self x0 m).k
          ∧ (SteepDesc.iterate E self x0 m).k ≤ intMax)
      ∧ (SteepDesc.iterations E self x0 tol maxItr minItr : Int) ≤ max maxItr 0
      ∧ SteepDesc.guard tol maxItr minItr (SteepDesc.run E self x0 tol maxItr minItr) = false
      ∧ (∀ d : Nat,
          whileLoop (SteepDesc.guard tol maxItr minItr) (SteepDesc.body E) (maxItr.toNat + d)
              (SteepDesc.init E self x0) = SteepDesc.run E self x0 tol maxItr minItr
          ∧ whileCount (SteepDesc.guard tol maxItr minItr) (SteepDesc.body E)
              (maxItr.toNat + d) (SteepDesc.init E self x0)
            = SteepDesc.iterations E self x0 tol maxItr minItr)
      ∧ ∀ d : Nat, SteepDesc.loopChecked E self x0 tol maxItr minItr (maxItr.toNat + d)
          = SteepDesc.loopChecked E self x0 tol maxItr minItr maxItr.toNat) := by
  have hmax : max maxItr 0 + 1 ≤ intMax := by
    have h : max maxItr 0 ≤ intMax - 1 := max_le (by omega) (by decide)
    omega
  refine ⟨⟨fun _ => rfl, ?_, BFGS.iterations_le E self x0 tol maxItr minItr,
      BFGS.guard_run E self x0 tol maxItr minItr,
      BFGS.run_add_fuel E self x0 tol maxItr minItr, ?_⟩,
    ⟨fun _ => rfl, ?_, SteepDesc.iterations_le_sd E self x0 tol maxItr minItr,
      SteepDesc.guard_run_sd E self x0 tol maxItr minItr,
      SteepDesc.run_add_fuel_sd E self x0 tol maxItr minItr, ?_⟩⟩
  · intro m hm
    have h := BFGS.iterations_le E self x0 tol maxItr minItr
    rw [BFGS.k_iterate]
    omega
  · intro d
    rw [BFGS.loopChecked_eq, ← BFGS.loopChecked_eq E self x0 tol maxItr minItr 0]
    rfl
  · intro m hm
    have h := SteepDesc.iterations_le_sd E self x0 tol maxItr minItr
    rw [SteepDesc.k_iterate_sd]
    omega
  · intro d
    rw [SteepDesc.loopChecked_eq_sd, ← SteepDesc.loopChecked_eq_sd E self x0 tol maxItr minItr 0]
    rfl

/-- Witness for C13: `shiftEnv`, whose value never falls below `tol = 1/2`,
with `maxItr = 2`: both strategies run exactly two rounds and leave the
loop; with the buffer of two entries the loop ends in the second round, at
the store at index `2`, however far it is unrolled. -/
theorem optimize_terminates_witness :
    (2 : Int) < intMax
    ∧ (∀ x : Vec ℚ 1, ¬ shiftEnv.func x < 1 / 2)
    ∧ BFGS.iterations shiftEnv LineSearch.fresh quadStart (1 / 2) 2 0 = 2
    ∧ SteepDesc.iterations shiftEnv LineSearch.fresh quadStart (1 / 2) 2 0 = 2
    ∧ BFGS.guard (1 / 2) 2 0 (BFGS.run shiftEnv LineSearch.fresh quadStart (1 / 2) 2 0)
        = false
    ∧ SteepDesc.guard (1 / 2) 2 0
        (SteepDesc.run shiftEnv LineSearch.fresh quadStart (1 / 2) 2 0) = false
    ∧ BFGS.loopChecked shiftEnv LineSearch.fresh quadStart (1 / 2) 2 0 ((2 : Int).toNat + 7)
        = BFGS.loopChecked shiftEnv LineSearch.fresh quadStart (1 / 2) 2 0 (2 : Int).toNat
    ∧ BFGS.loopChecked shiftEnv LineSearch.fresh quadStart (1 / 2) 2 0 (2 : Int).toNat
        = Except.error (Fault.outOfRange 2) :=
  ⟨by decide, shift_not_lt,
    BFGS.iterations_eq_cap shiftEnv LineSearch.fresh quadStart (1 / 2) 2 0 shift_not_lt,
    SteepDesc.iterations_eq_cap_sd shiftEnv LineSearch.fresh quadStart (1 / 2) 2 0
      shift_not_lt,
    (optimize_terminates shiftEnv LineSearch.fresh quadStart (1 / 2) 2 0
      (by decide)).1.2.2.2.1,
    (optimize_terminates shiftEnv LineSearch.fresh quadStart (1 / 2) 2 0
      (by decide)).2.2.2.2.1,
    (optimize_terminates shiftEnv LineSearch.fresh quadStart (1 / 2) 2 0
      (by decide)).1.2.2.2.2.2 7,
    shift_loop_fault⟩

/-- C14: for both strategies and a deterministic objective, the accessors
describe the same final iterate after `optimize` returns: `getFuncMin()` is
the objective value at `getOptValue()`, and the trace entry
`getGradNorm()[getItrNum()]` is the Euclidean norm of the gradient at
`getOptValue()`.  A call returns when its run ends with
`getItrNum() < maxItr`, so that every entry of the trace was stored within
the buffer of `maxItr` entries. -/
theorem accessors_same_iterate (E : Env K n) (self : LineSearch) (x0 : Vec K n)
    (tol : K) (maxItr minItr : Int) :
    ((∀ o : Optimizer K n,
        BFGS.optimizeChecked E self x0 tol maxItr minItr = Except.ok o →
          o.getFuncMin = E.func o.getOptValue
          ∧ o.getGradNorm[o.getItrNum.toNat]?
              = some (norm E.sqrt (E.grad o.getOptValue)))
      ∧ ((BFGS.optimize E self x0 tol maxItr minItr).getItrNum < maxItr →
          BFGS.optimizeChecked E self x0 tol maxItr minItr
              = Except.ok (BFGS.optimize E self x0 tol maxItr minItr)))
    ∧ ((∀ o : Optimizer K n,
        SteepDesc.optimizeChecked E self x0 tol maxItr minItr = Except.ok o →
          o.getFuncMin = E.func o.getOptValue
          ∧ o.getGradNorm[o.getItrNum.toNat]?
              = some (norm E.sqrt (E.grad o.getOptValue)))
      ∧ ((SteepDesc.optimize E self x0 tol maxItr minItr).getItrNum < maxItr →
          SteepDesc.optimizeChecked E self x0 tol maxItr minItr
              = Except.ok (SteepDesc.optimize E self x0 tol maxItr minItr))) := by
  refine ⟨⟨fun o ho => ?_, BFGS.optimizeChecked_of_lt E self x0 tol maxItr minItr⟩,
    ⟨fun o ho => ?_, SteepDesc.optimizeChecked_of_lt_sd E self x0 tol maxItr minItr⟩⟩
  · obtain ⟨_, rfl⟩ := (BFGS.optimizeChecked_ok_iff E self x0 tol maxItr minItr o).mp ho
    exact ⟨BFGS.fMin_optimize E self x0 tol maxItr minItr,
      BFGS.last_gradNorm E self x0 tol maxItr minItr⟩
  · obtain ⟨_, rfl⟩ :=
      (SteepDesc.optimizeChecked_ok_iff_sd E self x0 tol maxItr minItr o).mp ho
    exact ⟨SteepDesc.fMin_optimize_sd E self x0 tol maxItr minItr,
      SteepDesc.last_gradNorm_sd E self x0 tol maxItr minItr⟩

/-- Witness for C14: `quadEnv` from `x0 = (1)` with `tol = 2`, `maxItr = 5`,
`minItr = 1` returns after one round at `x = (1/2)`, in both strategies. -/
theorem accessors_same_iterate_witness :
    (BFGS.optimizeChecked quadEnv LineSearch.fresh quadStart 2 5 1
        = Except.ok (BFGS.optimize quadEnv LineSearch.fresh quadStart 2 5 1)
      ∧ (BFGS.optimize quadEnv LineSearch.fresh quadStart 2 5 1).getItrNum = 1
      ∧ (BFGS.optimize quadEnv LineSearch.fresh quadStart 2 5 1).getFuncMin
          = quadEnv.func (BFGS.optimize quadEnv LineSearch.fresh quadStart 2 5 1).getOptValue
      ∧ (BFGS.optimize quadEnv LineSearch.fresh quadStart 2 5 1).getGradNorm[
            (BFGS.optimize quadEnv LineSearch.fresh quadStart 2 5 1).getItrNum.toNat]?
          = some (norm quadEnv.sqrt (quadEnv.grad
              (BFGS.optimize quadEnv LineSearch.fresh quadStart 2 5 1).getOptValue)))
    ∧ (SteepDesc.optimizeChecked quadEnv LineSearch.fresh quadStart 2 5 1
        = Except.ok (SteepDesc.optimize quadEnv LineSearch.fresh quadStart 2 5 1)
      ∧ (SteepDesc.optimize quadEnv LineSearch.fresh quadStart 2 5 1).getItrNum = 1
      ∧ (SteepDesc.optimize quadEnv LineSearch.fresh quadStart 2 5 1).getFuncMin
          = quadEnv.func
              (SteepDesc.optimize quadEnv LineSearch.fresh quadStart 2 5 1).getOptValue
      ∧ (SteepDesc.optimize quadEnv LineSearch.fresh quadStart 2 5 1).getGradNorm[
            (SteepDesc.optimize quadEnv LineSearch.fresh quadStart 2 5 1).getItrNum.toNat]?
          = some (norm quadEnv.sqrt (quadEnv.grad
              (SteepDesc.optimize quadEnv LineSearch.fresh quadStart 2 5 1).getOptValue))) :=
  ⟨⟨quad_checked LineSearch.fresh, quad_itrNum LineSearch.fresh,
      (accessors_same_iterate quadEnv LineSearch.fresh quadStart 2 5 1).1.1 _
        (quad_checked LineSearch.fresh)⟩,
    ⟨quad_checked_sd LineSearch.fresh, quad_itrNum_sd LineSearch.fresh,
      (accessors_same_iterate quadEnv LineSearch.fresh quadStart 2 5 1).2.1 _
        (quad_checked_sd LineSearch.fresh)⟩⟩

end Termination

/-! ## Stores into the trace buffer `gnorm` -/

section Buffer

variable {K : Type} [LinearOrderedField K] {n : Nat}

/-- C17: in both strategies the trace buffer `gnorm` is declared with `maxItr`
entries, the statement before the loop stores at index `0` and round `m`
(counting from zero) stores at index `k = m + 1`, so the stores of a run go
to the indices `0 .. getItrNum()`.  Every store is within the buffer (the
loop, and with it the call, ends without a fault) if and only if the run ends
with `getItrNum() < maxItr`, for every `int` `maxItr`.  A run that reaches
the cap (`getItrNum() == maxItr`, `maxItr >= 0`) stores at index `maxItr`,
one past the end: so does every run that ends with `isSuccess() == false`,
every run with `minItr >= maxItr`, and every run with `maxItr == 0`. -/
theorem gnorm_writes_bounds (E : Env K n) (self : LineSearch) (x0 : Vec K n)
    (tol : K) (maxItr minItr : Int) :
    ((BFGS.initChecked E self x0 maxItr
          = (if maxItr < 0 then Except.error (Fault.badLength maxItr)
            else if 0 < maxItr then Except.ok (BFGS.init E self x0)
            else Except.error (Fault.outOfRange 0))
        ∧ (∀ st : BFGS.State K n, BFGS.bodyChecked E maxItr st
            = if 0 ≤ st.k ∧ st.k < maxItr then Except.ok (BFGS.body E st)
              else Except.error (Fault.outOfRange st.k))
        ∧ (∀ m : Nat, (BFGS.iterate E self x0 m).k = (m : Int) + 1))
      ∧ ((∃ st, BFGS.loopChecked E self x0 tol maxItr minItr maxItr.toNat = Except.ok st)
          ↔ (BFGS.optimize E self x0 tol maxItr minItr).getItrNum < maxItr)
      ∧ ((∃ o, BFGS.optimizeChecked E self x0 tol maxItr minItr = Except.ok o)
          ↔ (BFGS.optimize E self x0 tol maxItr minItr).getItrNum < maxItr)
      ∧ (0 ≤ maxItr →
          ((BFGS.optimize E self x0 tol maxItr minItr).getItrNum = maxItr →
            BFGS.loopChecked E self x0 tol maxItr minItr maxItr.toNat
              = Except.error (Fault.outOfRange maxItr))
          ∧ ((BFGS.optimize E self x0 tol maxItr minItr).isSuccess = false →
            BFGS.loopChecked E self x0 tol maxItr minItr maxItr.toNat
              = Except.error (Fault.outOfRange maxItr))
          ∧ (maxItr ≤ minItr →
            BFGS.loopChecked E self x0 tol maxItr minItr maxItr.toNat
              = Except.error (Fault.outOfRange maxItr))
          ∧ (maxItr = 0 →
            BFGS.loopChecked E self x0 tol maxItr minItr maxItr.toNat
              = Except.error (Fault.outOfRange maxItr))))
    ∧ ((SteepDesc.initChecked E self x0 maxItr
          = (if maxItr < 0 then Except.error (Fault.badLength maxItr)
            else if 0 < maxItr then Except.ok (SteepDesc.init E self x0)
            else Except.error (Fault.outOfRange 0))
        ∧ (∀ st : SteepDesc.State K n, SteepDesc.bodyChecked E maxItr st
            = if 0 ≤ st.k ∧ st.k < maxItr then Except.ok (SteepDesc.body E st)
              else Except.error (Fault.outOfRange st.k))
        ∧ (∀ m : Nat, (SteepDesc.iterate E self x0 m).k = (m : Int) + 1))
      ∧ ((∃ st, SteepDesc.loopChecked E self x0 tol maxItr minItr maxItr.toNat
            = Except.ok st)
          ↔ (SteepDesc.optimize E self x0 tol maxItr minItr).getItrNum < maxItr)
      ∧ ((∃ o, SteepDesc.optimizeChecked E self x0 tol maxItr minItr = Except.ok o)
          ↔ (SteepDesc.optimize E self x0 tol maxItr minItr).getItrNum < maxItr)
      ∧ (0 ≤ maxItr →
          ((SteepDesc.optimize E self x0 tol maxItr minItr).getItrNum = maxItr →
            SteepDesc.loopChecked E self x0 tol maxItr minItr maxItr.toNat
              = Except.error (Fault.outOfRange maxItr))
          ∧ ((SteepDesc.optimize E self x0 tol maxItr minItr).isSuccess = false →
            SteepDesc.loopChecked E self x0 tol maxItr minItr maxItr.toNat
              = Except.error (Fault.outOfRange maxItr))
          ∧ (maxItr ≤ minItr →
            SteepDesc.loopChecked E self x0 tol maxItr minItr maxItr.toNat
              = Except.error (Fault.outOfRange maxItr))
          ∧ (maxItr = 0 →
            SteepDesc.loopChecked E self x0 tol maxItr minItr maxItr.toNat
              = Except.error (Fault.outOfRange maxItr)))) := by
  have hb := BFGS.loopChecked_eq E self x0 tol maxItr minItr 0
  have hs := SteepDesc.loopChecked_eq_sd E self x0 tol maxItr minItr 0
  rw [Nat.add_zero, ← BFGS.getItrNum_optimize] at hb
  rw [Nat.add_zero, ← SteepDesc.getItrNum_optimize_sd] at hs
  have hb0 := BFGS.iterations_le E self x0 tol maxItr minItr
  have hs0 := SteepDesc.iterations_le_sd E self x0 tol maxItr minItr
  rw [← BFGS.getItrNum_optimize] at hb0
  rw [← SteepDesc.getItrNum_optimize_sd] at hs0
  have hbn : 0 ≤ (BFGS.optimize E self x0 tol maxItr minItr).getItrNum := by
    rw [BFGS.getItrNum_optimize]
    exact Int.natCast_nonneg _
  have hsn : 0 ≤ (SteepDesc.optimize E self x0 tol maxItr minItr).getItrNum := by
    rw [SteepDesc.getItrNum_optimize_sd]
    exact Int.natCast_nonneg _
  have hbcap : 0 ≤ maxItr →
      (BFGS.optimize E self x0 tol maxItr minItr).getItrNum = maxItr →
      BFGS.loopChecked E self x0 tol maxItr minItr maxItr.toNat
        = Except.error (Fault.outOfRange maxItr) := by
    intro h0 h
    rw [hb, if_neg (not_lt.mpr h0), if_neg (by omega)]
  have hscap : 0 ≤ maxItr →
      (SteepDesc.optimize E self x0 tol maxItr minItr).getItrNum = maxItr →
      SteepDesc.loopChecked E self x0 tol maxItr minItr maxItr.toNat
        = Except.error (Fault.outOfRange maxItr) := by
    intro h0 h
    rw [hs, if_neg (not_lt.mpr h0), if_neg (by omega)]
  refine ⟨⟨⟨BFGS.initChecked_eq E self x0 maxItr, BFGS.bodyChecked_eq E maxItr,
        BFGS.k_iterate E self x0⟩, ?_, ?_, fun h0 => ⟨hbcap h0, fun hf => ?_, fun hm => ?_,
        fun hz => ?_⟩⟩,
    ⟨⟨SteepDesc.initChecked_eq_sd E self x0 maxItr, SteepDesc.bodyChecked_eq_sd E maxItr,
        SteepDesc.k_iterate_sd E self x0⟩, ?_, ?_, fun h0 => ⟨hscap h0, fun hf => ?_,
        fun hm => ?_, fun hz => ?_⟩⟩⟩
  · rw [hb]
    constructor
    · rintro ⟨st, hst⟩
      by_contra hcon
      by_cases hn : maxItr < 0
      · rw [if_pos hn] at hst
        exact Except.noConfusion hst
      · rw [if_neg hn, if_neg hcon] at hst
        exact Except.noConfusion hst
    · intro hlt
      have hn : ¬ maxItr < 0 := by
        intro hn
        rw [max_eq_right (le_of_lt hn)] at hb0
        omega
      exact ⟨_, by rw [if_neg hn, if_pos hlt]⟩
  · constructor
    · rintro ⟨o, ho⟩
      exact ((BFGS.optimizeChecked_ok_iff E self x0 tol maxItr minItr o).mp ho).1
    · intro hlt
      exact ⟨_, BFGS.optimizeChecked_of_lt E self x0 tol maxItr minItr hlt⟩
  · exact hbcap h0 (BFGS.itrNum_eq_maxItr_of_fail E self x0 tol maxItr minItr h0 hf)
  · exact hbcap h0 (BFGS.itrNum_eq_maxItr_of_minItr_ge E self x0 tol maxItr minItr h0 hm)
  · refine hbcap h0 ?_
    rw [max_eq_left h0] at hb0
    omega
  · rw [hs]
    constructor
    · rintro ⟨st, hst⟩
      by_contra hcon
      by_cases hn : maxItr < 0
      · rw [if_pos hn] at hst
        exact Except.noConfusion hst
      · rw [if_neg hn, if_neg hcon] at hst
        exact Except.noConfusion hst
    · intro hlt
      have hn : ¬ maxItr < 0 := by
        intro hn
        rw [max_eq_right (le_of_lt hn)] at hs0
        omega
      exact ⟨_, by rw [if_neg hn, if_pos hlt]⟩
  · constructor
    · rintro ⟨o, ho⟩
      exact ((SteepDesc.optimizeChecked_ok_iff_sd E self x0 tol maxItr minItr o).mp ho).1
    · intro hlt
      exact ⟨_, SteepDesc.optimizeChecked_of_lt_sd E self x0 tol maxItr minItr hlt⟩
  · exact hscap h0 (SteepDesc.itrNum_eq_maxItr_of_fail_sd E self x0 tol maxItr minItr h0 hf)
  · exact hscap h0
      (SteepDesc.itrNum_eq_maxItr_of_minItr_ge_sd E self x0 tol maxItr minItr h0 hm)
  · refine hscap h0 ?_
    rw [max_eq_left h0] at hs0
    omega

/-- Witness for C17: `shiftEnv` with `tol = 1/2`, `maxItr = 2` ends with
`isSuccess() == false` and its second round stores at index `2` of a buffer
of two entries; `quadEnv` with `maxItr = 2 = minItr` does the same; `quadEnv`
with `tol = 2`, `maxItr = 5`, `minItr = 1` ends after one round with every
store inside the buffer. -/
theorem gnorm_writes_bounds_witness :
    ((0 : Int) ≤ 2
      ∧ (BFGS.optimize shiftEnv LineSearch.fresh quadStart (1 / 2) 2 0).isSuccess = false
      ∧ BFGS.loopChecked shiftEnv LineSearch.fresh quadStart (1 / 2) 2 0 (2 : Int).toNat
          = Except.error (Fault.outOfRange 2))
    ∧ ((2 : Int) ≤ 2
      ∧ SteepDesc.loopChecked quadEnv LineSearch.fresh quadStart (1 / 1000) 2 2
          (2 : Int).toNat = Except.error (Fault.outOfRange 2))
    ∧ ((BFGS.optimize quadEnv LineSearch.fresh quadStart 2 5 1).getItrNum < 5
      ∧ ∃ st, BFGS.loopChecked quadEnv LineSearch.fresh quadStart 2 5 1 (5 : Int).toNat
          = Except.ok st) :=
  ⟨⟨by decide, shift_fails LineSearch.fresh 2 0,
      ((gnorm_writes_bounds shiftEnv LineSearch.fresh quadStart (1 / 2) 2 0).1.2.2.2
        (by decide)).2.1 (shift_fails LineSearch.fresh 2 0)⟩,
    ⟨by decide,
      ((gnorm_writes_bounds quadEnv LineSearch.fresh quadStart (1 / 1000) 2 2).2.2.2.2
        (by decide)).2.2.1 (by decide)⟩,
    ⟨by rw [quad_itrNum]; decide,
      (gnorm_writes_bounds quadEnv LineSearch.fresh quadStart 2 5 1).1.2.1.mpr
        (by rw [quad_itrNum]; decide)⟩⟩

end Buffer

/-! ## The flag `success` when the final value is not a number -/

section NotANumber

theorem emptyRef_value (x : Vec Dbl 3) : emptyRef.valueDbl x = Dbl.nan := rfl

end NotANumber

/-! ## A second call on the same object -/

section SecondCall

/-- C10, as stated, fails: `quadEnv` from `x0 = (1)` with `tol = 2`,
`maxItr = 5`, `minItr = 1` returns after one round (every store inside the
buffer of five entries) with three evaluations counted; a second call with
the same arguments on the object left by the first also returns after one
round, and reports six evaluations, not the three a new object reports for
that call.  The same holds of both strategies. -/
theorem second_call_count_differs :
    (BFGS.optimizeChecked quadEnv LineSearch.fresh quadStart 2 5 1
        = Except.ok (BFGS.optimize quadEnv LineSearch.fresh quadStart 2 5 1)
      ∧ (BFGS.optimize quadEnv LineSearch.fresh quadStart 2 5 1).getItrNum = 1
      ∧ (BFGS.optimize quadEnv LineSearch.fresh quadStart 2 5 1).getFuncNum = 3
      ∧ BFGS.optimizeChecked quadEnv
          (BFGS.optimize quadEnv LineSearch.fresh quadStart 2 5 1).toLineSearch quadStart 2 5 1
        = Except.ok (BFGS.optimize quadEnv
            (BFGS.optimize quadEnv LineSearch.fresh quadStart 2 5 1).toLineSearch
            quadStart 2 5 1)
      ∧ (BFGS.optimize quadEnv
            (BFGS.optimize quadEnv LineSearch.fresh quadStart 2 5 1).toLineSearch
            quadStart 2 5 1).getItrNum = 1
      ∧ (BFGS.optimize quadEnv
            (BFGS.optimize quadEnv LineSearch.fresh quadStart 2 5 1).toLineSearch
            quadStart 2 5 1).getFuncNum = 6
      ∧ (BFGS.optimize quadEnv
            (BFGS.optimize quadEnv LineSearch.fresh quadStart 2 5 1).toLineSearch
            quadStart 2 5 1).getFuncNum
          ≠ (BFGS.optimize quadEnv LineSearch.fresh quadStart 2 5 1).getFuncNum)
    ∧ (SteepDesc.optimizeChecked quadEnv LineSearch.fresh quadStart 2 5 1
        = Except.ok (SteepDesc.optimize quadEnv LineSearch.fresh quadStart 2 5 1)
      ∧ (SteepDesc.optimize quadEnv LineSearch.fresh quadStart 2 5 1).getItrNum = 1
      ∧ (SteepDesc.optimize quadEnv LineSearch.fresh quadStart 2 5 1).getFuncNum = 3
      ∧ SteepDesc.optimizeChecked quadEnv
          (SteepDesc.optimize quadEnv LineSearch.fresh quadStart 2 5 1).toLineSearch
          quadStart 2 5 1
        = Except.ok (SteepDesc.optimize quadEnv
            (SteepDesc.optimize quadEnv LineSearch.fresh quadStart 2 5 1).toLineSearch
            quadStart 2 5 1)
      ∧ (SteepDesc.optimize quadEnv
            (SteepDesc.optimize quadEnv LineSearch.fresh quadStart 2 5 1).toLineSearch
            quadStart 2 5 1).getItrNum = 1
      ∧ (SteepDesc.optimize quadEnv
            (SteepDesc.optimize quadEnv LineSearch.fresh quadStart 2 5 1).toLineSearch
            quadStart 2 5 1).getFuncNum = 6
      ∧ (SteepDesc.optimize quadEnv
            (SteepDesc.optimize quadEnv LineSearch.fresh quadStart 2 5 1).toLineSearch
            quadStart 2 5 1).getFuncNum
          ≠ (SteepDesc.optimize quadEnv LineSearch.fresh quadStart 2 5 1).getFuncNum) := by
  have hb1 : (BFGS.optimize quadEnv LineSearch.fresh quadStart 2 5 1).getFuncNum = 3 := by
    rw [quad_funcNum]
    rfl
  have hb2 : (BFGS.optimize quadEnv
      (BFGS.optimize quadEnv LineSearch.fresh quadStart 2 5 1).toLineSearch
      quadStart 2 5 1).getFuncNum = 6 := by
    rw [quad_funcNum]
    show (BFGS.optimize quadEnv LineSearch.fresh quadStart 2 5 1).getFuncNum + 3 = 6
    rw [hb1]
    rfl
  have hs1 : (SteepDesc.optimize quadEnv LineSearch.fresh quadStart 2 5 1).getFuncNum
      = 3 := by
    rw [quad_funcNum_sd]
    rfl
  have hs2 : (SteepDesc.optimize quadEnv
      (SteepDesc.optimize quadEnv LineSearch.fresh quadStart 2 5 1).toLineSearch
      quadStart 2 5 1).getFuncNum = 6 := by
    rw [quad_funcNum_sd]
    show (SteepDesc.optimize quadEnv LineSearch.fresh quadStart 2 5 1).getFuncNum + 3 = 6
    rw [hs1]
    rfl
  refine ⟨⟨quad_checked _, quad_itrNum _, hb1, quad_checked _, quad_itrNum _, hb2, ?_⟩,
    ⟨quad_checked_sd _, quad_itrNum_sd _, hs1, quad_checked_sd _, quad_itrNum_sd _, hs2, ?_⟩⟩
  · rw [hb2, hb1]
    decide
  · rw [hs2, hs1]
    decide

end SecondCall

/-! ## Initial points of dimension above three -/

section Dim

theorem fourStart_zero : fourStart 0 = 2 := rfl

theorem fourStart_one : fourStart 1 = 0 := rfl

theorem fourStart_two : fourStart 2 = 0 := rfl

theorem fourStart_three : fourStart 3 = 7 := rfl

theorem unitRef_value_eq (x : Vec ℚ (1 + 3)) :
    unitRef.value x = |x 0 * x 0 + x 1 * x 1 + x 2 * x 2 - 1| := by
  norm_num [ObjFunc.value, ObjFunc.resid, unitRef, List.range_succ]

theorem unitRef_value_start : unitRef.value fourStart = 3 := by
  norm_num [ObjFunc.value, ObjFunc.resid, unitRef, fourStart_zero, fourStart_one,
    fourStart_two, List.range_succ]

theorem unitRef_grad_start :
    unitRef.grad fourStart = fun j => if j = 0 then 4 else 0 := by
  funext j
  fin_cases j <;>
    norm_num [ObjFunc.grad, ObjFunc.gradLoop, ObjFunc.resid, ObjFunc.sign, unitRef,
      fourStart_zero, fourStart_one, fourStart_two, List.range_succ]

theorem unitRef_first_iterate :
    (BFGS.iterate (unitRef.env (unitStep (1 + 3)) Rat.sqrt (1 / 1000000)) LineSearch.fresh
      fourStart 1).x = fun j => fourStart j + 1 * -(if j = 0 then 4 else 0) := by
  have hg : (BFGS.init (unitRef.env (unitStep (1 + 3)) Rat.sqrt (1 / 1000000))
      LineSearch.fresh fourStart).g = fun j => if j = 0 then 4 else 0 := unitRef_grad_start
  have hH : (BFGS.init (unitRef.env (unitStep (1 + 3)) Rat.sqrt (1 / 1000000))
      LineSearch.fresh fourStart).H = eye (1 + 3) 1 := rfl
  have hd : BFGS.direction
      (BFGS.init (unitRef.env (unitStep (1 + 3)) Rat.sqrt (1 / 1000000))
        LineSearch.fresh fourStart).H
      (BFGS.init (unitRef.env (unitStep (1 + 3)) Rat.sqrt (1 / 1000000))
        LineSearch.fresh fourStart).g = fun j => -(if j = 0 then 4 else 0) := by
    rw [hH, direction_eye, hg]
    rfl
  show fourStart + BFGS.secantS _ (BFGS.init _ _ _) = _
  funext j
  show fourStart j + 1 * BFGS.direction _ _ j = _
  rw [hd]

theorem unitRef_first_coords :
    (fun j : Fin (1 + 3) => fourStart j + 1 * -(if j = 0 then (4 : ℚ) else 0)) 0 = -2
    ∧ (fun j : Fin (1 + 3) => fourStart j + 1 * -(if j = 0 then (4 : ℚ) else 0)) 1 = 0
    ∧ (fun j : Fin (1 + 3) => fourStart j + 1 * -(if j = 0 then (4 : ℚ) else 0)) 2 = 0
    ∧ (fun j : Fin (1 + 3) => fourStart j + 1 * -(if j = 0 then (4 : ℚ) else 0)) 3 = 7 := by
  refine ⟨?_, ?_, ?_, ?_⟩
  · show fourStart 0 + 1 * -(if (0 : Fin (1 + 3)) = 0 then (4 : ℚ) else 0) = -2
    rw [fourStart_zero, if_pos rfl]
    norm_num
  · show fourStart 1 + 1 * -(if (1 : Fin (1 + 3)) = 0 then (4 : ℚ) else 0) = 0
    rw [fourStart_one, if_neg (by decide)]
    norm_num
  · show fourStart 2 + 1 * -(if (2 : Fin (1 + 3)) = 0 then (4 : ℚ) else 0) = 0
    rw [fourStart_two, if_neg (by decide)]
    norm_num
  · show fourStart 3 + 1 * -(if (3 : Fin (1 + 3)) = 0 then (4 : ℚ) else 0) = 7
    rw [fourStart_three, if_neg (by decide)]
    norm_num

theorem unitRef_value_first :
    unitRef.value (fun j : Fin (1 + 3) => fourStart j + 1 * -(if j = 0 then (4 : ℚ) else 0))
      = 3 := by
  obtain ⟨h0, h1, h2, _⟩ := unitRef_first_coords
  have h0' : fourStart 0 + 1 * -(if (0 : Fin (1 + 3)) = 0 then (4 : ℚ) else 0) = -2 := h0
  have h1' : fourStart 1 + 1 * -(if (1 : Fin (1 + 3)) = 0 then (4 : ℚ) else 0) = 0 := h1
  have h2' : fourStart 2 + 1 * -(if (2 : Fin (1 + 3)) = 0 then (4 : ℚ) else 0) = 0 := h2
  rw [unitRef_value_eq, h0', h1', h2']
  norm_num

theorem unitRef_iterations :
    BFGS.iterations (unitRef.env (unitStep (1 + 3)) Rat.sqrt (1 / 1000000))
      LineSearch.fresh fourStart 4 5 1 = 1 := by
  apply BFGS.iterations_eq_of _ LineSearch.fresh fourStart 4 5 1 1 (by decide)
  · intro m hm
    omega
  · left
    refine ⟨by decide, ?_⟩
    rw [unitRef_first_iterate]
    show unitRef.value _ < 4
    rw [unitRef_value_first]
    norm_num

theorem unitRef_itrNum :
    (BFGS.optimize (unitRef.env (unitStep (1 + 3)) Rat.sqrt (1 / 1000000))
      LineSearch.fresh fourStart 4 5 1).getItrNum = 1 := by
  rw [BFGS.getItrNum_optimize, unitRef_iterations]
  rfl

theorem unitRef_optValue :
    (BFGS.optimize (unitRef.env (unitStep (1 + 3)) Rat.sqrt (1 / 1000000))
      LineSearch.fresh fourStart 4 5 1).getOptValue
      = fun j => fourStart j + 1 * -(if j = 0 then 4 else 0) := by
  simp only [Optimizer.getOptValue, BFGS.optimize, BFGS.finish, BFGS.run_eq_iterate,
    unitRef_iterations]
  exact unitRef_first_iterate

theorem unitRef_checked :
    BFGS.optimizeChecked (unitRef.env (unitStep (1 + 3)) Rat.sqrt (1 / 1000000))
        LineSearch.fresh fourStart 4 5 1
      = Except.ok (BFGS.optimize (unitRef.env (unitStep (1 + 3)) Rat.sqrt (1 / 1000000))
          LineSearch.fresh fourStart 4 5 1) :=
  BFGS.optimizeChecked_of_lt _ LineSearch.fresh fourStart 4 5 1
    (by rw [unitRef_itrNum]; decide)

/-- C11, as stated, fails: for the four-dimensional start point `(2,0,0,7)`
and an `ObjFunc` with one reference point, `BFGS::optimize` with `tol = 4`,
`maxItr = 5`, `minItr = 1` reports no invalid-input error; it runs one
iteration, every store inside the buffer of five entries, and returns with
the optimal point `(-2,0,0,7)`, the minimal value `3` and
`isSuccess() == true`. -/
theorem dimension_four_returns :
    (1 + 3 ≠ 3)
    ∧ ∃ o : Optimizer ℚ (1 + 3),
        BFGS.optimizeChecked (unitRef.env (unitStep (1 + 3)) Rat.sqrt (1 / 1000000))
            LineSearch.fresh fourStart 4 5 1 = Except.ok o
        ∧ o.getItrNum = 1
        ∧ (o.getOptValue 0 = -2 ∧ o.getOptValue 1 = 0 ∧ o.getOptValue 2 = 0
          ∧ o.getOptValue 3 = 7)
        ∧ o.getFuncMin = 3
        ∧ o.isSuccess = true := by
  have hf : (BFGS.optimize (unitRef.env (unitStep (1 + 3)) Rat.sqrt (1 / 1000000))
      LineSearch.fresh fourStart 4 5 1).getFuncMin = 3 := by
    rw [BFGS.fMin_optimize, unitRef_optValue]
    exact unitRef_value_first
  refine ⟨by decide, _, unitRef_checked, unitRef_itrNum, ?_, hf, ?_⟩
  · rw [unitRef_optValue]
    exact unitRef_first_coords
  · rw [BFGS.success_optimize, hf]
    norm_num

end Dim

section DimClaim

variable {K : Type} [LinearOrderedField K] {m : Nat}

theorem value_first_three (f : ObjFunc K) (x x' : Vec K (m + 3))
    (h0 : x 0 = x' 0) (h1 : x 1 = x' 1) (h2 : x 2 = x' 2) : f.value x = f.value x' := by
  have hr : f.resid x = f.resid x' := by
    funext i
    simp only [ObjFunc.resid, h0, h1, h2]
  simp only [ObjFunc.value, hr]

/-- C11 (amended): `BFGS::optimize` makes no dimension check and has no
invalid-input error.  For an `ObjFunc` and an initial point of any dimension
`m + 3` (dimension three or more) the call runs the iteration; it returns
exactly when the run ends with `getItrNum() < maxItr`, and then
`getFuncMin()` is the objective value at `getOptValue()`; the only faults
are those of the trace buffer (a negative `maxItr`, the store at index
`maxItr` of a run that reaches the cap), whatever the dimension.  The
objective reads the first three coordinates of the point only. -/
theorem optimize_has_no_dimension_check (f : ObjFunc K)
    (getStep : Vec K (m + 3) → Vec K (m + 3) → Int → StepResult K)
    (sqrt : K → K) (EPS : K) (self : LineSearch) (x0 : Vec K (m + 3)) (tol : K)
    (maxItr minItr : Int) :
    (BFGS.optimizeChecked (f.env getStep sqrt EPS) self x0 tol maxItr minItr
        = if maxItr < 0 then Except.error (Fault.badLength maxItr)
          else if (BFGS.optimize (f.env getStep sqrt EPS) self x0 tol maxItr
              minItr).getItrNum < maxItr then
            Except.ok (BFGS.optimize (f.env getStep sqrt EPS) self x0 tol maxItr minItr)
          else Except.error (Fault.outOfRange maxItr))
    ∧ (∀ o : Optimizer K (m + 3),
        BFGS.optimizeChecked (f.env getStep sqrt EPS) self x0 tol maxItr minItr
            = Except.ok o →
          o.getItrNum < maxItr ∧ o.getFuncMin = f.value o.getOptValue)
    ∧ ∀ x x' : Vec K (m + 3), x 0 = x' 0 → x 1 = x' 1 → x 2 = x' 2 →
        f.value x = f.value x' := by
  refine ⟨BFGS.optimizeChecked_eq _ self x0 tol maxItr minItr, fun o ho => ?_,
    value_first_three f⟩
  obtain ⟨hlt, rfl⟩ := (BFGS.optimizeChecked_ok_iff _ self x0 tol maxItr minItr o).mp ho
  exact ⟨hlt, BFGS.fMin_optimize (f.env getStep sqrt EPS) self x0 tol maxItr minItr⟩

/-- Witness for C11 (amended): the run from the four-dimensional point
`(2,0,0,7)` returns below the cap with `getFuncMin()` the objective value at
`getOptValue()`, and the point `(2,0,0,0)`, which differs from the start
point in the fourth coordinate only, has the same objective value. -/
theorem optimize_has_no_dimension_check_witness :
    (BFGS.optimizeChecked (unitRef.env (unitStep (1 + 3)) Rat.sqrt (1 / 1000000))
        LineSearch.fresh fourStart 4 5 1
      = Except.ok (BFGS.optimize (unitRef.env (unitStep (1 + 3)) Rat.sqrt (1 / 1000000))
          LineSearch.fresh fourStart 4 5 1)
      ∧ (BFGS.optimize (unitRef.env (unitStep (1 + 3)) Rat.sqrt (1 / 1000000))
          LineSearch.fresh fourStart 4 5 1).getItrNum < 5
      ∧ (BFGS.optimize (unitRef.env (unitStep (1 + 3)) Rat.sqrt (1 / 1000000))
          LineSearch.fresh fourStart 4 5 1).getFuncMin
        = unitRef.value (BFGS.optimize (unitRef.env (unitStep (1 + 3)) Rat.sqrt (1 / 1000000))
          LineSearch.fresh fourStart 4 5 1).getOptValue)
    ∧ (fourStart 0 = (fun j : Fin (1 + 3) => if j = 0 then (2 : ℚ) else 0) 0
      ∧ fourStart 1 = (fun j : Fin (1 + 3) => if j = 0 then (2 : ℚ) else 0) 1
      ∧ fourStart 2 = (fun j : Fin (1 + 3) => if j = 0 then (2 : ℚ) else 0) 2
      ∧ fourStart 3 ≠ (fun j : Fin (1 + 3) => if j = 0 then (2 : ℚ) else 0) 3
      ∧ unitRef.value fourStart
          = unitRef.value (fun j : Fin (1 + 3) => if j = 0 then (2 : ℚ) else 0)) :=
  ⟨⟨unitRef_checked,
      (optimize_has_no_dimension_check unitRef (unitStep (1 + 3)) Rat.sqrt (1 / 1000000)
        LineSearch.fresh fourStart 4 5 1).2.1 _ unitRef_checked⟩,
    ⟨by decide, by decide, by decide, by decide,
      (optimize_has_no_dimension_check unitRef (unitStep (1 + 3)) Rat.sqrt (1 / 1000000)
        LineSearch.fresh fourStart 4 5 1).2.2
        fourStart (fun j => if j = 0 then 2 else 0) (by decide) (by decide) (by decide)⟩⟩

end DimClaim

/-! ## Two rounds of the linear objective -/

section LinearRun

theorem lin_second_iterate_sd (self : LineSearch) :
    (SteepDesc.iterate linEnv self quadStart 2).x = fun _ => -1 := by
  funext i
  simp only [SteepDesc.iterate, Function.iterate_succ, Function.iterate_zero, Function.comp,
    id, SteepDesc.body, SteepDesc.init, SteepDesc.search, SteepDesc.direction,
    linEnv, quadStart, Pi.add_apply, Pi.neg_apply]
  norm_num

theorem lin_iterations_sd (self : LineSearch) :
    SteepDesc.iterations linEnv self quadStart (1 / 2) 5 2 = 2 := by
  apply SteepDesc.iterations_eq_of_sd linEnv self quadStart (1 / 2) 5 2 2 (by decide)
  · intro m hm h
    omega
  · left
    refine ⟨by decide, ?_⟩
    rw [lin_second_iterate_sd]
    norm_num [linEnv]

end LinearRun

/-! ## The second round of BFGS on the quadratic -/

section QuadraticReal

theorem quadReal_first_g :
    (BFGS.iterate (quadEnvWith Real.sqrt (1 / 1000000)) LineSearch.fresh (fun _ => 1) 1).g
      = fun _ => 1 := by
  funext i
  have hi : i = 0 := Subsingleton.elim _ _
  subst hi
  simp only [BFGS.iterate, Function.iterate_succ, Function.iterate_zero, Function.comp,
    id, BFGS.body, BFGS.init, BFGS.secantS, BFGS.search, BFGS.direction, mulVec, eye,
    quadEnvWith, Pi.add_apply, Pi.neg_apply]
  norm_num

theorem quadReal_first_g_sd :
    (SteepDesc.iterate (quadEnvWith Real.sqrt (1 / 1000000)) LineSearch.fresh
      (fun _ => 1) 1).g = fun _ => 1 := by
  funext i
  simp only [SteepDesc.iterate, Function.iterate_succ, Function.iterate_zero, Function.comp,
    id, SteepDesc.body, SteepDesc.init, SteepDesc.search, SteepDesc.direction,
    quadEnvWith, Pi.add_apply, Pi.neg_apply]
  norm_num

theorem quadReal_first_H :
    (BFGS.iterate (quadEnvWith Real.sqrt (1 / 1000000)) LineSearch.fresh (fun _ => 1) 1).H
      = fun _ _ => 1 / 2 := by
  funext i j
  have hi : i = 0 := Subsingleton.elim _ _
  have hj : j = 0 := Subsingleton.elim _ _
  subst hi
  subst hj
  simp only [BFGS.iterate, Function.iterate_succ, Function.iterate_zero, Function.comp,
    id, BFGS.body, BFGS.init, BFGS.secantS, BFGS.secantY, BFGS.search, BFGS.direction,
    BFGS.updateH, BFGS.secantUpdate, multTr, dotProd, mulVec, eye,
    quadEnvWith, Pi.add_apply, Pi.neg_apply, Pi.sub_apply]
  norm_num [eye, multTr]

/-- Witness for C15: the quadratic `f(x) = x²` over the reals from
`x0 = (1)`, with a line search that reports failure, at the second round:
the first round took the update branch, so that `H = (1/2)` is not the
identity, and the gradient there is `(1)`. -/
theorem direction_is_descent_witness :
    (quadEnvWith Real.sqrt ((1 : ℝ) / 1000000)).sqrt = Real.sqrt
    ∧ 0 < (quadEnvWith Real.sqrt ((1 : ℝ) / 1000000)).EPS
    ∧ (BFGS.iterate (quadEnvWith Real.sqrt ((1 : ℝ) / 1000000)) LineSearch.fresh
        (fun _ => 1) 1).H = (fun _ _ => 1 / 2)
    ∧ (BFGS.iterate (quadEnvWith Real.sqrt ((1 : ℝ) / 1000000)) LineSearch.fresh
        (fun _ => 1) 1).H ≠ eye 1 1
    ∧ ((quadEnvWith Real.sqrt ((1 : ℝ) / 1000000)).getStep (fun _ => 1) (fun _ => -2)
        100).success = false
    ∧ (BFGS.iterate (quadEnvWith Real.sqrt ((1 : ℝ) / 1000000)) LineSearch.fresh
        (fun _ => 1) 1).g ≠ 0
    ∧ dotProd
        (BFGS.iterate (quadEnvWith Real.sqrt ((1 : ℝ) / 1000000)) LineSearch.fresh
          (fun _ => 1) 1).g
        (BFGS.direction
          (BFGS.iterate (quadEnvWith Real.sqrt ((1 : ℝ) / 1000000)) LineSearch.fresh
            (fun _ => 1) 1).H
          (BFGS.iterate (quadEnvWith Real.sqrt ((1 : ℝ) / 1000000)) LineSearch.fresh
            (fun _ => 1) 1).g) < 0
    ∧ (SteepDesc.iterate (quadEnvWith Real.sqrt ((1 : ℝ) / 1000000)) LineSearch.fresh
        (fun _ => 1) 1).g ≠ 0
    ∧ dotProd
        (SteepDesc.iterate (quadEnvWith Real.sqrt ((1 : ℝ) / 1000000)) LineSearch.fresh
          (fun _ => 1) 1).g
        (SteepDesc.direction
          (SteepDesc.iterate (quadEnvWith Real.sqrt ((1 : ℝ) / 1000000)) LineSearch.fresh
            (fun _ => 1) 1).g) < 0 :=
  have hEPS : 0 < (quadEnvWith Real.sqrt ((1 : ℝ) / 1000000)).EPS := by
    norm_num [quadEnvWith]
  have hH : (BFGS.iterate (quadEnvWith Real.sqrt ((1 : ℝ) / 1000000)) LineSearch.fresh
      (fun _ => 1) 1).H ≠ eye 1 1 := by
    rw [quadReal_first_H]
    intro hcon
    have h := congrFun (congrFun hcon 0) 0
    norm_num [eye] at h
  have hg : (BFGS.iterate (quadEnvWith Real.sqrt ((1 : ℝ) / 1000000)) LineSearch.fresh
      (fun _ => 1) 1).g ≠ 0 := by
    rw [quadReal_first_g]
    intro hcon
    have h := congrFun hcon 0
    norm_num at h
  have hgs : (SteepDesc.iterate (quadEnvWith Real.sqrt ((1 : ℝ) / 1000000)) LineSearch.fresh
      (fun _ => 1) 1).g ≠ 0 := by
    rw [quadReal_first_g_sd]
    intro hcon
    have h := congrFun hcon 0
    norm_num at h
  ⟨rfl, hEPS, quadReal_first_H, hH, rfl, hg,
    (direction_is_descent (quadEnvWith Real.sqrt ((1 : ℝ) / 1000000)) rfl hEPS
      LineSearch.fresh (fun _ => 1) 1).2.1 hg,
    hgs,
    (direction_is_descent (quadEnvWith Real.sqrt ((1 : ℝ) / 1000000)) rfl hEPS
      LineSearch.fresh (fun _ => 1) 1).1 hgs⟩

end QuadraticReal

end splab
